import Mathlib

/-!
compute_born.cpp : a shallow embedding

The file `src/compute_born.cpp` accumulates the 21 independent entries of the
Born (elastic stiffness) tensor from pair, bond, angle and dihedral
interactions.  This development embeds the constructor, `init`,
`compute_vector` and the four engines as Lean functions and states the
properties of the specification over them.

Conventions of the embedding.

* `double` is an arbitrary linearly ordered field `K` (exact arithmetic); the
  library `sqrt` is a field of the host record, since it has no exact
  counterpart in a field.  In a field `1/0 = 0`, where IEEE arithmetic gives
  an infinity; no statement below relies on a division by zero.  The one
  property for which the non-finite values of `double` decide, the zero
  components of a pair displacement, is stated over `Dbl`: finite values,
  the two infinities and NaN, with a rounding function that may overflow.
* C arrays are functions from indices; the fixed-size arrays of the class
  (`values_local`, `values_global`, `vector`, 21 entries each) are functions
  `Nat → K` of which only the entries `0..20` are meaningful.
* Loop variables are explicit.  The C variable `i` is shared between the
  record loops and the inner tensor loops `for (i = 0; i < 21; i++)`, so the
  record loops carry the value of `i` from one iteration to the next.
* A record loop whose counter is rewritten by its body need not terminate,
  so these loops take fuel and return `Option`; `none` means that the fuel
  ran out (or that a style pointer that is dereferenced is `NULL`).
* Every call of a style's `born` method is appended to a log kept next to the
  accumulator, so that statements about which calls are made can be stated.
-/

namespace ComputeBorn

/-! ## Collaborators (host simulation) -/

/-- One call of a style's `born` method, with the arguments it received. -/
inductive BornCall (K : Type) where
  | pair (i j itype jtype : Nat) (rsq factor_coul factor_lj : K)
  | bond (btype : Int) (rsq : K) (atom1 atom2 : Nat)
  | angle (atype : Int) (atom1 atom2 atom3 : Nat)
  | dihedral (nd : Int) (atom1 atom2 atom3 atom4 : Nat)
  deriving DecidableEq

/-- The class `Pair` as far as compute_born.cpp reads it: `born_enable`,
`cutsq[itype][jtype]` and `born(i,j,itype,jtype,rsq,factor_coul,factor_lj)`,
which returns `(dupair, du2pair)`. -/
structure PairStyle (K : Type) where
  born_enable : Int
  cutsq : Nat → Nat → K
  born : Nat → Nat → Nat → Nat → K → K → K → K × K

/-- The class `Bond`: `born_enable` and `born(btype,rsq,atom1,atom2)`. -/
structure BondStyle (K : Type) where
  born_enable : Int
  born : Int → K → Nat → Nat → K × K

/-- The class `Angle`: `born_enable` and `born(atype,atom1,atom2,atom3)`. -/
structure AngleStyle (K : Type) where
  born_enable : Int
  born : Int → Nat → Nat → Nat → K × K

/-- The class `Dihedral`: `born_enable` and
`born(first,atom1,atom2,atom3,atom4)`. -/
structure DihedralStyle (K : Type) where
  born_enable : Int
  born : Int → Nat → Nat → Nat → Nat → K × K

/-- The class `Improper`: only `born_enable` is read (by `init`). -/
structure ImproperStyle where
  born_enable : Int

/-- The object `force`: the five style pointers (`none` is `NULL`), the
special-bond scale tables and the two newton settings. -/
structure Force (K : Type) where
  pair : Option (PairStyle K)
  bond : Option (BondStyle K)
  angle : Option (AngleStyle K)
  dihedral : Option (DihedralStyle K)
  improper : Option ImproperStyle
  special_coul : Nat → K
  special_lj : Nat → K
  newton_pair : Int
  newton_bond : Int

/-- The object `domain`: dimension, triclinic flag and the minimum-image
correction applied to a displacement `(dx,dy,dz)`. -/
structure Domain (K : Type) where
  dimension : Int
  triclinic : Int
  minimum_image : K × K × K → K × K × K

/-- A molecule template (`onemols[imol]`): per row (an `int` index), the
bonded records with template-relative tags. -/
structure Molecule where
  num_bond : Int → Nat
  bond_type : Int → Nat → Int
  bond_atom : Int → Nat → Int
  num_angle : Int → Nat
  angle_type : Int → Nat → Int
  angle_atom1 : Int → Nat → Int
  angle_atom2 : Int → Nat → Int
  angle_atom3 : Int → Nat → Int
  num_dihedral : Int → Nat
  dihedral_type : Int → Nat → Int
  dihedral_atom1 : Int → Nat → Int
  dihedral_atom2 : Int → Nat → Int
  dihedral_atom3 : Int → Nat → Int
  dihedral_atom4 : Int → Nat → Int
  num_improper : Int → Nat
  improper_type : Int → Nat → Int
  improper_atom1 : Int → Nat → Int
  improper_atom2 : Int → Nat → Int
  improper_atom3 : Int → Nat → Int
  improper_atom4 : Int → Nat → Int

/-- The object `atom`: per-atom arrays (local atoms are `0..nlocal-1`, ghosts
follow), the per-atom bonded topology, the molecule-template indirection and
`map`, which sends a global tag to a local or ghost index, or to `-1`. -/
structure Atom (K : Type) where
  nlocal : Nat
  x : Nat → Nat → K
  type : Nat → Nat
  mask : Nat → Nat
  tag : Nat → Int
  map : Int → Int
  molecular : Int
  molindex : Nat → Int
  molatom : Nat → Int
  onemols : Int → Molecule
  num_bond : Nat → Nat
  bond_type : Nat → Nat → Int
  bond_atom : Nat → Nat → Int
  num_angle : Nat → Nat
  angle_type : Nat → Nat → Int
  angle_atom1 : Nat → Nat → Int
  angle_atom2 : Nat → Nat → Int
  angle_atom3 : Nat → Nat → Int
  num_dihedral : Nat → Nat
  dihedral_type : Nat → Nat → Int
  dihedral_atom1 : Nat → Nat → Int
  dihedral_atom2 : Nat → Nat → Int
  dihedral_atom3 : Nat → Nat → Int
  dihedral_atom4 : Nat → Nat → Int
  num_improper : Nat → Nat
  improper_type : Nat → Nat → Int
  improper_atom1 : Nat → Nat → Int
  improper_atom2 : Nat → Nat → Int
  improper_atom3 : Nat → Nat → Int
  improper_atom4 : Nat → Nat → Int

/-- The half neighbor list handed over by `init_list`, after
`neighbor->build_one(list)`.  An entry of `firstneigh[i]` is a neighbor index
with the special-bond code in its high bits: `sbmask` extracts the code and
`neighmask` is `j & NEIGHMASK`. -/
structure NeighList where
  inum : Nat
  ilist : Nat → Nat
  numneigh : Nat → Nat
  firstneigh : Nat → Nat → Nat
  sbmask : Nat → Nat
  neighmask : Nat → Nat

/-- Everything one worker reads during setup and one invocation.
`albe` and `albemunu` are the two index tables of compute_born.h.
`rinv_pairs` is the value the local `rinv` of `compute_pairs` holds when it
is read: the variable is declared and never assigned there, so its value is
an input of the embedding. -/
structure Host (K : Type) where
  domain : Domain K
  force : Force K
  atom : Atom K
  list : NeighList
  groupbit : Nat
  ntimestep : Int
  sqrt : K → K
  albe : Nat → Nat → Nat
  albemunu : Nat → Nat → Nat
  rinv_pairs : K

/-! ## The compute object -/

/-- The data members of `ComputeBorn`, with the log of `born` calls. -/
structure Born (K : Type) where
  nvalues : Nat
  pairflag : Int
  bondflag : Int
  angleflag : Int
  dihedflag : Int
  impflag : Int
  invoked_array : Int
  values_local : Nat → K
  values_global : Nat → K
  vector : Nat → K
  calls : List (BornCall K)

/-- What an engine changes: the local accumulator and the call log. -/
structure Acc (K : Type) where
  values_local : Nat → K
  calls : List (BornCall K)

variable {K : Type} [LinearOrderedField K]

set_option linter.unusedSectionVars false

/-- The statement `values_local[m+i] += term(i)` for `i = 0..20`. -/
def add21 (m : Nat) (term : Nat → K) (v : Nat → K) : Nat → K :=
  (List.range 21).foldl
    (fun w i => Function.update w (m + i) (w (m + i) + term i)) v

/-- The loop `m = 0; while (m < nvalues) { body; m += 21; }`. -/
def whileM (nvalues : Nat) (body : Nat → Acc K → Option (Acc K)) :
    Nat → Nat → Acc K → Option (Acc K)
  | 0, _, _ => none
  | fuel + 1, m, st =>
    if m < nvalues then
      match body m st with
      | none => none
      | some st1 => whileM nvalues body fuel (m + 21) st1
    else some st

/-- A `for (k = 0; k < n; k++)` loop whose counter the body leaves alone. -/
def forRange (n : Nat) (body : Nat → Acc K → Option (Acc K)) (st : Acc K) :
    Option (Acc K) :=
  (List.range n).foldl (fun o k => o.bind (body k)) (some st)

/-- The array `{dx, dy, dz}` of a displacement returned by
`domain->minimum_image`. -/
def vec3 (t : K × K × K) : Nat → K :=
  fun a => if a = 0 then t.1 else if a = 1 then t.2.1 else t.2.2

/-- The sum `u[0]*v[0] + u[1]*v[1] + u[2]*v[2]`. -/
def dot3 (u v : Nat → K) : K := u 0 * v 0 + u 1 * v 1 + u 2 * v 2

/-! ## compute_pairs (lines 215-314) -/

/-- The amount `pair_pref*rij[a]*rij[b]*rij[c]*rij[d]*r2inv` that the tensor
loops of `compute_pairs` and `compute_bonds` add to entry `k`, with
`(a,b,c,d) = albemunu[k]`. -/
def pair_term (albemunu : Nat → Nat → Nat) (pair_pref : K) (rij : Nat → K)
    (r2inv : K) (k : Nat) : K :=
  pair_pref * rij (albemunu k 0) * rij (albemunu k 1) * rij (albemunu k 2) *
    rij (albemunu k 3) * r2inv

/-- The squared separation `rsq = delx*delx + dely*dely + delz*delz` of line
285, with `del = xi - xj`. -/
def pair_rsq (xi xj : Nat → K) : K :=
  (xi 0 - xj 0) * (xi 0 - xj 0) + (xi 1 - xj 1) * (xi 1 - xj 1) +
    (xi 2 - xj 2) * (xi 2 - xj 2)

/-- The body of the `jj` loop (lines 269-309) for the list entry `jraw`.
The state is the value of the C variable `i` and the accumulator: `xi`,
`itype` and `jlist` were read before the loop, but `born` receives the
current `i`, and the tensor loop leaves `i = 21`. -/
def pairs_jj (H : Host K) (P : PairStyle K) (m : Nat) (xi : Nat → K)
    (itype jraw : Nat) (s : Nat × Acc K) : Nat × Acc K :=
  let factor_lj := H.force.special_lj (H.list.sbmask jraw)
  let factor_coul := H.force.special_coul (H.list.sbmask jraw)
  let j := H.list.neighmask jraw
  if H.atom.mask j &&& H.groupbit = 0 then s
  else
    let xj : Nat → K := fun a => H.atom.x j a
    let rij : Nat → K := fun a => xj a - xi a
    let rsq := pair_rsq xi xj
    let r2inv := 1 / rsq
    let jtype := H.atom.type j
    if rsq ≥ P.cutsq itype jtype then s
    else if H.force.newton_pair ≠ 0 ∨ j < H.atom.nlocal then
      let du := P.born s.1 j itype jtype rsq factor_coul factor_lj
      let pair_pref := du.2 - du.1 * H.rinv_pairs
      (21,
        { values_local :=
            add21 m (pair_term H.albemunu pair_pref rij r2inv) s.2.values_local
          calls := s.2.calls ++
            [BornCall.pair s.1 j itype jtype rsq factor_coul factor_lj] })
    else s

/-- The body of the `ii` loop (lines 258-310). -/
def pairs_ii (H : Host K) (P : PairStyle K) (m ii : Nat) (st : Acc K) : Acc K :=
  let i := H.list.ilist ii
  if H.atom.mask i &&& H.groupbit = 0 then st
  else
    let xi : Nat → K := fun a => H.atom.x i a
    let itype := H.atom.type i
    let jnum := H.list.numneigh i
    ((List.range jnum).foldl
      (fun s jj => pairs_jj H P m xi itype (H.list.firstneigh i jj) s) (i, st)).2

/-- The function `compute_pairs`.  `force->pair->cutsq` is read on entry, so
a `NULL` pair style gives no result. -/
def compute_pairs (H : Host K) (nvalues : Nat) (st : Acc K) : Option (Acc K) :=
  match H.force.pair with
  | none => none
  | some P =>
    whileM nvalues
      (fun m s => some ((List.range H.list.inum).foldl
        (fun t ii => pairs_ii H P m ii t) s))
      (nvalues + 1) 0 st

/-! ## compute_bonds (lines 325-417) -/

/-- The type `btype` of record `i` of `atom1` (lines 373 and 377). -/
def bonds_btype (H : Host K) (atom1 : Nat) (imol iatom : Int) (i : Nat) : Int :=
  if H.atom.molecular = 1 then H.atom.bond_type atom1 i
  else (H.atom.onemols imol).bond_type iatom i

/-- The partner `atom2` of record `i` of `atom1` (lines 374 and 376-378), with
`tagprev = tag[atom1] - iatom - 1`. -/
def bonds_atom2 (H : Host K) (atom1 : Nat) (imol iatom : Int) (i : Nat) : Int :=
  if H.atom.molecular = 1 then H.atom.map (H.atom.bond_atom atom1 i)
  else H.atom.map ((H.atom.onemols imol).bond_atom iatom i + (H.atom.tag atom1 - iatom - 1))

/-- The minimum-image displacement from local atom `p` to atom `q`
(`x[q] - x[p]`, then `domain->minimum_image`). -/
def min_image_del (H : Host K) (p q : Nat) : Nat → K :=
  vec3 (H.domain.minimum_image
    (H.atom.x q 0 - H.atom.x p 0, H.atom.x q 1 - H.atom.x p 1, H.atom.x q 2 - H.atom.x p 2))

/-- The body of the bond loop (lines 372-412) for record `i` of `atom1`.
Returns the value of `i` at the end of the body (`i` itself on `continue`,
`21` after the tensor loop) and the accumulator. -/
def bonds_body (H : Host K) (B : BondStyle K) (m atom1 : Nat) (imol iatom : Int)
    (i : Nat) (st : Acc K) : Nat × Acc K :=
  let btype := bonds_btype H atom1 imol iatom i
  let atom2 := bonds_atom2 H atom1 imol iatom i
  if atom2 < 0 ∨ H.atom.mask atom2.toNat &&& H.groupbit = 0 then (i, st)
  else if H.force.newton_bond = 0 ∧ H.atom.tag atom1 > H.atom.tag atom2.toNat then
    (i, st)
  else if btype ≤ 0 then (i, st)
  else
    let rij := min_image_del H atom1 atom2.toNat
    let rsq := rij 0 * rij 0 + rij 1 * rij 1 + rij 2 * rij 2
    let r2inv := 1 / rsq
    let rinv := H.sqrt r2inv
    let du := B.born btype rsq atom1 atom2.toNat
    let pair_pref := du.2 - du.1 * rinv
    (21,
      { values_local :=
          add21 m (pair_term H.albemunu pair_pref rij r2inv) st.values_local
        calls := st.calls ++ [BornCall.bond btype rsq atom1 atom2.toNat] })

/-- The loop `for (i = 0; i < nb; i++)` of `compute_bonds`, started at `i`.
The increment applies to the value the body leaves in `i`. -/
def bonds_loop (H : Host K) (B : BondStyle K) (m atom1 nb : Nat)
    (imol iatom : Int) : Nat → Nat → Acc K → Option (Acc K)
  | 0, _, _ => none
  | fuel + 1, i, st =>
    if i < nb then
      let r := bonds_body H B m atom1 imol iatom i st
      bonds_loop H B m atom1 nb imol iatom fuel (r.1 + 1) r.2
    else some st

/-- The body of the `atom1` loop (lines 361-413).  In the branch
`molecular == 1` the locals `imol` and `iatom` are not read. -/
def bonds_atom (H : Host K) (B : BondStyle K) (m fuel atom1 : Nat) (st : Acc K) :
    Option (Acc K) :=
  if H.atom.mask atom1 &&& H.groupbit = 0 then some st
  else if H.atom.molecular = 1 then
    bonds_loop H B m atom1 (H.atom.num_bond atom1) 0 0 fuel 0 st
  else if H.atom.molindex atom1 < 0 then some st
  else
    let imol := H.atom.molindex atom1
    let iatom := H.atom.molatom atom1
    bonds_loop H B m atom1 ((H.atom.onemols imol).num_bond iatom) imol iatom fuel 0 st

/-- The function `compute_bonds`.  It is run only when `bondflag` is set,
which `init` does only for a bond style that is not `NULL`. -/
def compute_bonds (H : Host K) (fuel nvalues : Nat) (st : Acc K) : Option (Acc K) :=
  match H.force.bond with
  | none => none
  | some B =>
    whileM nvalues (fun m s => forRange H.atom.nlocal (bonds_atom H B m fuel) s)
      (nvalues + 1) 0 st

/-! ## compute_angles (lines 428-581) -/

/-- The clamped cosine `cost` of lines 536-539. -/
def angle_cost (sqrt : K → K) (del1 del2 : Nat → K) : K :=
  let r1 := sqrt (dot3 del1 del1)
  let r2 := sqrt (dot3 del2 del2)
  let c := dot3 del1 del2 / (r1 * r2)
  let c1 := if c > 1 then 1 else c
  if c1 < -1 then -1 else c1

/-- The array `dcos[6]` after the loop of lines 556-561.  Entries outside
`0..5` do not exist in the C array; they read as `0` here. -/
def angle_dcos (albe : Nat → Nat → Nat) (sqrt : K → K) (del1 del2 : Nat → K)
    (i : Nat) : K :=
  if i < 6 then
    let a := albe i 0
    let b := albe i 1
    let rsq1inv := 1 / dot3 del1 del1
    let rsq2inv := 1 / dot3 del2 del2
    let r1r2inv := 1 / dot3 del1 del2
    angle_cost sqrt del1 del2 *
      (del1 a * del2 b + del1 b * del2 a * r1r2inv - del1 a * del1 b * rsq1inv -
        del2 a * del2 b * rsq2inv)
  else 0

/-- The value `d2lncos[i]` of lines 569-573. -/
def angle_d2lncos (albemunu : Nat → Nat → Nat) (del1 del2 : Nat → K) (i : Nat) : K :=
  let a := albemunu i 0
  let b := albemunu i 1
  let c := albemunu i 2
  let d := albemunu i 3
  let rsq1inv := 1 / dot3 del1 del1
  let rsq2inv := 1 / dot3 del2 del2
  let r1r2inv := 1 / dot3 del1 del2
  2 * (del1 a * del1 b * del1 c * del1 d * rsq1inv * rsq1inv +
        del2 a * del2 b * del2 c * del2 d * rsq2inv * rsq2inv) -
    (del1 a * del2 b + del1 b * del2 a) * (del1 c * del2 d + del1 d * del2 c) *
      r1r2inv * r1r2inv

/-- The value `d2cos[i]` of line 574, with `e = albe[i][0]`, `f = albe[i][1]`
and `cinv = 1.0/cost`. -/
def angle_d2cos (albe albemunu : Nat → Nat → Nat) (sqrt : K → K)
    (del1 del2 : Nat → K) (i : Nat) : K :=
  let e := albe i 0
  let f := albe i 1
  let cost := angle_cost sqrt del1 del2
  let cinv := 1 / cost
  cost * angle_d2lncos albemunu del1 del2 i +
    angle_dcos albe sqrt del1 del2 e * angle_dcos albe sqrt del1 del2 f * cinv

/-- The amount added to `values_local[m+i]` on line 575. -/
def angle_term (albe albemunu : Nat → Nat → Nat) (sqrt : K → K)
    (del1 del2 : Nat → K) (duang du2ang : K) (i : Nat) : K :=
  let e := albe i 0
  let f := albe i 1
  duang * angle_d2cos albe albemunu sqrt del1 del2 i +
    du2ang * angle_dcos albe sqrt del1 del2 e * angle_dcos albe sqrt del1 del2 f

/-- The tag the source compares with `tag[atom2]` on lines 490 and 495.  In
the template branch the row of `onemols[imol]` is `atom2`, as in the source. -/
def angles_stored2 (H : Host K) (atom2 : Nat) (imol : Int) (i : Nat) : Int :=
  if H.atom.molecular = 1 then H.atom.angle_atom2 atom2 i
  else (H.atom.onemols imol).angle_atom2 atom2 i

/-- The type `atype` of record `i` (lines 491 and 496). -/
def angles_atype (H : Host K) (atom2 : Nat) (imol : Int) (i : Nat) : Int :=
  if H.atom.molecular = 1 then H.atom.angle_type atom2 i
  else (H.atom.onemols imol).angle_type atom2 i

/-- The flank `atom1` of record `i` (lines 492 and 497-498). -/
def angles_atom1 (H : Host K) (atom2 : Nat) (imol iatom : Int) (i : Nat) : Int :=
  if H.atom.molecular = 1 then H.atom.map (H.atom.angle_atom1 atom2 i)
  else H.atom.map
    ((H.atom.onemols imol).angle_atom1 atom2 i + (H.atom.tag atom2 - iatom - 1))

/-- The flank `atom3` of record `i` (lines 493 and 497-499). -/
def angles_atom3 (H : Host K) (atom2 : Nat) (imol iatom : Int) (i : Nat) : Int :=
  if H.atom.molecular = 1 then H.atom.map (H.atom.angle_atom3 atom2 i)
  else H.atom.map
    ((H.atom.onemols imol).angle_atom3 atom2 i + (H.atom.tag atom2 - iatom - 1))

/-- The body of the angle loop (lines 489-576) for record `i` of `atom2`.
Returns the value of `i` at the end of the body and the accumulator. -/
def angles_body (H : Host K) (A : AngleStyle K) (m atom2 : Nat) (imol iatom : Int)
    (i : Nat) (st : Acc K) : Nat × Acc K :=
  let atype := angles_atype H atom2 imol i
  let atom1 := angles_atom1 H atom2 imol iatom i
  let atom3 := angles_atom3 H atom2 imol iatom i
  if H.atom.tag atom2 ≠ angles_stored2 H atom2 imol i then (i, st)
  else if atom1 < 0 ∨ H.atom.mask atom1.toNat &&& H.groupbit = 0 then (i, st)
  else if atom3 < 0 ∨ H.atom.mask atom3.toNat &&& H.groupbit = 0 then (i, st)
  else if atype ≤ 0 then (i, st)
  else
    let del1 := min_image_del H atom2 atom1.toNat
    let del2 := min_image_del H atom2 atom3.toNat
    let du := A.born atype atom1.toNat atom2 atom3.toNat
    (21,
      { values_local :=
          add21 m (angle_term H.albe H.albemunu H.sqrt del1 del2 du.1 du.2)
            st.values_local
        calls := st.calls ++ [BornCall.angle atype atom1.toNat atom2 atom3.toNat] })

/-- The loop `for (i = 0; i < na; i++)` of `compute_angles`, started at `i`. -/
def angles_loop (H : Host K) (A : AngleStyle K) (m atom2 na : Nat)
    (imol iatom : Int) : Nat → Nat → Acc K → Option (Acc K)
  | 0, _, _ => none
  | fuel + 1, i, st =>
    if i < na then
      let r := angles_body H A m atom2 imol iatom i st
      angles_loop H A m atom2 na imol iatom fuel (r.1 + 1) r.2
    else some st

/-- The body of the `atom2` loop of `compute_angles` (lines 478-577). -/
def angles_atom (H : Host K) (A : AngleStyle K) (m fuel atom2 : Nat) (st : Acc K) :
    Option (Acc K) :=
  if H.atom.mask atom2 &&& H.groupbit = 0 then some st
  else if H.atom.molecular = 1 then
    angles_loop H A m atom2 (H.atom.num_angle atom2) 0 0 fuel 0 st
  else if H.atom.molindex atom2 < 0 then some st
  else
    let imol := H.atom.molindex atom2
    let iatom := H.atom.molatom atom2
    angles_loop H A m atom2 ((H.atom.onemols imol).num_angle iatom) imol iatom fuel 0 st

/-- The function `compute_angles`, run only when `angleflag` is set. -/
def compute_angles (H : Host K) (fuel nvalues : Nat) (st : Acc K) : Option (Acc K) :=
  match H.force.angle with
  | none => none
  | some A =>
    whileM nvalues (fun m s => forRange H.atom.nlocal (angles_atom H A m fuel) s)
      (nvalues + 1) 0 st

/-! ## compute_dihedrals (lines 591-803) -/

/-- The value `ra2inv` (from `b1` and the re-wrapped `-b2`) of lines 734-747;
`rb2inv` is the same expression with `b3` for `b1`. -/
def dih_r2inv (u w : Nat → K) : K :=
  let ax := u 1 * w 2 - u 2 * w 1
  let ay := u 2 * w 0 - u 0 * w 2
  let az := u 0 * w 1 - u 1 * w 0
  let rasq := ax * ax + ay * ay + az * az
  if rasq > 0 then 1 / rasq else 0

/-- The value `rabinv = sqrt(ra2inv*rb2inv)` of line 749. -/
def dih_rabinv (sqrt : K → K) (b1 b3 vb2m : Nat → K) : K :=
  sqrt (dih_r2inv b1 vb2m * dih_r2inv b3 vb2m)

/-- The clamped cosine `co` of lines 751-755. -/
def dih_co (sqrt : K → K) (b1 b3 vb2m : Nat → K) : K :=
  let ax := b1 1 * vb2m 2 - b1 2 * vb2m 1
  let ay := b1 2 * vb2m 0 - b1 0 * vb2m 2
  let az := b1 0 * vb2m 1 - b1 1 * vb2m 0
  let bx := b3 1 * vb2m 2 - b3 2 * vb2m 1
  let by1 := b3 2 * vb2m 0 - b3 0 * vb2m 2
  let bz := b3 0 * vb2m 1 - b3 1 * vb2m 0
  let c := (ax * bx + ay * by1 + az * bz) * dih_rabinv sqrt b1 b3 vb2m
  let c1 := if c > 1 then 1 else c
  if c1 < -1 then -1 else c1

/-- The array `dmm[6]` of line 769 (`0` outside `0..5`). -/
def dih_dmm (albe : Nat → Nat → Nat) (b1 b2 : Nat → K) (i : Nat) : K :=
  if i < 6 then
    let a := albe i 0
    let b := albe i 1
    2 * (dot3 b2 b2 * b1 a * b1 b + dot3 b1 b1 * b2 a * b2 b -
      dot3 b1 b2 * (b1 a * b2 b + b1 b * b2 a))
  else 0

/-- The array `dnn[6]` of line 770 (`0` outside `0..5`). -/
def dih_dnn (albe : Nat → Nat → Nat) (b2 b3 : Nat → K) (i : Nat) : K :=
  if i < 6 then
    let a := albe i 0
    let b := albe i 1
    2 * (dot3 b3 b3 * b2 a * b2 b + dot3 b2 b2 * b3 a * b3 b -
      dot3 b2 b3 * (b2 a * b3 b + b2 b * b3 a))
  else 0

/-- The array `dmn[6]` of lines 771-772 (`0` outside `0..5`). -/
def dih_dmn (albe : Nat → Nat → Nat) (b1 b2 b3 : Nat → K) (i : Nat) : K :=
  if i < 6 then
    let a := albe i 0
    let b := albe i 1
    dot3 b1 b2 * (b2 a * b3 b + b2 b * b3 a) + dot3 b2 b3 * (b1 a * b2 b + b1 b * b2 a) -
      2 * (dot3 b1 b3 * b2 a * b2 b) - dot3 b2 b2 * (b1 a * b3 b + b1 b * b3 a)
  else 0

/-- The array `dcos[6]` of line 773 (`0` outside `0..5`). -/
def dih_dcos (albe : Nat → Nat → Nat) (sqrt : K → K) (b1 b2 b3 vb2m : Nat → K)
    (i : Nat) : K :=
  if i < 6 then
    let rabinv := dih_rabinv sqrt b1 b3 vb2m
    dih_co sqrt b1 b3 vb2m *
      (rabinv * rabinv * dih_dmn albe b1 b2 b3 i -
        dih_r2inv b1 vb2m * dih_dmm albe b1 b2 i -
        dih_r2inv b3 vb2m * dih_dnn albe b2 b3 i) / 2
  else 0

/-- The value `d2mm[i]` of lines 782-783. -/
def dih_d2mm (albemunu : Nat → Nat → Nat) (b1 b2 : Nat → K) (i : Nat) : K :=
  let a := albemunu i 0
  let b := albemunu i 1
  let c := albemunu i 2
  let d := albemunu i 3
  4 * (b1 a * b1 b * b2 c * b2 d + b1 c * b1 d * b2 a * b2 b) -
    8 * (b1 a * b2 b + b1 b * b2 a) * (b1 c * b2 d + b1 d * b2 c)

/-- The value `d2nn[i]` of lines 784-785. -/
def dih_d2nn (albemunu : Nat → Nat → Nat) (b2 b3 : Nat → K) (i : Nat) : K :=
  let a := albemunu i 0
  let b := albemunu i 1
  let c := albemunu i 2
  let d := albemunu i 3
  4 * (b2 a * b2 b * b3 c * b3 d + b2 c * b2 d * b3 a * b3 b) -
    8 * (b2 a * b3 b + b2 b * b3 a) * (b2 c * b3 d + b2 d * b3 c)

/-- The value `d2mn[i]` of lines 786-789. -/
def dih_d2mn (albemunu : Nat → Nat → Nat) (b1 b2 b3 : Nat → K) (i : Nat) : K :=
  let a := albemunu i 0
  let b := albemunu i 1
  let c := albemunu i 2
  let d := albemunu i 3
  (b1 a * b2 b + b1 b * b2 a) * (b2 c * b3 d + b2 d * b3 c) +
    (b2 a * b3 b + b2 b * b3 a) * (b1 c * b2 d + b1 d * b2 d) -
    (b1 a * b3 b + b1 b * b3 a) * (b2 c * b2 d + b2 c * b2 d) -
    (b1 c * b3 d + b1 d * b3 c) * (b2 a * b2 b + b2 a * b2 b)

/-- The value `d2cos[i]` of lines 790-796. -/
def dih_d2cos (albe albemunu : Nat → Nat → Nat) (sqrt : K → K)
    (b1 b2 b3 vb2m : Nat → K) (i : Nat) : K :=
  let e := albe i 0
  let f := albe i 1
  let rabinv := dih_rabinv sqrt b1 b3 vb2m
  let ra2inv := dih_r2inv b1 vb2m
  let rb2inv := dih_r2inv b3 vb2m
  dih_co sqrt b1 b3 vb2m / 2 *
    (rabinv * rabinv * dih_d2mn albemunu b1 b2 b3 i -
      rabinv * rabinv * rabinv * rabinv * dih_dmn albe b1 b2 b3 e * dih_dmn albe b1 b2 b3 f +
      ra2inv * ra2inv * dih_dmm albe b1 b2 e * dih_dmm albe b1 b2 f -
      ra2inv * dih_d2mm albemunu b1 b2 i +
      rb2inv * rb2inv * dih_dnn albe b2 b3 e * dih_dnn albe b2 b3 f -
      rb2inv * dih_d2nn albemunu b2 b3 i)

/-- The amount added to `values_local[m+i]` on line 797. -/
def dih_term (albe albemunu : Nat → Nat → Nat) (sqrt : K → K)
    (b1 b2 b3 vb2m : Nat → K) (dudih du2dih : K) (i : Nat) : K :=
  let e := albe i 0
  let f := albe i 1
  dudih * dih_d2cos albe albemunu sqrt b1 b2 b3 vb2m i +
    du2dih * dih_dcos albe sqrt b1 b2 b3 vb2m e * dih_dcos albe sqrt b1 b2 b3 vb2m f

/-- The tag the source compares with `tag[atom2]` on lines 672 and 677 (row
`atom2` of the template in the second branch, as in the source). -/
def dihedrals_stored2 (H : Host K) (atom2 : Nat) (imol : Int) (i : Nat) : Int :=
  if H.atom.molecular = 1 then H.atom.dihedral_atom2 atom2 i
  else (H.atom.onemols imol).dihedral_atom2 atom2 i

/-- The atom `atom1` of record `i` (lines 673 and 678-679). -/
def dihedrals_atom1 (H : Host K) (atom2 : Nat) (imol iatom : Int) (i : Nat) : Int :=
  if H.atom.molecular = 1 then H.atom.map (H.atom.dihedral_atom1 atom2 i)
  else H.atom.map
    ((H.atom.onemols imol).dihedral_atom1 atom2 i + (H.atom.tag atom2 - iatom - 1))

/-- The atom `atom3` of record `i` (lines 674 and 680). -/
def dihedrals_atom3 (H : Host K) (atom2 : Nat) (imol iatom : Int) (i : Nat) : Int :=
  if H.atom.molecular = 1 then H.atom.map (H.atom.dihedral_atom3 atom2 i)
  else H.atom.map
    ((H.atom.onemols imol).dihedral_atom3 atom2 i + (H.atom.tag atom2 - iatom - 1))

/-- The atom `atom4` of record `i` (lines 675 and 681). -/
def dihedrals_atom4 (H : Host K) (atom2 : Nat) (imol iatom : Int) (i : Nat) : Int :=
  if H.atom.molecular = 1 then H.atom.map (H.atom.dihedral_atom4 atom2 i)
  else H.atom.map
    ((H.atom.onemols imol).dihedral_atom4 atom2 i + (H.atom.tag atom2 - iatom - 1))

/-- The body of the dihedral loop (lines 671-798) for record `i` of `atom2`,
whose record count is `nd`.  Returns the value of `i` at the end of the body
and the accumulator.  The record's type is not read; `born` receives `nd`.
The value `si` and the angle `phi = atan2(si,co)` are computed by the source
and not used afterwards; they are left out. -/
def dihedrals_body (H : Host K) (D : DihedralStyle K) (m atom2 nd : Nat)
    (imol iatom : Int) (i : Nat) (st : Acc K) : Nat × Acc K :=
  let atom1 := dihedrals_atom1 H atom2 imol iatom i
  let atom3 := dihedrals_atom3 H atom2 imol iatom i
  let atom4 := dihedrals_atom4 H atom2 imol iatom i
  if H.atom.tag atom2 ≠ dihedrals_stored2 H atom2 imol i then (i, st)
  else if atom1 < 0 ∨ H.atom.mask atom1.toNat &&& H.groupbit = 0 then (i, st)
  else if atom3 < 0 ∨ H.atom.mask atom3.toNat &&& H.groupbit = 0 then (i, st)
  else if atom4 < 0 ∨ H.atom.mask atom4.toNat &&& H.groupbit = 0 then (i, st)
  else
    let du := D.born nd atom1.toNat atom2 atom3.toNat atom4.toNat
    let b1 := min_image_del H atom2 atom1.toNat
    let b2 := min_image_del H atom2 atom3.toNat
    let vb2m := vec3 (H.domain.minimum_image (-b2 0, -b2 1, -b2 2))
    let b3 := min_image_del H atom3.toNat atom4.toNat
    (21,
      { values_local :=
          add21 m (dih_term H.albe H.albemunu H.sqrt b1 b2 b3 vb2m du.1 du.2)
            st.values_local
        calls := st.calls ++
          [BornCall.dihedral nd atom1.toNat atom2 atom3.toNat atom4.toNat] })

/-- The loop `for (i = 0; i < nd; i++)` of `compute_dihedrals`, started at
`i`. -/
def dihedrals_loop (H : Host K) (D : DihedralStyle K) (m atom2 nd : Nat)
    (imol iatom : Int) : Nat → Nat → Acc K → Option (Acc K)
  | 0, _, _ => none
  | fuel + 1, i, st =>
    if i < nd then
      let r := dihedrals_body H D m atom2 nd imol iatom i st
      dihedrals_loop H D m atom2 nd imol iatom fuel (r.1 + 1) r.2
    else some st

/-- The body of the `atom2` loop of `compute_dihedrals` (lines 660-799). -/
def dihedrals_atom (H : Host K) (D : DihedralStyle K) (m fuel atom2 : Nat)
    (st : Acc K) : Option (Acc K) :=
  if H.atom.mask atom2 &&& H.groupbit = 0 then some st
  else if H.atom.molecular = 1 then
    dihedrals_loop H D m atom2 (H.atom.num_dihedral atom2) 0 0 fuel 0 st
  else if H.atom.molindex atom2 < 0 then some st
  else
    let imol := H.atom.molindex atom2
    let iatom := H.atom.molatom atom2
    dihedrals_loop H D m atom2 ((H.atom.onemols imol).num_dihedral iatom) imol iatom
      fuel 0 st

/-- The function `compute_dihedrals`, run only when `dihedflag` is set. -/
def compute_dihedrals (H : Host K) (fuel nvalues : Nat) (st : Acc K) :
    Option (Acc K) :=
  match H.force.dihedral with
  | none => none
  | some D =>
    whileM nvalues (fun m s => forRange H.atom.nlocal (dihedrals_atom H D m fuel) s)
      (nvalues + 1) 0 st

/-! ## Constructor, init and compute_vector -/

/-- The constructor (lines 47-80).  `error->all` ends the run, here
`Except.error`.  The three arrays come from `memory->create` and the flags are
not set: their contents are those of `raw`. -/
def construct (D : Domain K) (raw : Born K) : Except String (Born K) :=
  if D.dimension < 3 then
    Except.error "Compute born incompatible with simulation dimension"
  else if D.triclinic ≠ 0 then
    Except.error "Compute born incompatible with triclinic simulation box"
  else Except.ok { raw with nvalues := 21 }

/-- The flag and the warnings of one of the four blocks of lines 121-155:
`enable` is `none` for a `NULL` style and the style's `born_enable` otherwise.
The flag was set to `0` at the top of `init`. -/
def init_flag (enable : Option Int) (msg : String) : Int × List String :=
  match enable with
  | none => (0, [])
  | some e => if e = 0 then (0, [msg]) else (1, [])

/-- The function `init` (lines 96-162): the object with its flags set and the
warnings issued, or the fatal error. -/
def init (F : Force K) (C : Born K) : Except String (Born K × List String) :=
  match F.pair with
  | none => Except.error "No pair style is defined for compute born"
  | some P =>
    if P.born_enable = 0 then
      Except.error "Pair style does not support compute born"
    else
      let b := init_flag (F.bond.map fun s => s.born_enable)
        "Bond style does not support compute born"
      let a := init_flag (F.angle.map fun s => s.born_enable)
        "Angle style does not support compute born"
      let d := init_flag (F.dihedral.map fun s => s.born_enable)
        "Dihedral style does not support compute born"
      let im := init_flag (F.improper.map fun s => s.born_enable)
        "Improper style does not support compute born"
      Except.ok
        ({ C with
            pairflag := 1, bondflag := b.1, angleflag := a.1, dihedflag := d.1,
            impflag := im.1 },
          b.2 ++ a.2 ++ d.2 ++ im.2)

/-- Setup: the constructor followed by `init`. -/
def setup (H : Host K) (raw : Born K) : Except String (Born K × List String) :=
  match construct H.domain raw with
  | Except.error e => Except.error e
  | Except.ok C => init H.force C

/-- The loop `for (i = 0; i < nvalues; i++) values_local[i] = 0.0`. -/
def zero_local (nvalues : Nat) (v : Nat → K) : Nat → K :=
  (List.range nvalues).foldl (fun w i => Function.update w i 0) v

/-- Lines 177-191 of `compute_vector`: the part one worker does on its own.
The call log is that of this invocation. -/
def compute_local (H : Host K) (fuel : Nat) (C : Born K) : Option (Born K) :=
  let s0 : Acc K := { values_local := zero_local C.nvalues C.values_local, calls := [] }
  (if C.pairflag ≠ 0 then compute_pairs H C.nvalues s0 else some s0).bind fun s1 =>
  (if C.bondflag ≠ 0 then compute_bonds H fuel C.nvalues s1 else some s1).bind fun s2 =>
  (if C.angleflag ≠ 0 then compute_angles H fuel C.nvalues s2 else some s2).bind fun s3 =>
  (if C.dihedflag ≠ 0 then compute_dihedrals H fuel C.nvalues s3 else some s3).bind fun s4 =>
  some { C with
    invoked_array := H.ntimestep, values_local := s4.values_local, calls := s4.calls }

/-- Lines 201-207 on one worker: `MPI_Allreduce` with `MPI_SUM` over the
local accumulators of all workers (`locals`), then the copy into `vector`. -/
def reduce_publish (locals : List (Nat → K)) (C : Born K) : Born K :=
  let g : Nat → K := fun k =>
    if k < C.nvalues then (locals.map fun v => v k).sum else C.values_global k
  { C with
    values_global := g
    vector := fun k => if k < C.nvalues then g k else C.vector k }

/-- The local phase on every worker of a list; `none` if one of them gives no
result. -/
def locals_of (fuel : Nat) : List (Host K × Born K) → Option (List (Born K))
  | [] => some []
  | w :: ws =>
    match compute_local w.1 fuel w.2, locals_of fuel ws with
    | some c, some cs => some (c :: cs)
    | _, _ => none

/-- The function `compute_vector` run collectively by the workers `ws`. -/
def compute_vector_world (fuel : Nat) (ws : List (Host K × Born K)) :
    Option (List (Born K)) :=
  (locals_of fuel ws).map fun cs =>
    cs.map (reduce_publish (cs.map fun c => c.values_local))

/-- The function `compute_vector` (lines 175-208) in a one-worker run. -/
def compute_vector (H : Host K) (fuel : Nat) (C : Born K) : Option (Born K) :=
  (compute_local H fuel C).map fun c => reduce_publish [c.values_local] c

/-! ## The index tables of compute_born.h -/

/-- Modelled from the spec: the table `albemunu[21][4]` of compute_born.h,
which is not among the sources.  Row `k` holds the four Cartesian axes of
tensor entry `k`, in the Voigt order `xx, yy, zz, yz, xz, xy` for the six
diagonal entries followed by the fifteen entries `C12, C13, ..., C56` above
the diagonal, row by row. -/
def albemunu_spec (k n : Nat) : Nat :=
  ([[0, 0, 0, 0], [1, 1, 1, 1], [2, 2, 2, 2], [1, 2, 1, 2], [0, 2, 0, 2], [0, 1, 0, 1],
    [0, 0, 1, 1], [0, 0, 2, 2], [0, 0, 1, 2], [0, 0, 0, 2], [0, 0, 0, 1],
    [1, 1, 2, 2], [1, 1, 1, 2], [1, 1, 0, 2], [1, 1, 0, 1],
    [2, 2, 1, 2], [2, 2, 0, 2], [2, 2, 0, 1],
    [1, 2, 0, 2], [1, 2, 0, 1], [0, 2, 0, 1]].getD k []).getD n 0

/-- Modelled from the spec: the table `albe` of compute_born.h, which is not
among the sources.  Rows `0..5` are the Cartesian axis pairs of the six strain
components (`1 = 11, 2 = 22, 3 = 33, 4 = 23, 5 = 13, 6 = 12`, as the comment
on lines 549-551 has it); rows `6..20` are the pairs of Voigt indices of the
entries `C12, C13, ..., C56`. -/
def albe_spec (k n : Nat) : Nat :=
  ([[0, 0], [1, 1], [2, 2], [1, 2], [0, 2], [0, 1],
    [0, 1], [0, 2], [0, 3], [0, 4], [0, 5],
    [1, 2], [1, 3], [1, 4], [1, 5],
    [2, 3], [2, 4], [2, 5],
    [3, 4], [3, 5], [4, 5]].getD k []).getD n 0

/-! ## The pair contribution as a sum over owned pairs

The specification describes the pair engine as a sum over the pairs a worker
lists and owns.  The definitions of this section follow that description;
they are compared with `compute_pairs` below. -/

/-- The host `H` with the bond style `B` and with the bond records (per atom
and in every molecule template) of `src`. -/
def Host.replace_bonds (H : Host K) (B : Option (BondStyle K)) (src : Atom K) : Host K :=
  { H with
    force := { H.force with bond := B }
    atom := { H.atom with
      num_bond := src.num_bond, bond_type := src.bond_type, bond_atom := src.bond_atom
      onemols := fun i => { H.atom.onemols i with
        num_bond := (src.onemols i).num_bond
        bond_type := (src.onemols i).bond_type
        bond_atom := (src.onemols i).bond_atom } } }

/-- The host `H` with the angle style `A` and with the angle records of
`src`. -/
def Host.replace_angles (H : Host K) (A : Option (AngleStyle K)) (src : Atom K) : Host K :=
  { H with
    force := { H.force with angle := A }
    atom := { H.atom with
      num_angle := src.num_angle, angle_type := src.angle_type
      angle_atom1 := src.angle_atom1, angle_atom2 := src.angle_atom2
      angle_atom3 := src.angle_atom3
      onemols := fun i => { H.atom.onemols i with
        num_angle := (src.onemols i).num_angle
        angle_type := (src.onemols i).angle_type
        angle_atom1 := (src.onemols i).angle_atom1
        angle_atom2 := (src.onemols i).angle_atom2
        angle_atom3 := (src.onemols i).angle_atom3 } } }

/-- The host `H` with the dihedral style `D` and with the dihedral records of
`src`. -/
def Host.replace_dihedrals (H : Host K) (D : Option (DihedralStyle K)) (src : Atom K) :
    Host K :=
  { H with
    force := { H.force with dihedral := D }
    atom := { H.atom with
      num_dihedral := src.num_dihedral, dihedral_type := src.dihedral_type
      dihedral_atom1 := src.dihedral_atom1, dihedral_atom2 := src.dihedral_atom2
      dihedral_atom3 := src.dihedral_atom3, dihedral_atom4 := src.dihedral_atom4
      onemols := fun i => { H.atom.onemols i with
        num_dihedral := (src.onemols i).num_dihedral
        dihedral_type := (src.onemols i).dihedral_type
        dihedral_atom1 := (src.onemols i).dihedral_atom1
        dihedral_atom2 := (src.onemols i).dihedral_atom2
        dihedral_atom3 := (src.onemols i).dihedral_atom3
        dihedral_atom4 := (src.onemols i).dihedral_atom4 } } }

/-- The host `H` with the improper style `I` and with the improper records of
`src`. -/
def Host.replace_impropers (H : Host K) (I : Option ImproperStyle) (src : Atom K) : Host K :=
  { H with
    force := { H.force with improper := I }
    atom := { H.atom with
      num_improper := src.num_improper, improper_type := src.improper_type
      improper_atom1 := src.improper_atom1, improper_atom2 := src.improper_atom2
      improper_atom3 := src.improper_atom3, improper_atom4 := src.improper_atom4
      onemols := fun i => { H.atom.onemols i with
        num_improper := (src.onemols i).num_improper
        improper_type := (src.onemols i).improper_type
        improper_atom1 := (src.onemols i).improper_atom1
        improper_atom2 := (src.onemols i).improper_atom2
        improper_atom3 := (src.onemols i).improper_atom3
        improper_atom4 := (src.onemols i).improper_atom4 } } }

/-! ## Engines as shifts of the accumulator -/

/-- Lines 185-191 of `compute_vector`: the four engines, each run when its
flag is set, from the accumulator `s0`. -/
def run_engines (H : Host K) (fuel : Nat) (C : Born K) (s0 : Acc K) : Option (Acc K) :=
  (if C.pairflag ≠ 0 then compute_pairs H C.nvalues s0 else some s0).bind fun s1 =>
  (if C.bondflag ≠ 0 then compute_bonds H fuel C.nvalues s1 else some s1).bind fun s2 =>
  (if C.angleflag ≠ 0 then compute_angles H fuel C.nvalues s2 else some s2).bind fun s3 =>
  (if C.dihedflag ≠ 0 then compute_dihedrals H fuel C.nvalues s3 else some s3)

/-- A step that, whatever accumulator it starts from, either gives no result
or adds one fixed amount to every entry and appends one fixed list of calls. -/
def IsShift (E : Acc K → Option (Acc K)) : Prop :=
  (∀ st, E st = none) ∨
    ∃ (d : Nat → K) (cs : List (BornCall K)),
      ∀ st, E st = some { values_local := fun k => st.values_local k + d k
                          calls := st.calls ++ cs }

/-- The body of a record loop as a function of the accumulator: it leaves one
fixed value in the counter, adds one fixed amount to every entry and appends
one fixed list of calls. -/
def IsStep (f : Acc K → Nat × Acc K) : Prop :=
  ∃ (i1 : Nat) (d : Nat → K) (cs : List (BornCall K)),
    ∀ st, f st = (i1, { values_local := fun k => st.values_local k + d k
                        calls := st.calls ++ cs })

/-! ## The formulas of the description

The first strain derivative of the cosine of an angle and the second strain
derivatives of the three dihedral scalars, written as the text describes
them; they are compared with the engines below. -/

/-- The strain derivative `D_ab (u.v) = u[a]*v[b] + u[b]*v[a]` of a dot
product. -/
def strain_d (u v : Nat → K) (a b : Nat) : K := u a * v b + u b * v a

/-- The strain derivative of `cos = (del1.del2)/(|del1||del2|)` for the strain
component with axes `(a, b)`:
`cos * ((del1[a]*del2[b] + del1[b]*del2[a])/(del1.del2)
  - del1[a]*del1[b]/|del1|^2 - del2[a]*del2[b]/|del2|^2)`. -/
def angle_dcos_spec (sqrt : K → K) (del1 del2 : Nat → K) (a b : Nat) : K :=
  dot3 del1 del2 / (sqrt (dot3 del1 del1) * sqrt (dot3 del2 del2)) *
    ((del1 a * del2 b + del1 b * del2 a) / dot3 del1 del2 -
      del1 a * del1 b / dot3 del1 del1 - del2 a * del2 b / dot3 del2 del2)

/-- The first strain derivative of `(u.u)(v.v) - (u.v)^2` by the product
rule. -/
def cross_sq_d (u v : Nat → K) (a b : Nat) : K :=
  strain_d u u a b * dot3 v v + dot3 u u * strain_d v v a b -
    2 * dot3 u v * strain_d u v a b

/-- The second strain derivative of `(u.u)(v.v) - (u.v)^2` by the product
rule, the second derivatives of the dot products being zero. -/
def cross_sq_d2 (u v : Nat → K) (a b c d : Nat) : K :=
  strain_d u u a b * strain_d v v c d + strain_d u u c d * strain_d v v a b -
    2 * strain_d u v c d * strain_d u v a b

/-- The first strain derivative of `(u.v)(v.w) - (u.w)(v.v)` by the product
rule. -/
def cross_mix_d (u v w : Nat → K) (a b : Nat) : K :=
  strain_d u v a b * dot3 v w + dot3 u v * strain_d v w a b -
    strain_d u w a b * dot3 v v - dot3 u w * strain_d v v a b

/-- The second strain derivative of `(u.v)(v.w) - (u.w)(v.v)` by the product
rule, the second derivatives of the dot products being zero. -/
def cross_mix_d2 (u v w : Nat → K) (a b c d : Nat) : K :=
  strain_d u v a b * strain_d v w c d + strain_d u v c d * strain_d v w a b -
    strain_d u w a b * strain_d v v c d - strain_d u w c d * strain_d v v a b

/-! ## Concrete systems

Small systems over the rationals, used to run the engines. -/

/-- A square root that is exact on the three arguments the examples pass to
it. -/
def exactSqrt (q : ℚ) : ℚ :=
  if q = 1 then 1 else if q = 4 then 2 else if q = 1 / 4 then 1 / 2 else 0

/-- A molecule template without records. -/
def noMolecule : Molecule :=
  { num_bond := fun _ => 0, bond_type := fun _ _ => 0, bond_atom := fun _ _ => 0
    num_angle := fun _ => 0, angle_type := fun _ _ => 0, angle_atom1 := fun _ _ => 0
    angle_atom2 := fun _ _ => 0, angle_atom3 := fun _ _ => 0
    num_dihedral := fun _ => 0, dihedral_type := fun _ _ => 0
    dihedral_atom1 := fun _ _ => 0, dihedral_atom2 := fun _ _ => 0
    dihedral_atom3 := fun _ _ => 0, dihedral_atom4 := fun _ _ => 0
    num_improper := fun _ => 0, improper_type := fun _ _ => 0
    improper_atom1 := fun _ _ => 0, improper_atom2 := fun _ _ => 0
    improper_atom3 := fun _ _ => 0, improper_atom4 := fun _ _ => 0 }

/-- The first `nlocal` atoms are local, all atoms are of type 1 and in group
1, atom `i` has tag `i + 1`, and there is no bonded topology. -/
def plainAtom (nlocal : Nat) (x : Nat → Nat → ℚ) : Atom ℚ :=
  { nlocal := nlocal
    x := x
    type := fun _ => 1
    mask := fun _ => 1
    tag := fun i => (i : Int) + 1
    map := fun t => t - 1
    molecular := 1
    molindex := fun _ => -1
    molatom := fun _ => -1
    onemols := fun _ => noMolecule
    num_bond := fun _ => 0, bond_type := fun _ _ => 0, bond_atom := fun _ _ => 0
    num_angle := fun _ => 0, angle_type := fun _ _ => 0, angle_atom1 := fun _ _ => 0
    angle_atom2 := fun _ _ => 0, angle_atom3 := fun _ _ => 0
    num_dihedral := fun _ => 0, dihedral_type := fun _ _ => 0
    dihedral_atom1 := fun _ _ => 0, dihedral_atom2 := fun _ _ => 0
    dihedral_atom3 := fun _ _ => 0, dihedral_atom4 := fun _ _ => 0
    num_improper := fun _ => 0, improper_type := fun _ _ => 0
    improper_atom1 := fun _ _ => 0, improper_atom2 := fun _ _ => 0
    improper_atom3 := fun _ _ => 0, improper_atom4 := fun _ _ => 0 }

/-- No style at all, both newton settings on, all special factors 1. -/
def plainForce : Force ℚ :=
  { pair := none, bond := none, angle := none, dihedral := none, improper := none
    special_coul := fun _ => 1, special_lj := fun _ => 1
    newton_pair := 1, newton_bond := 1 }

/-- The list in which the first `inum` atoms are listed and atom 0 has the
single neighbor 1, without special-bond code. -/
def pairList (inum : Nat) : NeighList :=
  { inum := inum, ilist := fun ii => ii
    numneigh := fun i => if i = 0 then 1 else 0
    firstneigh := fun _ _ => 1, sbmask := fun _ => 0, neighmask := fun j => j }

/-- An orthogonal 3d box in which every displacement is its own minimum
image, group bit 1, the tables of compute_born.h, and `r0` in the unassigned
local `rinv` of `compute_pairs`. -/
def plainHost (A : Atom ℚ) (F : Force ℚ) (L : NeighList) (r0 : ℚ) : Host ℚ :=
  { domain := { dimension := 3, triclinic := 0, minimum_image := fun d => d }
    force := F, atom := A, list := L, groupbit := 1, ntimestep := 0
    sqrt := exactSqrt, albe := albe_spec, albemunu := albemunu_spec, rinv_pairs := r0 }

/-- A compute object after setup with the given four flags; the arrays hold
the value 7 from an earlier life of the memory. -/
def readyBorn (pairflag bondflag angleflag dihedflag : Int) : Born ℚ :=
  { nvalues := 21, pairflag := pairflag, bondflag := bondflag, angleflag := angleflag
    dihedflag := dihedflag, impflag := 0, invoked_array := 0
    values_local := fun _ => 7, values_global := fun _ => 7, vector := fun _ => 7
    calls := [] }

/-- Atom `i` sits at `(i, 0, 0)`. -/
def linePos (i a : Nat) : ℚ := if a = 0 then (i : ℚ) else 0

/-- A pair style with squared cutoff `cut2` for all types whose `born` returns
`du` whatever it is asked. -/
def constPair (cut2 : ℚ) (du : ℚ × ℚ) : PairStyle ℚ :=
  { born_enable := 1, cutsq := fun _ _ => cut2, born := fun _ _ _ _ _ _ _ => du }

/-- A bond style whose `born` returns `du` whatever it is asked. -/
def constBond (du : ℚ × ℚ) : BondStyle ℚ :=
  { born_enable := 1, born := fun _ _ _ _ => du }

/-- An angle style whose `born` returns `du` whatever it is asked. -/
def constAngle (du : ℚ × ℚ) : AngleStyle ℚ :=
  { born_enable := 1, born := fun _ _ _ _ => du }

/-- A dihedral style whose `born` returns `du` whatever it is asked. -/
def constDihedral (du : ℚ × ℚ) : DihedralStyle ℚ :=
  { born_enable := 1, born := fun _ _ _ _ _ => du }

/-- Two local atoms at `(0,0,0)` and `(1,0,0)`, squared cutoff `cut2`, a pair
`born` that returns `(dU, d2U) = (2, 5)`, and `r0` in the unassigned `rinv`. -/
def unitPairHost (cut2 r0 : ℚ) : Host ℚ :=
  plainHost (plainAtom 2 linePos) { plainForce with pair := some (constPair cut2 (2, 5)) }
    (pairList 2) r0

/-- Three local atoms at `(0,0,0)`, `(1,0,0)` and `(2,0,0)`; atom 0 stores two
bond records of type 1, to the atoms with tags 2 and 3 (indices 1 and 2). -/
def twoBondAtom : Atom ℚ :=
  { plainAtom 3 linePos with
    num_bond := fun i => if i = 0 then 2 else 0
    bond_type := fun _ _ => 1
    bond_atom := fun _ i => (i : Int) + 2 }

/-- The system of `twoBondAtom` with a bond style whose `born` returns
`(dU, d2U) = (2, 5)`; newton_bond is on. -/
def twoBondHost : Host ℚ :=
  plainHost twoBondAtom
    { plainForce with
      pair := some (constPair 4 (2, 5))
      bond := some (constBond (2, 5)) }
    (pairList 0) 0

/-- Atom 0 at `(0,1,0)`, atom 1 at the origin, atom 2 at `(0,3/5,4/5)`. -/
def anglePos (i a : Nat) : ℚ :=
  if i = 0 then (if a = 1 then 1 else 0)
  else if i = 2 then (if a = 1 then 3 / 5 else if a = 2 then 4 / 5 else 0)
  else 0

/-- Three local atoms at `anglePos`; atom 1 stores one angle record of type 1
with itself as centre.  Its flanks are the tags `(1, 3)`, or `(3, 1)` when
`swapped`. -/
def angleAtom (swapped : Bool) : Atom ℚ :=
  { plainAtom 3 anglePos with
    num_angle := fun i => if i = 1 then 1 else 0
    angle_type := fun _ _ => 1
    angle_atom1 := fun _ _ => if swapped then 3 else 1
    angle_atom2 := fun _ _ => 2
    angle_atom3 := fun _ _ => if swapped then 1 else 3 }

/-- The system of `angleAtom` with an angle style whose `born` returns
`(dU, d2U) = (0, 1)` for every angle. -/
def angleHost (swapped : Bool) : Host ℚ :=
  plainHost (angleAtom swapped)
    { plainForce with
      pair := some (constPair 4 (2, 5))
      angle := some (constAngle (0, 1)) }
    (pairList 0) 0

/-- Atom 0 at `(1,0,0)`, atom 1 at the origin, atom 2 at `(0,1,0)`, atom 3 at
`(1,1,0)`. -/
def dihedralPos (i a : Nat) : ℚ :=
  if a = 0 then (if i = 0 ∨ i = 3 then 1 else 0)
  else if a = 1 then (if i = 2 ∨ i = 3 then 1 else 0)
  else 0

/-- Four local atoms at `dihedralPos`; atom 1 stores one dihedral record over
the tags `1, 2, 3, 4`, of type `dtype`. -/
def dihedralAtom (dtype : Int) : Atom ℚ :=
  { plainAtom 4 dihedralPos with
    num_dihedral := fun i => if i = 1 then 1 else 0
    dihedral_type := fun _ _ => dtype
    dihedral_atom1 := fun _ _ => 1
    dihedral_atom2 := fun _ _ => 2
    dihedral_atom3 := fun _ _ => 3
    dihedral_atom4 := fun _ _ => 4 }

/-- The system of `dihedralAtom` with a dihedral style whose `born` returns
`(dU, d2U) = (0, 1)`. -/
def dihedralHost (dtype : Int) : Host ℚ :=
  plainHost (dihedralAtom dtype)
    { plainForce with
      pair := some (constPair 4 (2, 5))
      dihedral := some (constDihedral (0, 1)) }
    (pairList 0) 0

/-- A system in which no atom is in the group: four atoms that store a bond,
an angle and a dihedral record, with all styles present. -/
def outsideHost : Host ℚ :=
  plainHost
    { plainAtom 4 dihedralPos with
      mask := fun _ => 0
      num_bond := fun _ => 1, bond_type := fun _ _ => 1, bond_atom := fun _ _ => 2
      num_angle := fun _ => 1, angle_type := fun _ _ => 1
      angle_atom1 := fun _ _ => 1, angle_atom2 := fun _ _ => 2, angle_atom3 := fun _ _ => 3
      num_dihedral := fun _ => 1
      dihedral_atom1 := fun _ _ => 1, dihedral_atom2 := fun _ _ => 2
      dihedral_atom3 := fun _ _ => 3, dihedral_atom4 := fun _ _ => 4 }
    { plainForce with
      pair := some (constPair 4 (2, 5))
      bond := some (constBond (2, 5))
      angle := some (constAngle (2, 5))
      dihedral := some (constDihedral (2, 5)) }
    (pairList 4) 0

/-- A pair style that supports born and a bond style that does not
(`born_enable == 0`); no angle, dihedral or improper style. -/
def noBornBondForce : Force ℚ :=
  { plainForce with
    pair := some (constPair 4 (2, 5))
    bond := some { born_enable := 0, born := fun _ _ _ _ => (2, 5) } }

/-- Atoms 0 and 2 as in `anglePos`, atom 1 at the origin, atom 3 at
`(0,4/5,3/5)`. -/
def anglePos4 (i a : Nat) : ℚ :=
  if i = 3 then (if a = 1 then 4 / 5 else if a = 2 then 3 / 5 else 0) else anglePos i a

/-- Four local atoms at `anglePos4`; atom 1 stores two angle records of type 1
with itself as centre: flanks with tags `(1, 3)` and flanks with tags
`(1, 4)`. -/
def twoAngleAtom : Atom ℚ :=
  { plainAtom 4 anglePos4 with
    num_angle := fun i => if i = 1 then 2 else 0
    angle_type := fun _ _ => 1
    angle_atom1 := fun _ _ => 1
    angle_atom2 := fun _ _ => 2
    angle_atom3 := fun _ i => (i : Int) + 3 }

/-- The system of `twoAngleAtom` with an angle style whose `born` returns
`(dU, d2U) = (0, 1)`. -/
def twoAngleHost : Host ℚ :=
  plainHost twoAngleAtom
    { plainForce with
      pair := some (constPair 4 (2, 5))
      angle := some (constAngle (0, 1)) }
    (pairList 0) 0

/-- Three local atoms at `(0,0,0)`, `(1,0,0)` and `(2,0,0)`; atom 0 has the
two neighbors 1 and 2 in its list; squared cutoff 9, and a pair `born` that
returns `(dU, d2U) = (0, 1)`. -/
def twoNeighborHost : Host ℚ :=
  plainHost (plainAtom 3 linePos)
    { plainForce with pair := some (constPair 9 (0, 1)) }
    { inum := 3, ilist := fun ii => ii
      numneigh := fun i => if i = 0 then 2 else 0
      firstneigh := fun _ jj => jj + 1, sbmask := fun _ => 0, neighmask := fun j => j }
    0

/-- Three local atoms without any bonded record, with a bond, an angle and a
dihedral style that support born; the neighbor list holds the pair (0, 1). -/
def stylesOnlyHost : Host ℚ :=
  plainHost (plainAtom 3 linePos)
    { plainForce with
      pair := some (constPair 4 (2, 5))
      bond := some (constBond (2, 5))
      angle := some (constAngle (2, 5))
      dihedral := some (constDihedral (2, 5)) }
    (pairList 2) 0

/-! ## Divisions of the angle engine, template rows, bond ownership -/

/-- The denominators of the seven divisions of the angle engine, in source
order: `rsq1` (line 515), `r1` (517), `rsq2` (528), `r2` (530), `r1r2` (533),
`r1*r2` (537) and the clamped `cost` (540). -/
def angle_denominators (sqrt : K → K) (del1 del2 : Nat → K) : List K :=
  [dot3 del1 del1, sqrt (dot3 del1 del1), dot3 del2 del2, sqrt (dot3 del2 del2),
    dot3 del1 del2, sqrt (dot3 del1 del1) * sqrt (dot3 del2 del2),
    angle_cost sqrt del1 del2]

/-- The state in which lines 385-412 of `compute_bonds` leave the counter `i`
and the accumulator for a record of `atom1` with partner `atom2` and type
`btype` that passed the three skip rules. -/
def bonds_tensor (H : Host K) (B : BondStyle K) (m atom1 atom2 : Nat) (btype : Int)
    (st : Acc K) : Nat × Acc K :=
  let rij := min_image_del H atom1 atom2
  let rsq := rij 0 * rij 0 + rij 1 * rij 1 + rij 2 * rij 2
  let r2inv := 1 / rsq
  let rinv := H.sqrt r2inv
  let du := B.born btype rsq atom1 atom2
  let pair_pref := du.2 - du.1 * rinv
  (21,
    { values_local :=
        add21 m (pair_term H.albemunu pair_pref rij r2inv) st.values_local
      calls := st.calls ++ [BornCall.bond btype rsq atom1 atom2] })

/-- Three local atoms: atom 0 at `(1,0,0)`, atom 1 at the origin, atom 2 at
`(0,1,0)`.  Atom 1 stores one angle record of type 1 with itself as centre and
the tags `(1, 3)` as flanks, so the flanks are perpendicular unit vectors. -/
def rightAngleHost : Host ℚ :=
  plainHost { angleAtom false with x := dihedralPos }
    { plainForce with
      pair := some (constPair 4 (2, 5))
      angle := some (constAngle (0, 1)) }
    (pairList 0) 0

/-- A molecule template of four atoms.  The atom with in-molecule index 1
(template id 2) stores one bond to id 3, one angle over the ids `(1, 2, 3)`
and one dihedral over the ids `(1, 2, 3, 4)`, all of type 1; every other row
holds zeros. -/
def chainMolecule : Molecule :=
  { noMolecule with
    num_bond := fun r => if r = 1 then 1 else 0
    bond_type := fun r _ => if r = 1 then 1 else 0
    bond_atom := fun r _ => if r = 1 then 3 else 0
    num_angle := fun r => if r = 1 then 1 else 0
    angle_type := fun r _ => if r = 1 then 1 else 0
    angle_atom1 := fun r _ => if r = 1 then 1 else 0
    angle_atom2 := fun r _ => if r = 1 then 2 else 0
    angle_atom3 := fun r _ => if r = 1 then 3 else 0
    num_dihedral := fun r => if r = 1 then 1 else 0
    dihedral_type := fun r _ => if r = 1 then 1 else 0
    dihedral_atom1 := fun r _ => if r = 1 then 1 else 0
    dihedral_atom2 := fun r _ => if r = 1 then 2 else 0
    dihedral_atom3 := fun r _ => if r = 1 then 3 else 0
    dihedral_atom4 := fun r _ => if r = 1 then 4 else 0 }

/-- Four local atoms that form one molecule of `chainMolecule`, with topology
taken from the template (`molecular = 2`).  The local atom `i` is the template
atom `(i + shift) % 4`: that is its `molatom`, its tag is one more, and it
sits at `anglePos4 ((i + shift) % 4)`.  With `shift = 0` local index and
in-molecule index agree; with `shift = 1` the template atom 1 is local
atom 0. -/
def chainAtom (shift : Nat) : Atom ℚ :=
  { plainAtom 4 (fun i a => anglePos4 ((i + shift) % 4) a) with
    tag := fun i => (((i + shift) % 4 : Nat) : Int) + 1
    map := fun t => if 1 ≤ t ∧ t ≤ 4 then (t + 3 - (shift : Int)) % 4 else -1
    molecular := 2
    molindex := fun _ => 0
    molatom := fun i => (((i + shift) % 4 : Nat) : Int)
    onemols := fun _ => chainMolecule }

/-- The system of `chainAtom` with bond `born` returning `(2, 5)` and angle
and dihedral `born` returning `(0, 1)`. -/
def chainHost (shift : Nat) : Host ℚ :=
  plainHost (chainAtom shift)
    { plainForce with
      pair := some (constPair 4 (2, 5))
      bond := some (constBond (2, 5))
      angle := some (constAngle (0, 1))
      dihedral := some (constDihedral (0, 1)) }
    (pairList 0) 0

/-- Two local atoms at `(0,0,0)` and `(1,0,0)` with tags 1 and 2; each stores
the bond between them, of type 1, as its only bond record. -/
def sharedBondAtom : Atom ℚ :=
  { plainAtom 2 linePos with
    num_bond := fun _ => 1
    bond_type := fun _ _ => 1
    bond_atom := fun a _ => if a = 0 then 2 else 1 }

/-- The system of `sharedBondAtom` with the given `newton_bond` setting and a
bond style whose `born` returns `(dU, d2U) = (2, 5)`. -/
def sharedBondHost (newton_bond : Int) : Host ℚ :=
  plainHost sharedBondAtom
    { plainForce with
      pair := some (constPair 4 (2, 5))
      bond := some (constBond (2, 5))
      newton_bond := newton_bond }
    (pairList 0) 0

/-! ## The pair step in `double` arithmetic, non-finite values included -/

/-- A `double` by kind: a finite value, one of the two infinities, or NaN.
The sign of a zero is not modelled. -/
inductive Dbl where
  | fin (q : ℚ)
  | pinf
  | ninf
  | nan
  deriving DecidableEq

/-- The product of two doubles.  `rnd` rounds the exact product of two finite
values to a double: a finite value, or an infinity on overflow.  Zero times
an infinity is NaN, and NaN propagates. -/
def dmul (rnd : ℚ → Dbl) : Dbl → Dbl → Dbl
  | Dbl.fin a, Dbl.fin b => rnd (a * b)
  | Dbl.fin a, Dbl.pinf => if a = 0 then Dbl.nan else if 0 < a then Dbl.pinf else Dbl.ninf
  | Dbl.fin a, Dbl.ninf => if a = 0 then Dbl.nan else if 0 < a then Dbl.ninf else Dbl.pinf
  | Dbl.pinf, Dbl.fin b => if b = 0 then Dbl.nan else if 0 < b then Dbl.pinf else Dbl.ninf
  | Dbl.ninf, Dbl.fin b => if b = 0 then Dbl.nan else if 0 < b then Dbl.ninf else Dbl.pinf
  | Dbl.pinf, Dbl.pinf => Dbl.pinf
  | Dbl.pinf, Dbl.ninf => Dbl.ninf
  | Dbl.ninf, Dbl.pinf => Dbl.ninf
  | Dbl.ninf, Dbl.ninf => Dbl.pinf
  | Dbl.nan, _ => Dbl.nan
  | _, Dbl.nan => Dbl.nan

/-- The sum of two doubles: infinities of opposite sign give NaN. -/
def dadd (rnd : ℚ → Dbl) : Dbl → Dbl → Dbl
  | Dbl.fin a, Dbl.fin b => rnd (a + b)
  | Dbl.fin _, Dbl.pinf => Dbl.pinf
  | Dbl.fin _, Dbl.ninf => Dbl.ninf
  | Dbl.pinf, Dbl.fin _ => Dbl.pinf
  | Dbl.ninf, Dbl.fin _ => Dbl.ninf
  | Dbl.pinf, Dbl.pinf => Dbl.pinf
  | Dbl.ninf, Dbl.ninf => Dbl.ninf
  | Dbl.pinf, Dbl.ninf => Dbl.nan
  | Dbl.ninf, Dbl.pinf => Dbl.nan
  | Dbl.nan, _ => Dbl.nan
  | _, Dbl.nan => Dbl.nan

/-- The difference of two doubles: infinities of equal sign give NaN. -/
def dsub (rnd : ℚ → Dbl) : Dbl → Dbl → Dbl
  | Dbl.fin a, Dbl.fin b => rnd (a - b)
  | Dbl.fin _, Dbl.pinf => Dbl.ninf
  | Dbl.fin _, Dbl.ninf => Dbl.pinf
  | Dbl.pinf, Dbl.fin _ => Dbl.pinf
  | Dbl.ninf, Dbl.fin _ => Dbl.ninf
  | Dbl.pinf, Dbl.ninf => Dbl.pinf
  | Dbl.ninf, Dbl.pinf => Dbl.ninf
  | Dbl.pinf, Dbl.pinf => Dbl.nan
  | Dbl.ninf, Dbl.ninf => Dbl.nan
  | Dbl.nan, _ => Dbl.nan
  | _, Dbl.nan => Dbl.nan

/-- The quotient of two doubles.  A finite non-zero value over zero is an
infinity and `0/0` is NaN; the zero is taken as `+0`, which is what the
denominator `rsq` of the only division of `compute_pairs`, a sum of squares,
is when it is zero. -/
def ddiv (rnd : ℚ → Dbl) : Dbl → Dbl → Dbl
  | Dbl.fin a, Dbl.fin b =>
    if b = 0 then (if a = 0 then Dbl.nan else if 0 < a then Dbl.pinf else Dbl.ninf)
    else rnd (a / b)
  | Dbl.fin _, Dbl.pinf => Dbl.fin 0
  | Dbl.fin _, Dbl.ninf => Dbl.fin 0
  | Dbl.pinf, Dbl.fin b => if 0 ≤ b then Dbl.pinf else Dbl.ninf
  | Dbl.ninf, Dbl.fin b => if 0 ≤ b then Dbl.ninf else Dbl.pinf
  | Dbl.pinf, Dbl.pinf => Dbl.nan
  | Dbl.pinf, Dbl.ninf => Dbl.nan
  | Dbl.ninf, Dbl.pinf => Dbl.nan
  | Dbl.ninf, Dbl.ninf => Dbl.nan
  | Dbl.nan, _ => Dbl.nan
  | _, Dbl.nan => Dbl.nan

/-- The comparison `u >= v` of two doubles: false when either is NaN. -/
def dge : Dbl → Dbl → Bool
  | Dbl.fin a, Dbl.fin b => decide (b ≤ a)
  | Dbl.fin _, Dbl.ninf => true
  | Dbl.pinf, Dbl.fin _ => true
  | Dbl.pinf, Dbl.pinf => true
  | Dbl.pinf, Dbl.ninf => true
  | Dbl.ninf, Dbl.ninf => true
  | _, _ => false

/-- The statement `values_local[m+i] += term(i)` for `i = 0..20`, in
doubles. -/
def add21_ieee (rnd : ℚ → Dbl) (m : Nat) (term : Nat → Dbl) (v : Nat → Dbl) : Nat → Dbl :=
  (List.range 21).foldl
    (fun w i => Function.update w (m + i) (dadd rnd (w (m + i)) (term i))) v

/-- The product `pair_pref*rij[a]*rij[b]*rij[c]*rij[d]` of line 307, which C
evaluates from the left, with `(a,b,c,d) = albemunu[k]`. -/
def pair_prod_ieee (rnd : ℚ → Dbl) (albemunu : Nat → Nat → Nat) (pair_pref : Dbl)
    (rij : Nat → Dbl) (k : Nat) : Dbl :=
  dmul rnd (dmul rnd (dmul rnd (dmul rnd pair_pref (rij (albemunu k 0)))
    (rij (albemunu k 1))) (rij (albemunu k 2))) (rij (albemunu k 3))

/-- The amount `pair_pref*rij[a]*rij[b]*rij[c]*rij[d]*r2inv` of line 307. -/
def pair_term_ieee (rnd : ℚ → Dbl) (albemunu : Nat → Nat → Nat) (pair_pref : Dbl)
    (rij : Nat → Dbl) (r2inv : Dbl) (k : Nat) : Dbl :=
  dmul rnd (pair_prod_ieee rnd albemunu pair_pref rij k) r2inv

/-- The array `rij` of lines 282-284: `rij[a] = xj[a] - xi[a]`. -/
def pairs_rij_ieee (rnd : ℚ → Dbl) (H : Host Dbl) (xi : Nat → Dbl) (jraw : Nat) :
    Nat → Dbl :=
  fun a => dsub rnd (H.atom.x (H.list.neighmask jraw) a) (xi a)

/-- The squared separation `rsq` of lines 279-281 and 285. -/
def pairs_rsq_ieee (rnd : ℚ → Dbl) (H : Host Dbl) (xi : Nat → Dbl) (jraw : Nat) : Dbl :=
  let j := H.list.neighmask jraw
  let delx := dsub rnd (xi 0) (H.atom.x j 0)
  let dely := dsub rnd (xi 1) (H.atom.x j 1)
  let delz := dsub rnd (xi 2) (H.atom.x j 2)
  dadd rnd (dadd rnd (dmul rnd delx delx) (dmul rnd dely dely)) (dmul rnd delz delz)

/-- The value `r2inv = 1.0/rsq` of line 286. -/
def pairs_r2inv_ieee (rnd : ℚ → Dbl) (H : Host Dbl) (xi : Nat → Dbl) (jraw : Nat) : Dbl :=
  ddiv rnd (Dbl.fin 1) (pairs_rsq_ieee rnd H xi jraw)

/-- The prefactor `pair_pref = du2pair - dupair*rinv` of lines 294-295, for
the value `i` of the owning-atom variable at the call of `born`. -/
def pairs_pref_ieee (rnd : ℚ → Dbl) (H : Host Dbl) (P : PairStyle Dbl) (xi : Nat → Dbl)
    (itype jraw i : Nat) : Dbl :=
  let j := H.list.neighmask jraw
  let du := P.born i j itype (H.atom.type j) (pairs_rsq_ieee rnd H xi jraw)
    (H.force.special_coul (H.list.sbmask jraw)) (H.force.special_lj (H.list.sbmask jraw))
  dsub rnd du.2 (dmul rnd du.1 H.rinv_pairs)

/-- The list entry `jraw` passes the three tests of lines 274, 289 and 291:
its partner is in the group, `rsq >= cutsq` is false, and the pair is owned. -/
def pairs_accepted_ieee (rnd : ℚ → Dbl) (H : Host Dbl) (P : PairStyle Dbl)
    (xi : Nat → Dbl) (itype jraw : Nat) : Prop :=
  H.atom.mask (H.list.neighmask jraw) &&& H.groupbit ≠ 0 ∧
  dge (pairs_rsq_ieee rnd H xi jraw)
    (P.cutsq itype (H.atom.type (H.list.neighmask jraw))) = false ∧
  (H.force.newton_pair ≠ 0 ∨ H.list.neighmask jraw < H.atom.nlocal)

/-- The body of the `jj` loop (lines 269-309) in doubles; the state is as in
`pairs_jj`. -/
def pairs_jj_ieee (rnd : ℚ → Dbl) (H : Host Dbl) (P : PairStyle Dbl) (m : Nat)
    (xi : Nat → Dbl) (itype jraw : Nat) (s : Nat × Acc Dbl) : Nat × Acc Dbl :=
  let factor_lj := H.force.special_lj (H.list.sbmask jraw)
  let factor_coul := H.force.special_coul (H.list.sbmask jraw)
  let j := H.list.neighmask jraw
  if H.atom.mask j &&& H.groupbit = 0 then s
  else
    let rij := pairs_rij_ieee rnd H xi jraw
    let rsq := pairs_rsq_ieee rnd H xi jraw
    let r2inv := pairs_r2inv_ieee rnd H xi jraw
    let jtype := H.atom.type j
    if dge rsq (P.cutsq itype jtype) = true then s
    else if H.force.newton_pair ≠ 0 ∨ j < H.atom.nlocal then
      let pair_pref := pairs_pref_ieee rnd H P xi itype jraw s.1
      (21,
        { values_local :=
            add21_ieee rnd m (pair_term_ieee rnd H.albemunu pair_pref rij r2inv)
              s.2.values_local
          calls := s.2.calls ++
            [BornCall.pair s.1 j itype jtype rsq factor_coul factor_lj] })
    else s

/-- Atom 0 at the origin and atom 1 at `(sep, 0, 0)`, as doubles. -/
def ieeePos (sep : ℚ) (i a : Nat) : Dbl :=
  if i = 1 ∧ a = 0 then Dbl.fin sep else Dbl.fin 0

/-- Two in-group local atoms of type 1 at `ieeePos sep`, atom 0 listing
atom 1 without special-bond code, newton_pair on, the tables of
compute_born.h, and `rinv` in the unassigned local `rinv` of `compute_pairs`.
No bonded topology; `sqrt` is not read by the pair step. -/
def ieeeHost (sep : ℚ) (rinv : Dbl) : Host Dbl :=
  { domain := { dimension := 3, triclinic := 0, minimum_image := fun d => d }
    force :=
      { pair := none, bond := none, angle := none, dihedral := none, improper := none
        special_coul := fun _ => Dbl.fin 1, special_lj := fun _ => Dbl.fin 1
        newton_pair := 1, newton_bond := 1 }
    atom :=
      { nlocal := 2
        x := ieeePos sep
        type := fun _ => 1
        mask := fun _ => 1
        tag := fun i => (i : Int) + 1
        map := fun t => t - 1
        molecular := 1
        molindex := fun _ => -1
        molatom := fun _ => -1
        onemols := fun _ => noMolecule
        num_bond := fun _ => 0, bond_type := fun _ _ => 0, bond_atom := fun _ _ => 0
        num_angle := fun _ => 0, angle_type := fun _ _ => 0, angle_atom1 := fun _ _ => 0
        angle_atom2 := fun _ _ => 0, angle_atom3 := fun _ _ => 0
        num_dihedral := fun _ => 0, dihedral_type := fun _ _ => 0
        dihedral_atom1 := fun _ _ => 0, dihedral_atom2 := fun _ _ => 0
        dihedral_atom3 := fun _ _ => 0, dihedral_atom4 := fun _ _ => 0
        num_improper := fun _ => 0, improper_type := fun _ _ => 0
        improper_atom1 := fun _ _ => 0, improper_atom2 := fun _ _ => 0
        improper_atom3 := fun _ _ => 0, improper_atom4 := fun _ _ => 0 }
    list := pairList 2, groupbit := 1, ntimestep := 0
    sqrt := fun v => v, albe := albe_spec, albemunu := albemunu_spec, rinv_pairs := rinv }

/-- A pair style with squared cutoff 4 for all types whose `born` returns `du`
whatever it is asked. -/
def ieeePair (du : Dbl × Dbl) : PairStyle Dbl :=
  { born_enable := 1, cutsq := fun _ _ => Dbl.fin 4, born := fun _ _ _ _ _ _ _ => du }

/-! ## Lemmas on the loops -/

theorem add21_apply (m : Nat) (term : Nat → K) (v : Nat → K) (k : Nat) :
    add21 m term v k = if m ≤ k ∧ k < m + 21 then v k + term (k - m) else v k := by
  have key : ∀ (n : Nat) (k : Nat),
      (List.range n).foldl
        (fun w i => Function.update w (m + i) (w (m + i) + term i)) v k
        = if m ≤ k ∧ k < m + n then v k + term (k - m) else v k := by
    intro n
    induction n with
    | zero =>
      intro k
      have h0 : ¬ (m ≤ k ∧ k < m + 0) := by omega
      rw [if_neg h0]
      rfl
    | succ n ih =>
      intro k
      rw [List.range_succ, List.foldl_append]
      simp only [List.foldl_cons, List.foldl_nil]
      by_cases hk : k = m + n
      · subst hk
        rw [Function.update_same, ih]
        simp
      · rw [Function.update_noteq hk, ih]
        by_cases h1 : m ≤ k ∧ k < m + n
        · have h2 : m ≤ k ∧ k < m + (n + 1) := ⟨h1.1, by omega⟩
          rw [if_pos h1, if_pos h2]
        · have h2 : ¬ (m ≤ k ∧ k < m + (n + 1)) := by
            intro h; apply h1; exact ⟨h.1, by omega⟩
          rw [if_neg h1, if_neg h2]
  exact key 21 k

theorem add21_zero (term : Nat → K) (v : Nat → K) (k : Nat) (hk : k < 21) :
    add21 0 term v k = v k + term k := by
  rw [add21_apply, if_pos ⟨Nat.zero_le k, by omega⟩, Nat.sub_zero]

theorem zero_local_apply (n : Nat) (v : Nat → K) (k : Nat) :
    zero_local n v k = if k < n then 0 else v k := by
  unfold zero_local
  induction n with
  | zero => simp
  | succ n ih =>
    rw [List.range_succ, List.foldl_append]
    simp only [List.foldl_cons, List.foldl_nil]
    by_cases hk : k = n
    · subst hk; simp
    · rw [Function.update_noteq hk, ih]
      by_cases h1 : k < n
      · rw [if_pos h1, if_pos (by omega)]
      · rw [if_neg h1, if_neg (by omega)]

theorem whileM_once (body : Nat → Acc K → Option (Acc K)) (st : Acc K) :
    whileM 21 body (21 + 1) 0 st = body 0 st := by
  simp only [whileM]
  cases body 0 st <;> simp

theorem vec3_zero (t : K × K × K) : vec3 t 0 = t.1 := rfl

theorem vec3_one (t : K × K × K) : vec3 t 1 = t.2.1 := rfl

theorem vec3_two (t : K × K × K) : vec3 t 2 = t.2.2 := rfl

theorem forRange_zero (body : Nat → Acc K → Option (Acc K)) (st : Acc K) :
    forRange 0 body st = some st := rfl

theorem forRange_succ (n : Nat) (body : Nat → Acc K → Option (Acc K)) (st : Acc K) :
    forRange (n + 1) body st = (forRange n body st).bind (body n) := by
  unfold forRange
  rw [List.range_succ, List.foldl_append]
  rfl

theorem forRange_skip (n : Nat) (body : Nat → Acc K → Option (Acc K)) (st : Acc K)
    (h : ∀ k, k < n → ∀ s, body k s = some s) : forRange n body st = some st := by
  induction n with
  | zero => rfl
  | succ n ih =>
    rw [forRange_succ, ih (fun k hk s => h k (by omega) s)]
    exact h n (by omega) st

theorem bonds_loop_done (H : Host K) (B : BondStyle K) (m atom1 nb : Nat)
    (imol iatom : Int) (fuel i : Nat) (st : Acc K) (h : nb ≤ i) :
    bonds_loop H B m atom1 nb imol iatom (fuel + 1) i st = some st := by
  have h1 : ¬ i < nb := by omega
  simp only [bonds_loop, if_neg h1]

theorem bonds_loop_step (H : Host K) (B : BondStyle K) (m atom1 nb : Nat)
    (imol iatom : Int) (fuel i : Nat) (st : Acc K) (h : i < nb) :
    bonds_loop H B m atom1 nb imol iatom (fuel + 1) i st =
      bonds_loop H B m atom1 nb imol iatom fuel
        ((bonds_body H B m atom1 imol iatom i st).1 + 1)
        (bonds_body H B m atom1 imol iatom i st).2 := by
  simp only [bonds_loop, if_pos h]

theorem angles_loop_done (H : Host K) (A : AngleStyle K) (m atom2 na : Nat)
    (imol iatom : Int) (fuel i : Nat) (st : Acc K) (h : na ≤ i) :
    angles_loop H A m atom2 na imol iatom (fuel + 1) i st = some st := by
  have h1 : ¬ i < na := by omega
  simp only [angles_loop, if_neg h1]

theorem angles_loop_step (H : Host K) (A : AngleStyle K) (m atom2 na : Nat)
    (imol iatom : Int) (fuel i : Nat) (st : Acc K) (h : i < na) :
    angles_loop H A m atom2 na imol iatom (fuel + 1) i st =
      angles_loop H A m atom2 na imol iatom fuel
        ((angles_body H A m atom2 imol iatom i st).1 + 1)
        (angles_body H A m atom2 imol iatom i st).2 := by
  simp only [angles_loop, if_pos h]

theorem dihedrals_loop_done (H : Host K) (D : DihedralStyle K) (m atom2 nd : Nat)
    (imol iatom : Int) (fuel i : Nat) (st : Acc K) (h : nd ≤ i) :
    dihedrals_loop H D m atom2 nd imol iatom (fuel + 1) i st = some st := by
  have h1 : ¬ i < nd := by omega
  simp only [dihedrals_loop, if_neg h1]

theorem dihedrals_loop_step (H : Host K) (D : DihedralStyle K) (m atom2 nd : Nat)
    (imol iatom : Int) (fuel i : Nat) (st : Acc K) (h : i < nd) :
    dihedrals_loop H D m atom2 nd imol iatom (fuel + 1) i st =
      dihedrals_loop H D m atom2 nd imol iatom fuel
        ((dihedrals_body H D m atom2 nd imol iatom i st).1 + 1)
        (dihedrals_body H D m atom2 nd imol iatom i st).2 := by
  simp only [dihedrals_loop, if_pos h]

/-! ## Evaluation lemmas for the concrete systems -/

theorem unitPair_vector0 (cut2 r0 : ℚ) (h : 1 < cut2) :
    (compute_vector (unitPairHost cut2 r0) 0 (readyBorn 1 0 0 0)).map
      (fun c => (c.vector 0, c.vector 1, c.calls)) =
      some (5 - 2 * r0, 0, [BornCall.pair 0 1 1 1 1 1 1]) := by
  have h1 : ¬ cut2 ≤ 1 := not_le.mpr h
  simp [compute_vector, compute_local, readyBorn, compute_pairs, unitPairHost, plainHost,
    plainAtom, plainForce, pairList, constPair, whileM_once, reduce_publish, pairs_ii, linePos,
    pair_rsq, List.range_succ, pairs_jj, add21_apply, zero_local_apply, pair_term,
    albemunu_spec, h1]
  norm_num

/-- C1 (evaluation at the failing input).  Two in-group atoms separated by
`(1,0,0)`, a pair `born` that returns `(dU, d2U) = (2, 5)`: the entry for
`(0,0,0,0)` of the exposed vector is `5 - 2*rinv`, where `rinv` is the value
the unassigned local holds; with `rinv = 0` it is `5`, not `3`. -/
theorem pairs_unit_separation_entry0 :
    (∀ r0 : ℚ,
      (compute_vector (unitPairHost 4 r0) 0 (readyBorn 1 0 0 0)).map (fun c => c.vector 0) =
        some (5 - 2 * r0)) ∧
    (compute_vector (unitPairHost 4 0) 0 (readyBorn 1 0 0 0)).map (fun c => c.vector 0) =
      some 5 ∧
    (compute_vector (unitPairHost 4 0) 0 (readyBorn 1 0 0 0)).map (fun c => c.vector 0) ≠
      some 3 := by
  have key : ∀ r0 : ℚ,
      (compute_vector (unitPairHost 4 r0) 0 (readyBorn 1 0 0 0)).map (fun c => c.vector 0) =
        some (5 - 2 * r0) := by
    intro r0
    have h := unitPair_vector0 4 r0 (by norm_num)
    cases hc : compute_vector (unitPairHost 4 r0) 0 (readyBorn 1 0 0 0) with
    | none => rw [hc] at h; simp at h
    | some c =>
      rw [hc] at h
      simp only [Option.map_some', Option.some.injEq, Prod.mk.injEq] at h
      simp [h.1]
  refine ⟨key, ?_, ?_⟩
  · rw [key 0]; norm_num
  · rw [key 0]; norm_num

theorem twoBond_body0 (st : Acc ℚ) :
    bonds_body twoBondHost (constBond (2, 5)) 0 0 0 0 0 st =
      (21, { values_local :=
               add21 0 (pair_term albemunu_spec 3 (vec3 ((1 : ℚ), (0 : ℚ), (0 : ℚ))) 1)
                 st.values_local,
             calls := st.calls ++ [BornCall.bond 1 1 0 1] }) := by
  simp only [bonds_body, bonds_btype, bonds_atom2, twoBondHost, twoBondAtom, plainHost, plainAtom,
    plainForce, min_image_del, linePos, constBond]
  norm_num [exactSqrt, vec3_zero, vec3_one, vec3_two]

theorem twoBond_atom0 (n : Nat) (st : Acc ℚ) :
    bonds_atom twoBondHost (constBond (2, 5)) 0 (n + 2) 0 st =
      some { values_local :=
               add21 0 (pair_term albemunu_spec 3 (vec3 ((1 : ℚ), (0 : ℚ), (0 : ℚ))) 1)
                 st.values_local,
             calls := st.calls ++ [BornCall.bond 1 1 0 1] } := by
  have e : bonds_atom twoBondHost (constBond (2, 5)) 0 (n + 2) 0 st
      = bonds_loop twoBondHost (constBond (2, 5)) 0 0 2 0 0 (n + 2) 0 st := by
    simp [bonds_atom, twoBondHost, twoBondAtom, plainHost, plainAtom]
  rw [e, bonds_loop_step _ _ _ _ _ _ _ _ _ _ (by norm_num), twoBond_body0,
    bonds_loop_done _ _ _ _ _ _ _ _ _ _ (by norm_num)]

theorem twoBond_atom_rest (n atom1 : Nat) (h : atom1 ≠ 0) (B : BondStyle ℚ) (st : Acc ℚ) :
    bonds_atom twoBondHost B 0 (n + 2) atom1 st = some st := by
  have e : bonds_atom twoBondHost B 0 (n + 2) atom1 st
      = bonds_loop twoBondHost B 0 atom1 0 0 0 (n + 2) 0 st := by
    simp [bonds_atom, twoBondHost, twoBondAtom, plainHost, plainAtom, h]
  rw [e, bonds_loop_done _ _ _ _ _ _ _ _ _ _ (by norm_num)]

/-- Record 1 of atom 0 of `twoBondHost` passes every skip rule: when the body
is run on it, it adds `16` to entry 0 and calls `born`. -/
theorem twoBond_body1 (st : Acc ℚ) :
    bonds_body twoBondHost (constBond (2, 5)) 0 0 0 0 1 st =
      (21, { values_local :=
               add21 0 (pair_term albemunu_spec 4 (vec3 ((2 : ℚ), (0 : ℚ), (0 : ℚ))) (1 / 4))
                 st.values_local,
             calls := st.calls ++ [BornCall.bond 1 4 0 2] }) := by
  simp only [bonds_body, bonds_btype, bonds_atom2, twoBondHost, twoBondAtom, plainHost, plainAtom,
    plainForce, min_image_del, linePos, constBond]
  have h2 : Int.toNat 2 = 2 := rfl
  norm_num [exactSqrt, vec3_zero, vec3_one, vec3_two, h2]

/-- C2 (evaluation at the failing input).  Atom 0 stores two bond records that
pass every skip rule; run on its own, the first adds `3` to entry 0 and the
second `16`.  For every fuel that lets the loop return, `compute_vector`
exposes `3` in entry 0 and has called `born` for the first record only. -/
theorem bonds_second_record_dropped :
    (∀ n : Nat,
      (compute_vector twoBondHost (n + 2) (readyBorn 0 1 0 0)).map
        (fun c => (c.vector 0, c.calls)) = some (3, [BornCall.bond 1 1 0 1])) ∧
    (∀ st : Acc ℚ,
      (bonds_body twoBondHost (constBond (2, 5)) 0 0 0 0 0 st).2.values_local 0 =
        st.values_local 0 + 3 ∧
      (bonds_body twoBondHost (constBond (2, 5)) 0 0 0 0 1 st).2.values_local 0 =
        st.values_local 0 + 16) := by
  constructor
  · intro n
    have hb : twoBondHost.force.bond = some (constBond (2, 5)) := rfl
    have hn : twoBondHost.atom.nlocal = 3 := rfl
    simp only [compute_vector, compute_local, readyBorn, compute_bonds, hb, hn, whileM_once,
      forRange_succ, forRange_zero]
    simp [twoBond_atom0, twoBond_atom_rest, reduce_publish, add21_zero, zero_local_apply,
      pair_term, albemunu_spec, vec3]
  · intro st
    rw [twoBond_body0, twoBond_body1]
    simp [add21_zero, pair_term, albemunu_spec, vec3]
    norm_num

theorem angle_body_plain (st : Acc ℚ) :
    angles_body (angleHost false) (constAngle (0, 1)) 0 1 0 0 0 st =
      (21, { values_local :=
               add21 0 (angle_term albe_spec albemunu_spec exactSqrt
                 (vec3 ((0 : ℚ), (1 : ℚ), (0 : ℚ))) (vec3 ((0 : ℚ), (3 / 5 : ℚ), (4 / 5 : ℚ))) 0 1)
                 st.values_local,
             calls := st.calls ++ [BornCall.angle 1 0 1 2] }) := by
  have h2 : Int.toNat 2 = 2 := rfl
  simp only [angles_body, angles_atype, angles_atom1, angles_atom3, angles_stored2, angleHost,
    angleAtom, plainHost, plainAtom, plainForce, min_image_del, anglePos, constAngle]
  norm_num [h2]

theorem angle_body_swapped (st : Acc ℚ) :
    angles_body (angleHost true) (constAngle (0, 1)) 0 1 0 0 0 st =
      (21, { values_local :=
               add21 0 (angle_term albe_spec albemunu_spec exactSqrt
                 (vec3 ((0 : ℚ), (3 / 5 : ℚ), (4 / 5 : ℚ))) (vec3 ((0 : ℚ), (1 : ℚ), (0 : ℚ))) 0 1)
                 st.values_local,
             calls := st.calls ++ [BornCall.angle 1 2 1 0] }) := by
  have h2 : Int.toNat 2 = 2 := rfl
  simp only [angles_body, angles_atype, angles_atom1, angles_atom3, angles_stored2, angleHost,
    angleAtom, plainHost, plainAtom, plainForce, min_image_del, anglePos, constAngle]
  norm_num [h2]

theorem angle_atom_centre (sw : Bool) (n : Nat) (st : Acc ℚ) :
    angles_atom (angleHost sw) (constAngle (0, 1)) 0 (n + 2) 1 st =
      some (angles_body (angleHost sw) (constAngle (0, 1)) 0 1 0 0 0 st).2 := by
  have e : angles_atom (angleHost sw) (constAngle (0, 1)) 0 (n + 2) 1 st
      = angles_loop (angleHost sw) (constAngle (0, 1)) 0 1 1 0 0 (n + 2) 0 st := by
    simp [angles_atom, angleHost, angleAtom, plainHost, plainAtom]
  have h21 : (angles_body (angleHost sw) (constAngle (0, 1)) 0 1 0 0 0 st).1 = 21 := by
    cases sw
    · rw [angle_body_plain]
    · rw [angle_body_swapped]
  rw [e, angles_loop_step _ _ _ _ _ _ _ _ _ _ (by norm_num), h21,
    angles_loop_done _ _ _ _ _ _ _ _ _ _ (by norm_num)]

theorem angle_atom_flank (sw : Bool) (n atom2 : Nat) (h : atom2 ≠ 1) (st : Acc ℚ) :
    angles_atom (angleHost sw) (constAngle (0, 1)) 0 (n + 2) atom2 st = some st := by
  have e : angles_atom (angleHost sw) (constAngle (0, 1)) 0 (n + 2) atom2 st
      = angles_loop (angleHost sw) (constAngle (0, 1)) 0 atom2 0 0 0 (n + 2) 0 st := by
    simp [angles_atom, angleHost, angleAtom, plainHost, plainAtom, h]
  rw [e, angles_loop_done _ _ _ _ _ _ _ _ _ _ (by norm_num)]

theorem angle_vector12 (sw : Bool) (n : Nat) :
    (compute_vector (angleHost sw) (n + 2) (readyBorn 0 0 1 0)).map
        (fun c => (c.vector 12, c.calls)) =
      some (if sw then ((1152 / 15625 : ℚ), [BornCall.angle 1 2 1 0])
        else ((432 / 15625 : ℚ), [BornCall.angle 1 0 1 2])) := by
  have hb : (angleHost sw).force.angle = some (constAngle (0, 1)) := rfl
  have hn : (angleHost sw).atom.nlocal = 3 := rfl
  simp only [compute_vector, compute_local, readyBorn, compute_angles, hb, hn, whileM_once,
    forRange_succ, forRange_zero]
  simp only [Option.some_bind, angle_atom_flank sw n 0 (by norm_num), angle_atom_centre,
    angle_atom_flank sw n 2 (by norm_num)]
  cases sw
  · simp [angle_body_plain, reduce_publish, add21_zero, zero_local_apply, angle_term, angle_d2cos, angle_dcos,
      angle_cost, dot3, albe_spec, albemunu_spec, vec3, exactSqrt]
    norm_num
  · simp [angle_body_swapped, reduce_publish, add21_zero, zero_local_apply, angle_term, angle_d2cos, angle_dcos,
      angle_cost, dot3, albe_spec, albemunu_spec, vec3, exactSqrt]
    norm_num

/-- C3 (evaluation at the failing input).  Atom 1 is the centre of one angle
with flanks at `(0,1,0)` and `(0,3/5,4/5)`; the angle `born` returns
`(0, 1)` for every angle.  Stored with flanks `(1, 3)` the record adds
`432/15625` to entry 12 (`C24`); stored with the flanks exchanged it adds
`1152/15625`.  The difference comes from `dcos[3]` (axes `yz`), which is
`24/125` for one order of the two vectors and `64/125` for the other. -/
theorem angles_flank_swap_entry12 :
    (∀ n : Nat,
      (compute_vector (angleHost false) (n + 2) (readyBorn 0 0 1 0)).map
        (fun c => (c.vector 12, c.calls)) =
        some ((432 / 15625 : ℚ), [BornCall.angle 1 0 1 2])) ∧
    (∀ n : Nat,
      (compute_vector (angleHost true) (n + 2) (readyBorn 0 0 1 0)).map
        (fun c => (c.vector 12, c.calls)) =
        some ((1152 / 15625 : ℚ), [BornCall.angle 1 2 1 0])) ∧
    angle_dcos albe_spec exactSqrt (vec3 ((0 : ℚ), (1 : ℚ), (0 : ℚ)))
        (vec3 ((0 : ℚ), (3 / 5 : ℚ), (4 / 5 : ℚ))) 3 = 24 / 125 ∧
    angle_dcos albe_spec exactSqrt (vec3 ((0 : ℚ), (3 / 5 : ℚ), (4 / 5 : ℚ)))
        (vec3 ((0 : ℚ), (1 : ℚ), (0 : ℚ))) 3 = 64 / 125 := by
  refine ⟨?_, ?_, ?_, ?_⟩
  · intro n
    rw [angle_vector12 false n]
    rfl
  · intro n
    rw [angle_vector12 true n]
    rfl
  · simp [angle_dcos, angle_cost, dot3, albe_spec, vec3, exactSqrt]
    norm_num
  · simp [angle_dcos, angle_cost, dot3, albe_spec, vec3, exactSqrt]
    norm_num

theorem dihedral_body_eval (dtype : Int) (st : Acc ℚ) :
    dihedrals_body (dihedralHost dtype) (constDihedral (0, 1)) 0 1 1 0 0 0 st =
      (21, { values_local :=
               add21 0 (dih_term albe_spec albemunu_spec exactSqrt
                 (vec3 ((1 : ℚ), (0 : ℚ), (0 : ℚ))) (vec3 ((0 : ℚ), (1 : ℚ), (0 : ℚ)))
                 (vec3 ((1 : ℚ), (0 : ℚ), (0 : ℚ))) (vec3 ((0 : ℚ), (-1 : ℚ), (0 : ℚ))) 0 1)
                 st.values_local,
             calls := st.calls ++ [BornCall.dihedral 1 0 1 2 3] }) := by
  have h2 : Int.toNat 2 = 2 := rfl
  have h3 : Int.toNat 3 = 3 := rfl
  simp only [dihedrals_body, dihedrals_atom1, dihedrals_atom3, dihedrals_atom4,
    dihedrals_stored2, dihedralHost, dihedralAtom, plainHost, plainAtom, plainForce,
    min_image_del, dihedralPos, constDihedral]
  norm_num [h2, h3, vec3_zero, vec3_one, vec3_two]

theorem dihedral_atom_centre (dtype : Int) (n : Nat) (st : Acc ℚ) :
    dihedrals_atom (dihedralHost dtype) (constDihedral (0, 1)) 0 (n + 2) 1 st =
      some (dihedrals_body (dihedralHost dtype) (constDihedral (0, 1)) 0 1 1 0 0 0 st).2 := by
  have e : dihedrals_atom (dihedralHost dtype) (constDihedral (0, 1)) 0 (n + 2) 1 st
      = dihedrals_loop (dihedralHost dtype) (constDihedral (0, 1)) 0 1 1 0 0 (n + 2) 0 st := by
    simp [dihedrals_atom, dihedralHost, dihedralAtom, plainHost, plainAtom]
  rw [e, dihedrals_loop_step _ _ _ _ _ _ _ _ _ _ (by norm_num), dihedral_body_eval,
    dihedrals_loop_done _ _ _ _ _ _ _ _ _ _ (by norm_num)]

theorem dihedral_atom_other (dtype : Int) (n atom2 : Nat) (h : atom2 ≠ 1) (st : Acc ℚ) :
    dihedrals_atom (dihedralHost dtype) (constDihedral (0, 1)) 0 (n + 2) atom2 st = some st := by
  have e : dihedrals_atom (dihedralHost dtype) (constDihedral (0, 1)) 0 (n + 2) atom2 st
      = dihedrals_loop (dihedralHost dtype) (constDihedral (0, 1)) 0 atom2 0 0 0 (n + 2) 0 st := by
    simp [dihedrals_atom, dihedralHost, dihedralAtom, plainHost, plainAtom, h]
  rw [e, dihedrals_loop_done _ _ _ _ _ _ _ _ _ _ (by norm_num)]

theorem dihedral_vector0 (dtype : Int) (n : Nat) :
    (compute_vector (dihedralHost dtype) (n + 2) (readyBorn 0 0 0 1)).map
        (fun c => (c.vector 0, c.calls)) =
      some ((9 : ℚ), [BornCall.dihedral 1 0 1 2 3]) := by
  have hb : (dihedralHost dtype).force.dihedral = some (constDihedral (0, 1)) := rfl
  have hn : (dihedralHost dtype).atom.nlocal = 4 := rfl
  simp only [compute_vector, compute_local, readyBorn, compute_dihedrals, hb, hn, whileM_once,
    forRange_succ, forRange_zero]
  simp only [Option.some_bind, dihedral_atom_other dtype n 0 (by norm_num),
    dihedral_atom_centre, dihedral_atom_other dtype n 2 (by norm_num),
    dihedral_atom_other dtype n 3 (by norm_num)]
  simp [dihedral_body_eval, reduce_publish, add21_zero, zero_local_apply, dih_term, dih_d2cos,
    dih_dcos, dih_co, dih_rabinv, dih_r2inv, dih_dmm, dih_dnn, dih_dmn, dot3, albe_spec,
    albemunu_spec, vec3, exactSqrt]
  norm_num

/-- C7 (evaluation at the failing input).  Atom 1 stores one dihedral record
over four in-group atoms; the dihedral `born` returns `(0, 1)`.  Whatever the
type of the record, in particular `0` or `-1`, `compute_vector` calls `born`
for it and exposes `9` in entry 0. -/
theorem dihedrals_type_not_read :
    ∀ (dtype : Int) (n : Nat),
      (compute_vector (dihedralHost dtype) (n + 2) (readyBorn 0 0 0 1)).map
        (fun c => (c.vector 0, c.calls)) =
        some ((9 : ℚ), [BornCall.dihedral 1 0 1 2 3]) := by
  intro dtype n
  exact dihedral_vector0 dtype n

/-! ## Engines on hosts that agree on what an engine reads -/

theorem whileM_congr (n : Nat) (body1 body2 : Nat → Acc K → Option (Acc K))
    (h : ∀ m s, body1 m s = body2 m s) (fuel m : Nat) (st : Acc K) :
    whileM n body1 fuel m st = whileM n body2 fuel m st := by
  have e : body1 = body2 := by
    funext m s
    exact h m s
  rw [e]

theorem forRange_congr (n : Nat) (body1 body2 : Nat → Acc K → Option (Acc K))
    (h : ∀ k s, body1 k s = body2 k s) (st : Acc K) :
    forRange n body1 st = forRange n body2 st := by
  have e : body1 = body2 := by
    funext k s
    exact h k s
  rw [e]

theorem bonds_loop_congr (H1 H2 : Host K) (B : BondStyle K) (m atom1 nb : Nat)
    (imol iatom : Int)
    (hbody : ∀ i st, bonds_body H1 B m atom1 imol iatom i st =
      bonds_body H2 B m atom1 imol iatom i st) :
    ∀ (fuel i : Nat) (st : Acc K),
      bonds_loop H1 B m atom1 nb imol iatom fuel i st =
        bonds_loop H2 B m atom1 nb imol iatom fuel i st := by
  intro fuel
  induction fuel with
  | zero => intro i st; rfl
  | succ fuel ih =>
    intro i st
    simp only [bonds_loop, hbody, ih]

theorem angles_loop_congr (H1 H2 : Host K) (A : AngleStyle K) (m atom2 na : Nat)
    (imol iatom : Int)
    (hbody : ∀ i st, angles_body H1 A m atom2 imol iatom i st =
      angles_body H2 A m atom2 imol iatom i st) :
    ∀ (fuel i : Nat) (st : Acc K),
      angles_loop H1 A m atom2 na imol iatom fuel i st =
        angles_loop H2 A m atom2 na imol iatom fuel i st := by
  intro fuel
  induction fuel with
  | zero => intro i st; rfl
  | succ fuel ih =>
    intro i st
    simp only [angles_loop, hbody, ih]

theorem dihedrals_loop_congr (H1 H2 : Host K) (D : DihedralStyle K) (m atom2 nd : Nat)
    (imol iatom : Int)
    (hbody : ∀ i st, dihedrals_body H1 D m atom2 nd imol iatom i st =
      dihedrals_body H2 D m atom2 nd imol iatom i st) :
    ∀ (fuel i : Nat) (st : Acc K),
      dihedrals_loop H1 D m atom2 nd imol iatom fuel i st =
        dihedrals_loop H2 D m atom2 nd imol iatom fuel i st := by
  intro fuel
  induction fuel with
  | zero => intro i st; rfl
  | succ fuel ih =>
    intro i st
    simp only [dihedrals_loop, hbody, ih]

/-- The bond engine gives the same result on two hosts that have the same
bond style, atoms, group and bond records. -/
theorem compute_bonds_congr (H1 H2 : Host K)
    (hs : H1.force.bond = H2.force.bond) (hn : H1.atom.nlocal = H2.atom.nlocal)
    (hm : H1.atom.mask = H2.atom.mask) (hg : H1.groupbit = H2.groupbit)
    (hmol : H1.atom.molecular = H2.atom.molecular)
    (hnb : H1.atom.num_bond = H2.atom.num_bond)
    (hmi : H1.atom.molindex = H2.atom.molindex) (hma : H1.atom.molatom = H2.atom.molatom)
    (hom : ∀ i, (H1.atom.onemols i).num_bond = (H2.atom.onemols i).num_bond)
    (hbody : ∀ B m atom1 imol iatom i st, bonds_body H1 B m atom1 imol iatom i st =
      bonds_body H2 B m atom1 imol iatom i st)
    (fuel n : Nat) (st : Acc K) :
    compute_bonds H1 fuel n st = compute_bonds H2 fuel n st := by
  have hat : ∀ B m atom1 s, bonds_atom H1 B m fuel atom1 s = bonds_atom H2 B m fuel atom1 s := by
    intro B m atom1 s
    simp only [bonds_atom, hm, hg, hmol, hnb, hmi, hma, hom]
    rw [bonds_loop_congr H1 H2 B m atom1 _ _ _ (hbody B m atom1 _ _),
      bonds_loop_congr H1 H2 B m atom1 _ _ _ (hbody B m atom1 _ _)]
  simp only [compute_bonds, hs, hn]
  cases H2.force.bond with
  | none => rfl
  | some B =>
    exact whileM_congr _ _ _ (fun m s => forRange_congr _ _ _ (hat B m) s) _ _ _

/-- The angle engine gives the same result on two hosts that have the same
angle style, atoms, group and angle records. -/
theorem compute_angles_congr (H1 H2 : Host K)
    (hs : H1.force.angle = H2.force.angle) (hn : H1.atom.nlocal = H2.atom.nlocal)
    (hm : H1.atom.mask = H2.atom.mask) (hg : H1.groupbit = H2.groupbit)
    (hmol : H1.atom.molecular = H2.atom.molecular)
    (hna : H1.atom.num_angle = H2.atom.num_angle)
    (hmi : H1.atom.molindex = H2.atom.molindex) (hma : H1.atom.molatom = H2.atom.molatom)
    (hom : ∀ i, (H1.atom.onemols i).num_angle = (H2.atom.onemols i).num_angle)
    (hbody : ∀ A m atom2 imol iatom i st, angles_body H1 A m atom2 imol iatom i st =
      angles_body H2 A m atom2 imol iatom i st)
    (fuel n : Nat) (st : Acc K) :
    compute_angles H1 fuel n st = compute_angles H2 fuel n st := by
  have hat : ∀ A m atom2 s,
      angles_atom H1 A m fuel atom2 s = angles_atom H2 A m fuel atom2 s := by
    intro A m atom2 s
    simp only [angles_atom, hm, hg, hmol, hna, hmi, hma, hom]
    rw [angles_loop_congr H1 H2 A m atom2 _ _ _ (hbody A m atom2 _ _),
      angles_loop_congr H1 H2 A m atom2 _ _ _ (hbody A m atom2 _ _)]
  simp only [compute_angles, hs, hn]
  cases H2.force.angle with
  | none => rfl
  | some A =>
    exact whileM_congr _ _ _ (fun m s => forRange_congr _ _ _ (hat A m) s) _ _ _

/-- The dihedral engine gives the same result on two hosts that have the same
dihedral style, atoms, group and dihedral records. -/
theorem compute_dihedrals_congr (H1 H2 : Host K)
    (hs : H1.force.dihedral = H2.force.dihedral) (hn : H1.atom.nlocal = H2.atom.nlocal)
    (hm : H1.atom.mask = H2.atom.mask) (hg : H1.groupbit = H2.groupbit)
    (hmol : H1.atom.molecular = H2.atom.molecular)
    (hnd : H1.atom.num_dihedral = H2.atom.num_dihedral)
    (hmi : H1.atom.molindex = H2.atom.molindex) (hma : H1.atom.molatom = H2.atom.molatom)
    (hom : ∀ i, (H1.atom.onemols i).num_dihedral = (H2.atom.onemols i).num_dihedral)
    (hbody : ∀ D m atom2 nd imol iatom i st,
      dihedrals_body H1 D m atom2 nd imol iatom i st =
        dihedrals_body H2 D m atom2 nd imol iatom i st)
    (fuel n : Nat) (st : Acc K) :
    compute_dihedrals H1 fuel n st = compute_dihedrals H2 fuel n st := by
  have hat : ∀ D m atom2 s,
      dihedrals_atom H1 D m fuel atom2 s = dihedrals_atom H2 D m fuel atom2 s := by
    intro D m atom2 s
    simp only [dihedrals_atom, hm, hg, hmol, hnd, hmi, hma, hom]
    rw [dihedrals_loop_congr H1 H2 D m atom2 _ _ _ (hbody D m atom2 _ _ _),
      dihedrals_loop_congr H1 H2 D m atom2 _ _ _ (hbody D m atom2 _ _ _)]
  simp only [compute_dihedrals, hs, hn]
  cases H2.force.dihedral with
  | none => rfl
  | some D =>
    exact whileM_congr _ _ _ (fun m s => forRange_congr _ _ _ (hat D m) s) _ _ _

theorem compute_bonds_replace_angles (H : Host K) (A : Option (AngleStyle K)) (src : Atom K)
    (fuel n : Nat) (st : Acc K) :
    compute_bonds (H.replace_angles A src) fuel n st = compute_bonds H fuel n st :=
  compute_bonds_congr (H.replace_angles A src) H rfl rfl rfl rfl rfl rfl rfl rfl (fun _ => rfl)
    (fun _ _ _ _ _ _ _ => rfl) fuel n st

theorem compute_bonds_replace_dihedrals (H : Host K) (D : Option (DihedralStyle K)) (src : Atom K)
    (fuel n : Nat) (st : Acc K) :
    compute_bonds (H.replace_dihedrals D src) fuel n st = compute_bonds H fuel n st :=
  compute_bonds_congr (H.replace_dihedrals D src) H rfl rfl rfl rfl rfl rfl rfl rfl (fun _ => rfl)
    (fun _ _ _ _ _ _ _ => rfl) fuel n st

theorem compute_bonds_replace_impropers (H : Host K) (I : Option (ImproperStyle)) (src : Atom K)
    (fuel n : Nat) (st : Acc K) :
    compute_bonds (H.replace_impropers I src) fuel n st = compute_bonds H fuel n st :=
  compute_bonds_congr (H.replace_impropers I src) H rfl rfl rfl rfl rfl rfl rfl rfl (fun _ => rfl)
    (fun _ _ _ _ _ _ _ => rfl) fuel n st

theorem compute_angles_replace_bonds (H : Host K) (B : Option (BondStyle K)) (src : Atom K)
    (fuel n : Nat) (st : Acc K) :
    compute_angles (H.replace_bonds B src) fuel n st = compute_angles H fuel n st :=
  compute_angles_congr (H.replace_bonds B src) H rfl rfl rfl rfl rfl rfl rfl rfl (fun _ => rfl)
    (fun _ _ _ _ _ _ _ => rfl) fuel n st

theorem compute_angles_replace_dihedrals (H : Host K) (D : Option (DihedralStyle K)) (src : Atom K)
    (fuel n : Nat) (st : Acc K) :
    compute_angles (H.replace_dihedrals D src) fuel n st = compute_angles H fuel n st :=
  compute_angles_congr (H.replace_dihedrals D src) H rfl rfl rfl rfl rfl rfl rfl rfl (fun _ => rfl)
    (fun _ _ _ _ _ _ _ => rfl) fuel n st

theorem compute_angles_replace_impropers (H : Host K) (I : Option (ImproperStyle)) (src : Atom K)
    (fuel n : Nat) (st : Acc K) :
    compute_angles (H.replace_impropers I src) fuel n st = compute_angles H fuel n st :=
  compute_angles_congr (H.replace_impropers I src) H rfl rfl rfl rfl rfl rfl rfl rfl (fun _ => rfl)
    (fun _ _ _ _ _ _ _ => rfl) fuel n st

theorem compute_dihedrals_replace_bonds (H : Host K) (B : Option (BondStyle K)) (src : Atom K)
    (fuel n : Nat) (st : Acc K) :
    compute_dihedrals (H.replace_bonds B src) fuel n st = compute_dihedrals H fuel n st :=
  compute_dihedrals_congr (H.replace_bonds B src) H rfl rfl rfl rfl rfl rfl rfl rfl (fun _ => rfl)
    (fun _ _ _ _ _ _ _ _ => rfl) fuel n st

theorem compute_dihedrals_replace_angles (H : Host K) (A : Option (AngleStyle K)) (src : Atom K)
    (fuel n : Nat) (st : Acc K) :
    compute_dihedrals (H.replace_angles A src) fuel n st = compute_dihedrals H fuel n st :=
  compute_dihedrals_congr (H.replace_angles A src) H rfl rfl rfl rfl rfl rfl rfl rfl (fun _ => rfl)
    (fun _ _ _ _ _ _ _ _ => rfl) fuel n st

theorem compute_dihedrals_replace_impropers (H : Host K) (I : Option (ImproperStyle)) (src : Atom K)
    (fuel n : Nat) (st : Acc K) :
    compute_dihedrals (H.replace_impropers I src) fuel n st = compute_dihedrals H fuel n st :=
  compute_dihedrals_congr (H.replace_impropers I src) H rfl rfl rfl rfl rfl rfl rfl rfl (fun _ => rfl)
    (fun _ _ _ _ _ _ _ _ => rfl) fuel n st

theorem compute_pairs_replace_bonds (H : Host K) (B : Option (BondStyle K)) (src : Atom K)
    (n : Nat) (st : Acc K) :
    compute_pairs (H.replace_bonds B src) n st = compute_pairs H n st := rfl

theorem compute_pairs_replace_angles (H : Host K) (A : Option (AngleStyle K)) (src : Atom K)
    (n : Nat) (st : Acc K) :
    compute_pairs (H.replace_angles A src) n st = compute_pairs H n st := rfl

theorem compute_pairs_replace_dihedrals (H : Host K) (D : Option (DihedralStyle K)) (src : Atom K)
    (n : Nat) (st : Acc K) :
    compute_pairs (H.replace_dihedrals D src) n st = compute_pairs H n st := rfl

theorem compute_pairs_replace_impropers (H : Host K) (I : Option (ImproperStyle)) (src : Atom K)
    (n : Nat) (st : Acc K) :
    compute_pairs (H.replace_impropers I src) n st = compute_pairs H n st := rfl

/-- C4.  An atom `a` without the group bit takes part in nothing: in each of
the four engines the loop body of a record that has `a` as one of its atoms
leaves the accumulator, the call log and the loop counter as they are, and
the whole record loop of `a` as storing atom does the same, whatever the other
atoms of the record are. -/
theorem group_filter (H : Host K) (a : Nat) (hout : H.atom.mask a &&& H.groupbit = 0) :
    (∀ (P : PairStyle K) (m ii : Nat) (st : Acc K),
      H.list.ilist ii = a → pairs_ii H P m ii st = st) ∧
    (∀ (P : PairStyle K) (m : Nat) (xi : Nat → K) (itype jraw : Nat) (s : Nat × Acc K),
      H.list.neighmask jraw = a → pairs_jj H P m xi itype jraw s = s) ∧
    (∀ (B : BondStyle K) (m fuel : Nat) (st : Acc K),
      bonds_atom H B m fuel a st = some st) ∧
    (∀ (B : BondStyle K) (m atom1 : Nat) (imol iatom : Int) (i : Nat) (st : Acc K),
      (bonds_atom2 H atom1 imol iatom i).toNat = a →
        bonds_body H B m atom1 imol iatom i st = (i, st)) ∧
    (∀ (A : AngleStyle K) (m fuel : Nat) (st : Acc K),
      angles_atom H A m fuel a st = some st) ∧
    (∀ (A : AngleStyle K) (m atom2 : Nat) (imol iatom : Int) (i : Nat) (st : Acc K),
      (angles_atom1 H atom2 imol iatom i).toNat = a ∨
        (angles_atom3 H atom2 imol iatom i).toNat = a →
        angles_body H A m atom2 imol iatom i st = (i, st)) ∧
    (∀ (D : DihedralStyle K) (m fuel : Nat) (st : Acc K),
      dihedrals_atom H D m fuel a st = some st) ∧
    (∀ (D : DihedralStyle K) (m atom2 nd : Nat) (imol iatom : Int) (i : Nat) (st : Acc K),
      (dihedrals_atom1 H atom2 imol iatom i).toNat = a ∨
        (dihedrals_atom3 H atom2 imol iatom i).toNat = a ∨
        (dihedrals_atom4 H atom2 imol iatom i).toNat = a →
        dihedrals_body H D m atom2 nd imol iatom i st = (i, st)) := by
  refine ⟨?_, ?_, ?_, ?_, ?_, ?_, ?_, ?_⟩
  · intro P m ii st h
    simp only [pairs_ii, h, hout, if_true]
  · intro P m xi itype jraw s h
    simp only [pairs_jj, h, hout, if_true]
  · intro B m fuel st
    simp only [bonds_atom, hout, if_true]
  · intro B m atom1 imol iatom i st h
    simp only [bonds_body, h, hout, or_true, if_true]
  · intro A m fuel st
    simp only [angles_atom, hout, if_true]
  · intro A m atom2 imol iatom i st h
    simp only [angles_body]
    split_ifs <;> first | rfl | skip
    rename_i h1 h2 h3 h4
    rcases h with h | h
    · exact absurd (Or.inr (h ▸ hout)) h2
    · exact absurd (Or.inr (h ▸ hout)) h3
  · intro D m fuel st
    simp only [dihedrals_atom, hout, if_true]
  · intro D m atom2 nd imol iatom i st h
    simp only [dihedrals_body]
    split_ifs <;> first | rfl | skip
    rename_i h1 h2 h3 h4
    rcases h with h | h | h
    · exact absurd (Or.inr (h ▸ hout)) h2
    · exact absurd (Or.inr (h ▸ hout)) h3
    · exact absurd (Or.inr (h ▸ hout)) h4

/-- C4, on a system in which atom 0 is outside the group: the record loops of
atom 0 in the bond, angle and dihedral engines return the state they were
given. -/
theorem group_filter_witness :
    outsideHost.atom.mask 0 &&& outsideHost.groupbit = 0 ∧
    bonds_atom outsideHost (constBond (2, 5)) 0 5 0 ⟨fun _ => 0, []⟩ =
      some ⟨fun _ => 0, []⟩ ∧
    angles_atom outsideHost (constAngle (2, 5)) 0 5 0 ⟨fun _ => 0, []⟩ =
      some ⟨fun _ => 0, []⟩ ∧
    dihedrals_atom outsideHost (constDihedral (2, 5)) 0 5 0 ⟨fun _ => 0, []⟩ =
      some ⟨fun _ => 0, []⟩ :=
  ⟨rfl,
    (group_filter outsideHost 0 rfl).2.2.1 _ _ _ _,
    (group_filter outsideHost 0 rfl).2.2.2.2.1 _ _ _ _,
    (group_filter outsideHost 0 rfl).2.2.2.2.2.2.1 _ _ _ _⟩

/-- C5.  A neighbor whose squared separation is at least the squared cutoff of
its type pair, equality included, leaves the state of the `jj` loop as it is:
nothing is added to the accumulator and `born` is not called. -/
theorem pairs_cutoff_skip (H : Host K) (P : PairStyle K) (m : Nat) (xi : Nat → K)
    (itype jraw : Nat) (s : Nat × Acc K)
    (h : P.cutsq itype (H.atom.type (H.list.neighmask jraw)) ≤
      pair_rsq xi (fun a => H.atom.x (H.list.neighmask jraw) a)) :
    pairs_jj H P m xi itype jraw s = s := by
  simp only [pairs_jj]
  split_ifs <;> rfl

/-- C5, for two atoms at distance 1 with squared cutoff 1: the separation
equals the cutoff and the entry is skipped. -/
theorem pairs_cutoff_skip_witness :
    (constPair 1 (2, 5)).cutsq 1
        ((unitPairHost 1 0).atom.type ((unitPairHost 1 0).list.neighmask 1)) ≤
      pair_rsq (linePos 0)
        (fun a => (unitPairHost 1 0).atom.x ((unitPairHost 1 0).list.neighmask 1) a) ∧
    pairs_jj (unitPairHost 1 0) (constPair 1 (2, 5)) 0 (linePos 0) 1 1
        (0, ⟨fun _ => 0, []⟩) = (0, ⟨fun _ => 0, []⟩) :=
  ⟨by norm_num [constPair, unitPairHost, plainHost, plainAtom, pairList, pair_rsq, linePos],
    pairs_cutoff_skip (unitPairHost 1 0) (constPair 1 (2, 5)) 0 (linePos 0) 1 1
      (0, ⟨fun _ => 0, []⟩)
      (by norm_num [constPair, unitPairHost, plainHost, plainAtom, pairList, pair_rsq,
        linePos])⟩

/-! ## Setup -/

theorem construct_error_iff (D : Domain K) (raw : Born K) :
    (∃ e, construct D raw = Except.error e) ↔ (D.dimension < 3 ∨ D.triclinic ≠ 0) := by
  unfold construct
  by_cases h1 : D.dimension < 3
  · simp [h1]
  · by_cases h2 : D.triclinic = 0
    · simp [h1, h2]
    · simp [h1, h2]

theorem init_error_iff (F : Force K) (C : Born K) :
    (∃ e, init F C = Except.error e) ↔
      (F.pair = none ∨ ∃ P, F.pair = some P ∧ P.born_enable = 0) := by
  unfold init
  cases hp : F.pair with
  | none => simp
  | some P =>
    by_cases h : P.born_enable = 0
    · simp [h]
    · simp [h]

theorem setup_error_iff (H : Host K) (raw : Born K) :
    (∃ e, setup H raw = Except.error e) ↔
      (H.domain.dimension < 3 ∨ H.domain.triclinic ≠ 0 ∨ H.force.pair = none ∨
        ∃ P, H.force.pair = some P ∧ P.born_enable = 0) := by
  unfold setup
  cases hc : construct H.domain raw with
  | error e =>
    have h := (construct_error_iff H.domain raw).mp ⟨e, hc⟩
    constructor
    · intro _
      rcases h with h | h
      · exact Or.inl h
      · exact Or.inr (Or.inl h)
    · intro _
      exact ⟨e, rfl⟩
  | ok C =>
    have h : ¬ (H.domain.dimension < 3 ∨ H.domain.triclinic ≠ 0) := by
      intro hh
      obtain ⟨e, he⟩ := (construct_error_iff H.domain raw).mpr hh
      rw [hc] at he
      cases he
    simp only []
    rw [init_error_iff]
    constructor
    · intro hh
      exact Or.inr (Or.inr hh)
    · intro hh
      rcases hh with hh | hh | hh
      · exact absurd (Or.inl hh) h
      · exact absurd (Or.inr hh) h
      · exact hh

/-- C8.  Setup (the constructor, then `init`) ends in a fatal error if and
only if the dimension is below 3, or the box is triclinic, or there is no pair
style, or the pair style has `born_enable == 0`; and whether it does is the
same whatever the bond, angle, dihedral and improper styles are. -/
theorem setup_fatal_iff (H : Host K) (raw : Born K) :
    ((∃ e, setup H raw = Except.error e) ↔
      (H.domain.dimension < 3 ∨ H.domain.triclinic ≠ 0 ∨ H.force.pair = none ∨
        ∃ P, H.force.pair = some P ∧ P.born_enable = 0)) ∧
    (∀ (b : Option (BondStyle K)) (a : Option (AngleStyle K))
        (d : Option (DihedralStyle K)) (im : Option ImproperStyle),
      (∃ e, setup { H with force :=
          { H.force with bond := b, angle := a, dihedral := d, improper := im } } raw =
            Except.error e) ↔
        (∃ e, setup H raw = Except.error e)) := by
  refine ⟨setup_error_iff H raw, ?_⟩
  intro b a d im
  rw [setup_error_iff, setup_error_iff]

/-! ## Flags and disabled categories -/

theorem init_flag_one_iff (enable : Option Int) (msg : String) :
    (init_flag enable msg).1 = 1 ↔ ∃ e, enable = some e ∧ e ≠ 0 := by
  unfold init_flag
  cases enable with
  | none => simp
  | some e =>
    by_cases h : e = 0
    · simp [h]
    · simp [h]

theorem init_flag_zero_of_not (enable : Option Int) (msg : String)
    (h : ¬ ∃ e, enable = some e ∧ e ≠ 0) : (init_flag enable msg).1 = 0 := by
  unfold init_flag
  cases enable with
  | none => rfl
  | some e =>
    by_cases h0 : e = 0
    · simp [h0]
    · exact absurd ⟨e, rfl, h0⟩ h

theorem init_ok_flags (F : Force K) (C C1 : Born K) (w : List String)
    (h : init F C = Except.ok (C1, w)) :
    C1.bondflag = (init_flag (F.bond.map fun s => s.born_enable)
        "Bond style does not support compute born").1 ∧
    C1.angleflag = (init_flag (F.angle.map fun s => s.born_enable)
        "Angle style does not support compute born").1 ∧
    C1.dihedflag = (init_flag (F.dihedral.map fun s => s.born_enable)
        "Dihedral style does not support compute born").1 ∧
    C1.impflag = (init_flag (F.improper.map fun s => s.born_enable)
        "Improper style does not support compute born").1 ∧
    C1.pairflag = 1 ∧ C1.nvalues = C.nvalues := by
  unfold init at h
  cases hp : F.pair with
  | none => rw [hp] at h; cases h
  | some P =>
    rw [hp] at h
    by_cases h0 : P.born_enable = 0
    · simp [h0] at h
    · simp only [h0, if_false] at h
      injection h with h
      injection h with h1 h2
      subst h1
      exact ⟨rfl, rfl, rfl, rfl, rfl, rfl⟩

theorem replace_bonds_ntimestep (H : Host K) (B : Option (BondStyle K)) (src : Atom K) :
    (H.replace_bonds B src).ntimestep = H.ntimestep := rfl

theorem replace_angles_ntimestep (H : Host K) (A : Option (AngleStyle K)) (src : Atom K) :
    (H.replace_angles A src).ntimestep = H.ntimestep := rfl

theorem replace_dihedrals_ntimestep (H : Host K) (D : Option (DihedralStyle K))
    (src : Atom K) : (H.replace_dihedrals D src).ntimestep = H.ntimestep := rfl

theorem replace_impropers_ntimestep (H : Host K) (I : Option ImproperStyle) (src : Atom K) :
    (H.replace_impropers I src).ntimestep = H.ntimestep := rfl

theorem compute_vector_replace_bonds (H : Host K) (fuel : Nat) (C : Born K)
    (B : Option (BondStyle K)) (src : Atom K) (h : C.bondflag = 0) :
    compute_vector (H.replace_bonds B src) fuel C = compute_vector H fuel C := by
  simp only [compute_vector, compute_local, h, compute_pairs_replace_bonds,
    compute_angles_replace_bonds, compute_dihedrals_replace_bonds, ne_eq, not_true_eq_false,
    if_false, replace_bonds_ntimestep]

theorem compute_vector_replace_angles (H : Host K) (fuel : Nat) (C : Born K)
    (A : Option (AngleStyle K)) (src : Atom K) (h : C.angleflag = 0) :
    compute_vector (H.replace_angles A src) fuel C = compute_vector H fuel C := by
  simp only [compute_vector, compute_local, h, compute_pairs_replace_angles,
    compute_bonds_replace_angles, compute_dihedrals_replace_angles, ne_eq, not_true_eq_false,
    if_false, replace_angles_ntimestep]

theorem compute_vector_replace_dihedrals (H : Host K) (fuel : Nat) (C : Born K)
    (D : Option (DihedralStyle K)) (src : Atom K) (h : C.dihedflag = 0) :
    compute_vector (H.replace_dihedrals D src) fuel C = compute_vector H fuel C := by
  simp only [compute_vector, compute_local, h, compute_pairs_replace_dihedrals,
    compute_bonds_replace_dihedrals, compute_angles_replace_dihedrals, ne_eq,
    not_true_eq_false, if_false, replace_dihedrals_ntimestep]

/-- C9.  After a successful `init`, the bond, angle and dihedral flags are `1`
exactly when the style is present with `born_enable != 0`.  Otherwise the flag
is `0`, and then `compute_vector` returns the same object (accumulator,
exposed vector and call log) whatever the style and the records of that
category are: the category adds nothing. -/
theorem disabled_category_adds_nothing (F : Force K) (C C1 : Born K) (w : List String)
    (h : init F C = Except.ok (C1, w)) :
    ((C1.bondflag = 1 ↔ ∃ B, F.bond = some B ∧ B.born_enable ≠ 0) ∧
      ((¬ ∃ B, F.bond = some B ∧ B.born_enable ≠ 0) →
        C1.bondflag = 0 ∧
        ∀ (H : Host K) (fuel : Nat) (B1 : Option (BondStyle K)) (src : Atom K),
          compute_vector (H.replace_bonds B1 src) fuel C1 = compute_vector H fuel C1)) ∧
    ((C1.angleflag = 1 ↔ ∃ A, F.angle = some A ∧ A.born_enable ≠ 0) ∧
      ((¬ ∃ A, F.angle = some A ∧ A.born_enable ≠ 0) →
        C1.angleflag = 0 ∧
        ∀ (H : Host K) (fuel : Nat) (A1 : Option (AngleStyle K)) (src : Atom K),
          compute_vector (H.replace_angles A1 src) fuel C1 = compute_vector H fuel C1)) ∧
    ((C1.dihedflag = 1 ↔ ∃ D, F.dihedral = some D ∧ D.born_enable ≠ 0) ∧
      ((¬ ∃ D, F.dihedral = some D ∧ D.born_enable ≠ 0) →
        C1.dihedflag = 0 ∧
        ∀ (H : Host K) (fuel : Nat) (D1 : Option (DihedralStyle K)) (src : Atom K),
          compute_vector (H.replace_dihedrals D1 src) fuel C1 = compute_vector H fuel C1)) := by
  obtain ⟨hb, ha, hd, -, -, -⟩ := init_ok_flags F C C1 w h
  have eb : (∃ e, (F.bond.map fun s => s.born_enable) = some e ∧ e ≠ 0) ↔
      ∃ B, F.bond = some B ∧ B.born_enable ≠ 0 := by
    cases F.bond with
    | none => simp
    | some B => simp
  have ea : (∃ e, (F.angle.map fun s => s.born_enable) = some e ∧ e ≠ 0) ↔
      ∃ A, F.angle = some A ∧ A.born_enable ≠ 0 := by
    cases F.angle with
    | none => simp
    | some A => simp
  have ed : (∃ e, (F.dihedral.map fun s => s.born_enable) = some e ∧ e ≠ 0) ↔
      ∃ D, F.dihedral = some D ∧ D.born_enable ≠ 0 := by
    cases F.dihedral with
    | none => simp
    | some D => simp
  refine ⟨⟨?_, ?_⟩, ⟨?_, ?_⟩, ⟨?_, ?_⟩⟩
  · rw [hb, init_flag_one_iff, eb]
  · intro hn
    have h0 : C1.bondflag = 0 := by
      rw [hb]
      exact init_flag_zero_of_not _ _ (fun hh => hn (eb.mp hh))
    exact ⟨h0, fun H fuel B1 src => compute_vector_replace_bonds H fuel C1 B1 src h0⟩
  · rw [ha, init_flag_one_iff, ea]
  · intro hn
    have h0 : C1.angleflag = 0 := by
      rw [ha]
      exact init_flag_zero_of_not _ _ (fun hh => hn (ea.mp hh))
    exact ⟨h0, fun H fuel A1 src => compute_vector_replace_angles H fuel C1 A1 src h0⟩
  · rw [hd, init_flag_one_iff, ed]
  · intro hn
    have h0 : C1.dihedflag = 0 := by
      rw [hd]
      exact init_flag_zero_of_not _ _ (fun hh => hn (ed.mp hh))
    exact ⟨h0, fun H fuel D1 src => compute_vector_replace_dihedrals H fuel C1 D1 src h0⟩

/-- C9, for a force with a pair style that supports born and a bond style that
does not: `init` succeeds with a warning, the bond flag is `0`, and
`compute_vector` on the system with two bond records returns what it returns
on the same system without bond style and bond records. -/
theorem disabled_category_witness :
    init noBornBondForce (readyBorn 0 1 1 1) =
      Except.ok (readyBorn 1 0 0 0, ["Bond style does not support compute born"]) ∧
    (readyBorn 1 0 0 0).bondflag = 0 ∧
    compute_vector (twoBondHost.replace_bonds none (plainAtom 3 linePos)) 5
        (readyBorn 1 0 0 0) =
      compute_vector twoBondHost 5 (readyBorn 1 0 0 0) :=
  ⟨rfl,
    ((disabled_category_adds_nothing noBornBondForce (readyBorn 0 1 1 1) (readyBorn 1 0 0 0)
      ["Bond style does not support compute born"] rfl).1.2
        (by simp [noBornBondForce])).1,
    ((disabled_category_adds_nothing noBornBondForce (readyBorn 0 1 1 1) (readyBorn 1 0 0 0)
      ["Bond style does not support compute born"] rfl).1.2
        (by simp [noBornBondForce])).2 twoBondHost 5 none (plainAtom 3 linePos)⟩

/-! ## Impropers -/

theorem compute_vector_replace_impropers (H : Host K) (fuel : Nat) (C : Born K)
    (I : Option ImproperStyle) (src : Atom K) (f : Int) :
    compute_vector (H.replace_impropers I src) fuel { C with impflag := f } =
      (compute_vector H fuel C).map fun c => { c with impflag := f } := by
  simp only [compute_vector, compute_local, compute_pairs_replace_impropers,
    compute_bonds_replace_impropers, compute_angles_replace_impropers,
    compute_dihedrals_replace_impropers, replace_impropers_ntimestep]
  cases (if C.pairflag ≠ 0 then
      compute_pairs H C.nvalues
        { values_local := zero_local C.nvalues C.values_local, calls := [] }
    else some { values_local := zero_local C.nvalues C.values_local, calls := [] }) with
  | none => rfl
  | some s1 =>
    simp only [Option.some_bind]
    cases (if C.bondflag ≠ 0 then compute_bonds H fuel C.nvalues s1 else some s1) with
    | none => rfl
    | some s2 =>
      simp only [Option.some_bind]
      cases (if C.angleflag ≠ 0 then compute_angles H fuel C.nvalues s2 else some s2) with
      | none => rfl
      | some s3 =>
        simp only [Option.some_bind]
        cases (if C.dihedflag ≠ 0 then compute_dihedrals H fuel C.nvalues s3 else some s3) with
        | none => rfl
        | some s4 => rfl

/-- C10.  `compute_vector` on a system with another improper style, other
improper records (per atom and in the molecule templates) and another value
of `impflag` returns the same object up to `impflag` itself: same accumulator,
same exposed vector, same call log.  `init` with another improper style sets
the same four flags that `compute_vector` reads. -/
theorem impropers_never_contribute (H : Host K) (fuel : Nat) (C : Born K)
    (I : Option ImproperStyle) (src : Atom K) (f : Int) :
    compute_vector (H.replace_impropers I src) fuel { C with impflag := f } =
      ((compute_vector H fuel C).map fun c => { c with impflag := f }) ∧
    (init (H.replace_impropers I src).force C).map (fun r => { r.1 with impflag := f }) =
      (init H.force C).map (fun r => { r.1 with impflag := f }) := by
  refine ⟨compute_vector_replace_impropers H fuel C I src f, ?_⟩
  simp only [init, Host.replace_impropers]
  cases H.force.pair with
  | none => rfl
  | some P =>
    by_cases h : P.born_enable = 0
    · simp only [h, if_true]
    · simp only [h, if_false]
      rfl

/-! ## The pair engine as a sum over owned pairs -/

theorem acc_shift_zero (st : Acc K) :
    ({ values_local := fun k => st.values_local k + 0, calls := st.calls ++ [] } : Acc K) = st := by
  cases st
  simp

theorem acc_shift_shift (st : Acc K) (d1 d2 : Nat → K) (c1 c2 : List (BornCall K)) :
    ({ values_local := fun k => (st.values_local k + d1 k) + d2 k
       calls := (st.calls ++ c1) ++ c2 } : Acc K) =
      { values_local := fun k => st.values_local k + (d1 k + d2 k)
        calls := st.calls ++ (c1 ++ c2) } := by
  simp [add_assoc, List.append_assoc]

theorem add21_shift (m : Nat) (term : Nat → K) (v : Nat → K) :
    add21 m term v = fun k => v k + (if m ≤ k ∧ k < m + 21 then term (k - m) else 0) := by
  funext k
  rw [add21_apply]
  split_ifs
  · rfl
  · rw [add_zero]

theorem isShift_some : IsShift (fun st : Acc K => some st) :=
  Or.inr ⟨fun _ => 0, [], fun st => by rw [acc_shift_zero]⟩

theorem isShift_none : IsShift (fun _ : Acc K => (none : Option (Acc K))) :=
  Or.inl fun _ => rfl

theorem isShift_bind (E1 E2 : Acc K → Option (Acc K)) (h1 : IsShift E1) (h2 : IsShift E2) :
    IsShift (fun st => (E1 st).bind E2) := by
  rcases h1 with h1 | ⟨d1, c1, h1⟩
  · exact Or.inl fun st => by simp only [h1, Option.none_bind]
  · rcases h2 with h2 | ⟨d2, c2, h2⟩
    · exact Or.inl fun st => by simp only [h1, Option.some_bind, h2]
    · refine Or.inr ⟨fun k => d1 k + d2 k, c1 ++ c2, fun st => ?_⟩
      simp only [h1, Option.some_bind, h2, acc_shift_shift]

theorem isShift_ite (c : Prop) [Decidable c] (E1 E2 : Acc K → Option (Acc K))
    (h1 : IsShift E1) (h2 : IsShift E2) : IsShift (fun st => if c then E1 st else E2 st) := by
  by_cases h : c
  · simp only [h, if_true]; exact h1
  · simp only [h, if_false]; exact h2

theorem isShift_congr (E1 E2 : Acc K → Option (Acc K)) (h : ∀ st, E1 st = E2 st)
    (h2 : IsShift E2) : IsShift E1 := by
  have e : E1 = E2 := funext h
  rw [e]
  exact h2

theorem whileM_shift (n : Nat) (body : Nat → Acc K → Option (Acc K))
    (hb : ∀ m, IsShift (body m)) : ∀ fuel m, IsShift (whileM n body fuel m) := by
  intro fuel
  induction fuel with
  | zero => intro m; exact Or.inl fun _ => rfl
  | succ fuel ih =>
    intro m
    by_cases hm : m < n
    · apply isShift_congr _ (fun st => (body m st).bind (whileM n body fuel (m + 21)))
      · intro st
        simp only [whileM, hm, if_true]
        cases body m st <;> rfl
      · exact isShift_bind _ _ (hb m) (ih (m + 21))
    · apply isShift_congr _ (fun st => some st)
      · intro st
        simp only [whileM, hm, if_false]
      · exact isShift_some

theorem forRange_shift (body : Nat → Acc K → Option (Acc K)) (hb : ∀ k, IsShift (body k)) :
    ∀ n, IsShift (forRange n body) := by
  intro n
  induction n with
  | zero => exact isShift_some
  | succ n ih =>
    apply isShift_congr _ (fun st => (forRange n body st).bind (body n))
    · intro st
      rw [forRange_succ]
    · exact isShift_bind _ _ ih (hb n)

theorem isStep_skip (i : Nat) : IsStep (fun st : Acc K => (i, st)) :=
  ⟨i, fun _ => 0, [], fun st => by rw [acc_shift_zero]⟩

theorem isStep_add21 (i1 m : Nat) (term : Nat → K) (cs : List (BornCall K)) :
    IsStep (fun st : Acc K =>
      (i1, { values_local := add21 m term st.values_local, calls := st.calls ++ cs })) :=
  ⟨i1, fun k => if m ≤ k ∧ k < m + 21 then term (k - m) else 0, cs,
    fun st => by simp only [add21_shift]⟩

theorem isStep_ite (c : Prop) [Decidable c] (f g : Acc K → Nat × Acc K)
    (hf : IsStep f) (hg : IsStep g) : IsStep (fun st => if c then f st else g st) := by
  by_cases h : c
  · simp only [h, if_true]; exact hf
  · simp only [h, if_false]; exact hg

theorem pairs_jj_step (H : Host K) (P : PairStyle K) (m : Nat) (xi : Nat → K)
    (itype jraw i : Nat) : IsStep (fun st => pairs_jj H P m xi itype jraw (i, st)) := by
  simp only [pairs_jj]
  apply isStep_ite
  · exact isStep_skip i
  · apply isStep_ite
    · exact isStep_skip i
    · apply isStep_ite
      · exact isStep_add21 21 m _ _
      · exact isStep_skip i

theorem pairs_jj_shape (H : Host K) (P : PairStyle K) (m : Nat) (xi : Nat → K)
    (itype jraw i : Nat) :
    ∃ (i1 : Nat) (d : Nat → K) (cs : List (BornCall K)),
      ∀ st, pairs_jj H P m xi itype jraw (i, st) =
        (i1, { values_local := fun k => st.values_local k + d k, calls := st.calls ++ cs }) :=
  pairs_jj_step H P m xi itype jraw i

theorem pairs_jj_fold_shape (H : Host K) (P : PairStyle K) (m : Nat) (xi : Nat → K)
    (itype : Nat) (g : Nat → Nat) :
    ∀ (L : List Nat) (i : Nat),
      ∃ (i1 : Nat) (d : Nat → K) (cs : List (BornCall K)),
        ∀ st, L.foldl (fun s jj => pairs_jj H P m xi itype (g jj) s) (i, st) =
          (i1, { values_local := fun k => st.values_local k + d k, calls := st.calls ++ cs }) := by
  intro L
  induction L with
  | nil =>
    intro i
    exact ⟨i, fun _ => 0, [], fun st => by rw [acc_shift_zero]; rfl⟩
  | cons jj L ih =>
    intro i
    obtain ⟨i1, d1, c1, h1⟩ := pairs_jj_shape H P m xi itype (g jj) i
    obtain ⟨i2, d2, c2, h2⟩ := ih i1
    refine ⟨i2, fun k => d1 k + d2 k, c1 ++ c2, fun st => ?_⟩
    rw [List.foldl_cons, h1, h2, acc_shift_shift]

theorem pairs_ii_shape (H : Host K) (P : PairStyle K) (m ii : Nat) :
    ∃ (d : Nat → K) (cs : List (BornCall K)),
      ∀ st, pairs_ii H P m ii st =
        { values_local := fun k => st.values_local k + d k, calls := st.calls ++ cs } := by
  by_cases hm : H.atom.mask (H.list.ilist ii) &&& H.groupbit = 0
  · refine ⟨fun _ => 0, [], fun st => ?_⟩
    rw [acc_shift_zero]
    simp only [pairs_ii, hm, if_true]
  · obtain ⟨i1, d, cs, h⟩ := pairs_jj_fold_shape H P m (fun a => H.atom.x (H.list.ilist ii) a)
      (H.atom.type (H.list.ilist ii)) (H.list.firstneigh (H.list.ilist ii))
      (List.range (H.list.numneigh (H.list.ilist ii))) (H.list.ilist ii)
    refine ⟨d, cs, fun st => ?_⟩
    simp only [pairs_ii, hm, if_false, h]

theorem pairs_ii_fold_shape (H : Host K) (P : PairStyle K) (m : Nat) :
    ∀ (L : List Nat),
      ∃ (d : Nat → K) (cs : List (BornCall K)),
        ∀ st, L.foldl (fun t ii => pairs_ii H P m ii t) st =
          { values_local := fun k => st.values_local k + d k, calls := st.calls ++ cs } := by
  intro L
  induction L with
  | nil => exact ⟨fun _ => 0, [], fun st => by rw [acc_shift_zero]; rfl⟩
  | cons ii L ih =>
    obtain ⟨d1, c1, h1⟩ := pairs_ii_shape H P m ii
    obtain ⟨d2, c2, h2⟩ := ih
    refine ⟨fun k => d1 k + d2 k, c1 ++ c2, fun st => ?_⟩
    rw [List.foldl_cons, h1, h2, acc_shift_shift]

theorem compute_pairs_shift (H : Host K) (n : Nat) : IsShift (compute_pairs H n) := by
  unfold compute_pairs
  cases H.force.pair with
  | none => exact isShift_none
  | some P =>
    apply whileM_shift
    intro m
    obtain ⟨d, cs, h⟩ := pairs_ii_fold_shape H P m (List.range H.list.inum)
    exact Or.inr ⟨d, cs, fun st => by simp only [h]⟩

theorem bonds_body_step (H : Host K) (B : BondStyle K) (m atom1 : Nat) (imol iatom : Int)
    (i : Nat) : IsStep (fun st => bonds_body H B m atom1 imol iatom i st) := by
  simp only [bonds_body]
  apply isStep_ite
  · exact isStep_skip i
  · apply isStep_ite
    · exact isStep_skip i
    · apply isStep_ite
      · exact isStep_skip i
      · exact isStep_add21 21 m _ _

theorem angles_body_step (H : Host K) (A : AngleStyle K) (m atom2 : Nat) (imol iatom : Int)
    (i : Nat) : IsStep (fun st => angles_body H A m atom2 imol iatom i st) := by
  simp only [angles_body]
  apply isStep_ite
  · exact isStep_skip i
  · apply isStep_ite
    · exact isStep_skip i
    · apply isStep_ite
      · exact isStep_skip i
      · apply isStep_ite
        · exact isStep_skip i
        · exact isStep_add21 21 m _ _

theorem dihedrals_body_step (H : Host K) (D : DihedralStyle K) (m atom2 nd : Nat)
    (imol iatom : Int) (i : Nat) :
    IsStep (fun st => dihedrals_body H D m atom2 nd imol iatom i st) := by
  simp only [dihedrals_body]
  apply isStep_ite
  · exact isStep_skip i
  · apply isStep_ite
    · exact isStep_skip i
    · apply isStep_ite
      · exact isStep_skip i
      · apply isStep_ite
        · exact isStep_skip i
        · exact isStep_add21 21 m _ _


theorem bonds_loop_shift (H : Host K) (B : BondStyle K) (m atom1 nb : Nat) (imol iatom : Int) :
    ∀ fuel i, IsShift (bonds_loop H B m atom1 nb imol iatom fuel i) := by
  intro fuel
  induction fuel with
  | zero => intro i; exact Or.inl fun _ => rfl
  | succ fuel ih =>
    intro i
    by_cases hi : i < nb
    · obtain ⟨i1, d, cs, h⟩ := bonds_body_step H B m atom1 imol iatom i
      apply isShift_congr _
        (fun st => (some { values_local := fun k => st.values_local k + d k
                           calls := st.calls ++ cs }).bind
          (bonds_loop H B m atom1 nb imol iatom fuel (i1 + 1)))
      · intro st
        have hst := h st
        simp only at hst
        simp only [bonds_loop, hi, if_true, hst, Option.some_bind]
      · exact isShift_bind _ _ (Or.inr ⟨d, cs, fun _ => rfl⟩) (ih (i1 + 1))
    · apply isShift_congr _ (fun st => some st)
      · intro st
        simp only [bonds_loop, hi, if_false]
      · exact isShift_some

theorem bonds_atom_shift (H : Host K) (B : BondStyle K) (m fuel atom1 : Nat) :
    IsShift (bonds_atom H B m fuel atom1) := by
  unfold bonds_atom
  apply isShift_ite
  · exact isShift_some
  · apply isShift_ite
    · exact bonds_loop_shift _ _ _ _ _ _ _ _ _
    · apply isShift_ite
      · exact isShift_some
      · exact bonds_loop_shift _ _ _ _ _ _ _ _ _

theorem compute_bonds_shift (H : Host K) (fuel n : Nat) : IsShift (compute_bonds H fuel n) := by
  unfold compute_bonds
  cases H.force.bond with
  | none => exact isShift_none
  | some B =>
    apply whileM_shift
    intro m
    exact forRange_shift _ (fun k => bonds_atom_shift H B m fuel k) _


theorem angles_loop_shift (H : Host K) (A : AngleStyle K) (m atom2 na : Nat) (imol iatom : Int) :
    ∀ fuel i, IsShift (angles_loop H A m atom2 na imol iatom fuel i) := by
  intro fuel
  induction fuel with
  | zero => intro i; exact Or.inl fun _ => rfl
  | succ fuel ih =>
    intro i
    by_cases hi : i < na
    · obtain ⟨i1, d, cs, h⟩ := angles_body_step H A m atom2 imol iatom i
      apply isShift_congr _
        (fun st => (some { values_local := fun k => st.values_local k + d k
                           calls := st.calls ++ cs }).bind
          (angles_loop H A m atom2 na imol iatom fuel (i1 + 1)))
      · intro st
        have hst := h st
        simp only at hst
        simp only [angles_loop, hi, if_true, hst, Option.some_bind]
      · exact isShift_bind _ _ (Or.inr ⟨d, cs, fun _ => rfl⟩) (ih (i1 + 1))
    · apply isShift_congr _ (fun st => some st)
      · intro st
        simp only [angles_loop, hi, if_false]
      · exact isShift_some

theorem angles_atom_shift (H : Host K) (A : AngleStyle K) (m fuel atom2 : Nat) :
    IsShift (angles_atom H A m fuel atom2) := by
  unfold angles_atom
  apply isShift_ite
  · exact isShift_some
  · apply isShift_ite
    · exact angles_loop_shift _ _ _ _ _ _ _ _ _
    · apply isShift_ite
      · exact isShift_some
      · exact angles_loop_shift _ _ _ _ _ _ _ _ _

theorem compute_angles_shift (H : Host K) (fuel n : Nat) : IsShift (compute_angles H fuel n) := by
  unfold compute_angles
  cases H.force.angle with
  | none => exact isShift_none
  | some A =>
    apply whileM_shift
    intro m
    exact forRange_shift _ (fun k => angles_atom_shift H A m fuel k) _


theorem dihedrals_loop_shift (H : Host K) (D : DihedralStyle K) (m atom2 nd : Nat) (imol iatom : Int) :
    ∀ fuel i, IsShift (dihedrals_loop H D m atom2 nd imol iatom fuel i) := by
  intro fuel
  induction fuel with
  | zero => intro i; exact Or.inl fun _ => rfl
  | succ fuel ih =>
    intro i
    by_cases hi : i < nd
    · obtain ⟨i1, d, cs, h⟩ := dihedrals_body_step H D m atom2 nd imol iatom i
      apply isShift_congr _
        (fun st => (some { values_local := fun k => st.values_local k + d k
                           calls := st.calls ++ cs }).bind
          (dihedrals_loop H D m atom2 nd imol iatom fuel (i1 + 1)))
      · intro st
        have hst := h st
        simp only at hst
        simp only [dihedrals_loop, hi, if_true, hst, Option.some_bind]
      · exact isShift_bind _ _ (Or.inr ⟨d, cs, fun _ => rfl⟩) (ih (i1 + 1))
    · apply isShift_congr _ (fun st => some st)
      · intro st
        simp only [dihedrals_loop, hi, if_false]
      · exact isShift_some

theorem dihedrals_atom_shift (H : Host K) (D : DihedralStyle K) (m fuel atom2 : Nat) :
    IsShift (dihedrals_atom H D m fuel atom2) := by
  unfold dihedrals_atom
  apply isShift_ite
  · exact isShift_some
  · apply isShift_ite
    · exact dihedrals_loop_shift _ _ _ _ _ _ _ _ _
    · apply isShift_ite
      · exact isShift_some
      · exact dihedrals_loop_shift _ _ _ _ _ _ _ _ _

theorem compute_dihedrals_shift (H : Host K) (fuel n : Nat) : IsShift (compute_dihedrals H fuel n) := by
  unfold compute_dihedrals
  cases H.force.dihedral with
  | none => exact isShift_none
  | some D =>
    apply whileM_shift
    intro m
    exact forRange_shift _ (fun k => dihedrals_atom_shift H D m fuel k) _


/-- The four engines of `compute_vector`, each run when its flag is set, are
together one shift of the accumulator. -/
theorem run_engines_shift (H : Host K) (fuel : Nat) (C : Born K) :
    IsShift (run_engines H fuel C) := by
  unfold run_engines
  apply isShift_bind (fun s0 => if C.pairflag ≠ 0 then compute_pairs H C.nvalues s0 else some s0)
  · exact isShift_ite _ _ _ (compute_pairs_shift H _) isShift_some
  · apply isShift_bind
      (fun s1 => if C.bondflag ≠ 0 then compute_bonds H fuel C.nvalues s1 else some s1)
    · exact isShift_ite _ _ _ (compute_bonds_shift H fuel _) isShift_some
    · apply isShift_bind
        (fun s2 => if C.angleflag ≠ 0 then compute_angles H fuel C.nvalues s2 else some s2)
      · exact isShift_ite _ _ _ (compute_angles_shift H fuel _) isShift_some
      · exact isShift_ite _ _ _ (compute_dihedrals_shift H fuel _) isShift_some

theorem compute_local_run_engines (H : Host K) (fuel : Nat) (C : Born K) :
    compute_local H fuel C =
      (run_engines H fuel C
        { values_local := zero_local C.nvalues C.values_local, calls := [] }).map
        fun s4 => { C with
          invoked_array := H.ntimestep, values_local := s4.values_local, calls := s4.calls } := by
  simp only [compute_local, run_engines]
  cases (if C.pairflag ≠ 0 then
      compute_pairs H C.nvalues
        { values_local := zero_local C.nvalues C.values_local, calls := [] }
    else some { values_local := zero_local C.nvalues C.values_local, calls := [] }) with
  | none => rfl
  | some s1 =>
    simp only [Option.some_bind]
    cases (if C.bondflag ≠ 0 then compute_bonds H fuel C.nvalues s1 else some s1) with
    | none => rfl
    | some s2 =>
      simp only [Option.some_bind]
      cases (if C.angleflag ≠ 0 then compute_angles H fuel C.nvalues s2 else some s2) with
      | none => rfl
      | some s3 =>
        simp only [Option.some_bind]
        cases (if C.dihedflag ≠ 0 then compute_dihedrals H fuel C.nvalues s3 else some s3) with
        | none => rfl
        | some s4 => rfl

/-- The exposed entry `k < nvalues` after `reduce_publish` with one
contributor is the contributor's entry. -/
theorem reduce_publish_single (c : Born K) (k : Nat) (hk : k < c.nvalues) :
    (reduce_publish [c.values_local] c).vector k = c.values_local k := by
  simp only [reduce_publish, hk, if_true, List.map_cons, List.map_nil, List.sum_cons,
    List.sum_nil, add_zero]

theorem map_range_congr {α : Type} (n : Nat) (f g : Nat → α) (h : ∀ k, k < n → f k = g k) :
    (List.range n).map f = (List.range n).map g :=
  List.map_congr_left fun k hk => h k (List.mem_range.mp hk)

theorem reduce_publish_one (v : Nat → K) (c : Born K) (k : Nat) (hk : k < c.nvalues) :
    (reduce_publish [v] c).vector k = v k := by
  simp only [reduce_publish, hk, if_true, List.map_cons, List.map_nil, List.sum_cons,
    List.sum_nil, add_zero]

/-- C12.  In a one-worker run (the collective sum has the single contributor
`values_local` of that worker) every entry `0 .. nvalues-1` of the exposed
vector equals the same entry of the local accumulator; `nvalues` is 21 after
the constructor.  The collective run of a single worker is `compute_vector`. -/
theorem single_worker_vector_is_local (H : Host K) (fuel : Nat) (C : Born K) :
    (compute_vector H fuel C).map (fun c => (c.nvalues, (List.range c.nvalues).map c.vector)) =
      (compute_vector H fuel C).map
        (fun c => (C.nvalues, (List.range C.nvalues).map c.values_local)) ∧
    compute_vector_world fuel [(H, C)] = (compute_vector H fuel C).map (fun c => [c]) ∧
    (∀ raw : Born K, (construct H.domain raw).map (fun c => c.nvalues) =
      (construct H.domain raw).map (fun _ => 21)) := by
  refine ⟨?_, ?_, ?_⟩
  · rw [compute_vector, compute_local_run_engines]
    cases run_engines H fuel C
        { values_local := zero_local C.nvalues C.values_local, calls := [] } with
    | none => rfl
    | some s4 =>
      simp only [Option.map_some', Option.some.injEq, Prod.mk.injEq]
      refine ⟨rfl, ?_⟩
      apply map_range_congr
      intro k hk
      exact reduce_publish_one _ _ k hk
  · simp only [compute_vector_world, locals_of, compute_vector]
    cases compute_local H fuel C with
    | none => rfl
    | some c => rfl
  · intro raw
    unfold construct
    split_ifs <;> rfl

/-- C14.  Replacing the contents that `values_local`, `values_global` and
`vector` hold before the invocation changes neither whether `compute_vector`
returns nor any of the entries `0 .. nvalues-1` of the vector it exposes and
of the local accumulator it leaves, nor the calls it makes: the local
accumulator is zero in all these entries before any engine runs. -/
theorem compute_vector_fresh (H : Host K) (fuel : Nat) (C : Born K) (vl vg vv : Nat → K) :
    (compute_vector H fuel { C with values_local := vl, values_global := vg, vector := vv }).map
        (fun c => ((List.range C.nvalues).map c.vector,
          (List.range C.nvalues).map c.values_local, c.calls)) =
      (compute_vector H fuel C).map
        (fun c => ((List.range C.nvalues).map c.vector,
          (List.range C.nvalues).map c.values_local, c.calls)) ∧
    (List.range C.nvalues).map (zero_local C.nvalues vl) =
      (List.range C.nvalues).map (fun _ => 0) := by
  constructor
  · rw [compute_vector, compute_vector, compute_local_run_engines, compute_local_run_engines]
    have hE : run_engines H fuel { C with values_local := vl, values_global := vg, vector := vv } =
        run_engines H fuel C := rfl
    rw [hE]
    rcases run_engines_shift H fuel C with h | ⟨d, cs, h⟩
    · rw [h, h]
      rfl
    · rw [h, h]
      simp only [Option.map_some', Option.some.injEq, Prod.mk.injEq]
      have hv : ∀ (w : Nat → K) (k : Nat), k < C.nvalues →
          zero_local C.nvalues w k + d k = d k := by
        intro w k hk
        rw [zero_local_apply, if_pos hk, zero_add]
      refine ⟨?_, ?_, rfl⟩
      · apply map_range_congr
        intro k hk
        simp only [reduce_publish, hk, if_true, List.map_cons, List.map_nil, List.sum_cons,
          List.sum_nil, add_zero, hv _ k hk]
      · apply map_range_congr
        intro k hk
        show zero_local C.nvalues vl k + d k = zero_local C.nvalues C.values_local k + d k
        rw [hv _ k hk, hv _ k hk]
  · apply map_range_congr
    intro k hk
    rw [zero_local_apply, if_pos hk]

theorem compute_bonds_no_records (H : Host K) (B : BondStyle K) (hs : H.force.bond = some B)
    (hb : ∀ a, H.atom.num_bond a = 0) (hbt : ∀ im r, (H.atom.onemols im).num_bond r = 0)
    (fuel : Nat) (st : Acc K) : compute_bonds H (fuel + 1) 21 st = some st := by
  simp only [compute_bonds, hs, whileM_once]
  apply forRange_skip
  intro a _ s
  simp only [bonds_atom, hb, hbt]
  split_ifs <;> rfl

theorem compute_angles_no_records (H : Host K) (A : AngleStyle K) (hs : H.force.angle = some A)
    (hb : ∀ a, H.atom.num_angle a = 0) (hbt : ∀ im r, (H.atom.onemols im).num_angle r = 0)
    (fuel : Nat) (st : Acc K) : compute_angles H (fuel + 1) 21 st = some st := by
  simp only [compute_angles, hs, whileM_once]
  apply forRange_skip
  intro a _ s
  simp only [angles_atom, hb, hbt]
  split_ifs <;> rfl

theorem compute_dihedrals_no_records (H : Host K) (D : DihedralStyle K)
    (hs : H.force.dihedral = some D)
    (hb : ∀ a, H.atom.num_dihedral a = 0)
    (hbt : ∀ im r, (H.atom.onemols im).num_dihedral r = 0)
    (fuel : Nat) (st : Acc K) : compute_dihedrals H (fuel + 1) 21 st = some st := by
  simp only [compute_dihedrals, hs, whileM_once]
  apply forRange_skip
  intro a _ s
  simp only [dihedrals_atom, hb, hbt]
  split_ifs <;> rfl

/-- C11.  A system without bond, angle and dihedral records (per atom and in
the molecule templates), a compute object with 21 values whose pair flag is
off and whose other flags are set only for styles that exist: with fuel for
one pass of each record loop, `compute_vector` returns, makes no `born` call,
and leaves `0` in each of the 21 entries of the local accumulator and of the
exposed vector. -/
theorem no_records_zero_vector (H : Host K) (fuel : Nat) (C : Born K)
    (hn : C.nvalues = 21) (hp : C.pairflag = 0)
    (hsb : C.bondflag ≠ 0 → H.force.bond ≠ none)
    (hsa : C.angleflag ≠ 0 → H.force.angle ≠ none)
    (hsd : C.dihedflag ≠ 0 → H.force.dihedral ≠ none)
    (hb : ∀ a, H.atom.num_bond a = 0) (hbt : ∀ im r, (H.atom.onemols im).num_bond r = 0)
    (ha : ∀ a, H.atom.num_angle a = 0) (hat : ∀ im r, (H.atom.onemols im).num_angle r = 0)
    (hd : ∀ a, H.atom.num_dihedral a = 0)
    (hdt : ∀ im r, (H.atom.onemols im).num_dihedral r = 0) :
    ∃ c, compute_vector H (fuel + 1) C = some c ∧ c.calls = [] ∧
      ∀ k, k < 21 → c.values_local k = 0 ∧ c.vector k = 0 := by
  have e : run_engines H (fuel + 1) C
      { values_local := zero_local C.nvalues C.values_local, calls := [] } =
      some { values_local := zero_local C.nvalues C.values_local, calls := [] } := by
    have e2 : ∀ s, (if C.bondflag ≠ 0 then compute_bonds H (fuel + 1) 21 s else some s) = some s := by
      intro s
      by_cases hf : C.bondflag ≠ 0
      · cases hB : H.force.bond with
        | none => exact absurd hB (hsb hf)
        | some B => rw [if_pos hf, compute_bonds_no_records H B hB hb hbt]
      · rw [if_neg hf]
    have e3 : ∀ s, (if C.angleflag ≠ 0 then compute_angles H (fuel + 1) 21 s else some s) = some s := by
      intro s
      by_cases hf : C.angleflag ≠ 0
      · cases hA : H.force.angle with
        | none => exact absurd hA (hsa hf)
        | some A => rw [if_pos hf, compute_angles_no_records H A hA ha hat]
      · rw [if_neg hf]
    have e4 : ∀ s, (if C.dihedflag ≠ 0 then compute_dihedrals H (fuel + 1) 21 s else some s) = some s := by
      intro s
      by_cases hf : C.dihedflag ≠ 0
      · cases hD : H.force.dihedral with
        | none => exact absurd hD (hsd hf)
        | some D => rw [if_pos hf, compute_dihedrals_no_records H D hD hd hdt]
      · rw [if_neg hf]
    simp only [run_engines, hn, hp, ne_eq, not_true_eq_false, if_false, Option.some_bind]
    simp only [ne_eq] at e2 e3 e4
    simp only [e2, e3, e4, Option.some_bind]
  refine ⟨reduce_publish [zero_local C.nvalues C.values_local]
    { C with
      invoked_array := H.ntimestep
      values_local := zero_local C.nvalues C.values_local
      calls := [] }, ?_, rfl, ?_⟩
  · rw [compute_vector, compute_local_run_engines, e]
    rfl
  · intro k hk
    have hk2 : k < C.nvalues := by rw [hn]; exact hk
    have hz : zero_local C.nvalues C.values_local k = 0 := by
      rw [zero_local_apply, if_pos hk2]
    refine ⟨hz, ?_⟩
    simp only [reduce_publish, hk2, if_true, List.map_cons, List.map_nil, List.sum_cons,
      List.sum_nil, add_zero, hz]

/-- C11, on three atoms without bonded records, with bond, angle and dihedral
styles present and their flags set, and the pair flag off. -/
theorem no_records_zero_vector_witness :
    (readyBorn 0 1 1 1).nvalues = 21 ∧ (readyBorn 0 1 1 1).pairflag = 0 ∧
    (∀ a, stylesOnlyHost.atom.num_bond a = 0) ∧
    ∃ c, compute_vector stylesOnlyHost (0 + 1) (readyBorn 0 1 1 1) = some c ∧ c.calls = [] ∧
      ∀ k, k < 21 → c.values_local k = 0 ∧ c.vector k = 0 :=
  ⟨rfl, rfl, fun _ => rfl,
    no_records_zero_vector stylesOnlyHost 0 (readyBorn 0 1 1 1) rfl rfl
      (fun _ h => by cases h) (fun _ h => by cases h) (fun _ h => by cases h)
      (fun _ => rfl) (fun _ _ => rfl) (fun _ => rfl) (fun _ _ => rfl) (fun _ => rfl)
      (fun _ _ => rfl)⟩

theorem unitPair_vector_all (r0 : ℚ) :
    (compute_vector (unitPairHost 4 r0) 0 (readyBorn 1 0 0 0)).map
      (fun c => (List.range 21).map c.vector) =
      some [5 - 2 * r0, 0, 0, 0, 0, 0, 0, 0, 0, 0, 0, 0, 0, 0, 0, 0, 0, 0, 0, 0, 0] := by
  simp [compute_vector, compute_local, readyBorn, compute_pairs, unitPairHost, plainHost,
    plainAtom, plainForce, pairList, constPair, whileM_once, reduce_publish, pairs_ii, linePos,
    pair_rsq, List.range_succ, pairs_jj, add21_apply, zero_local_apply, pair_term,
    albemunu_spec]
  norm_num

theorem twoAngle_body0 (st : Acc ℚ) :
    angles_body twoAngleHost (constAngle (0, 1)) 0 1 0 0 0 st =
      (21, { values_local :=
               add21 0 (angle_term albe_spec albemunu_spec exactSqrt
                 (vec3 ((0 : ℚ), (1 : ℚ), (0 : ℚ))) (vec3 ((0 : ℚ), (3 / 5 : ℚ), (4 / 5 : ℚ))) 0 1)
                 st.values_local,
             calls := st.calls ++ [BornCall.angle 1 0 1 2] }) := by
  have h2 : Int.toNat 2 = 2 := rfl
  simp only [angles_body, angles_atype, angles_atom1, angles_atom3, angles_stored2, twoAngleHost,
    twoAngleAtom, plainHost, plainAtom, plainForce, min_image_del, anglePos4, anglePos,
    constAngle]
  norm_num [h2]

theorem twoAngle_body1 (st : Acc ℚ) :
    angles_body twoAngleHost (constAngle (0, 1)) 0 1 0 0 1 st =
      (21, { values_local :=
               add21 0 (angle_term albe_spec albemunu_spec exactSqrt
                 (vec3 ((0 : ℚ), (1 : ℚ), (0 : ℚ))) (vec3 ((0 : ℚ), (4 / 5 : ℚ), (3 / 5 : ℚ))) 0 1)
                 st.values_local,
             calls := st.calls ++ [BornCall.angle 1 0 1 3] }) := by
  have h3 : Int.toNat 3 = 3 := rfl
  simp only [angles_body, angles_atype, angles_atom1, angles_atom3, angles_stored2, twoAngleHost,
    twoAngleAtom, plainHost, plainAtom, plainForce, min_image_del, anglePos4, anglePos,
    constAngle]
  norm_num [h3]

theorem twoAngle_atom_centre (n : Nat) (st : Acc ℚ) :
    angles_atom twoAngleHost (constAngle (0, 1)) 0 (n + 2) 1 st =
      some (angles_body twoAngleHost (constAngle (0, 1)) 0 1 0 0 0 st).2 := by
  have e : angles_atom twoAngleHost (constAngle (0, 1)) 0 (n + 2) 1 st
      = angles_loop twoAngleHost (constAngle (0, 1)) 0 1 2 0 0 (n + 2) 0 st := by
    simp [angles_atom, twoAngleHost, twoAngleAtom, plainHost, plainAtom]
  have h21 : (angles_body twoAngleHost (constAngle (0, 1)) 0 1 0 0 0 st).1 = 21 := by
    rw [twoAngle_body0]
  rw [e, angles_loop_step _ _ _ _ _ _ _ _ _ _ (by norm_num), h21,
    angles_loop_done _ _ _ _ _ _ _ _ _ _ (by norm_num)]

theorem twoAngle_atom_flank (n atom2 : Nat) (h : atom2 ≠ 1) (st : Acc ℚ) :
    angles_atom twoAngleHost (constAngle (0, 1)) 0 (n + 2) atom2 st = some st := by
  have e : angles_atom twoAngleHost (constAngle (0, 1)) 0 (n + 2) atom2 st
      = angles_loop twoAngleHost (constAngle (0, 1)) 0 atom2 0 0 0 (n + 2) 0 st := by
    simp [angles_atom, twoAngleHost, twoAngleAtom, plainHost, plainAtom, h]
  rw [e, angles_loop_done _ _ _ _ _ _ _ _ _ _ (by norm_num)]

theorem twoAngle_vector1 (n : Nat) :
    (compute_vector twoAngleHost (n + 2) (readyBorn 0 0 1 0)).map
        (fun c => (c.vector 1, c.calls)) =
      some ((324 / 15625 : ℚ), [BornCall.angle 1 0 1 2]) := by
  have hb : twoAngleHost.force.angle = some (constAngle (0, 1)) := rfl
  have hn : twoAngleHost.atom.nlocal = 4 := rfl
  simp only [compute_vector, compute_local, readyBorn, compute_angles, hb, hn, whileM_once,
    forRange_succ, forRange_zero]
  simp only [Option.some_bind, twoAngle_atom_flank n 0 (by norm_num), twoAngle_atom_centre,
    twoAngle_atom_flank n 2 (by norm_num), twoAngle_atom_flank n 3 (by norm_num)]
  simp [twoAngle_body0, reduce_publish, add21_zero, zero_local_apply, angle_term, angle_d2cos,
    angle_dcos, angle_cost, dot3, albe_spec, albemunu_spec, vec3, exactSqrt]
  norm_num

/-- C15 (evaluation at the failing input).  Atom 1 is the centre of two angle
records that pass every skip rule; run on its own, the first adds `324/15625`
to entry 1 and the second `256/15625`.  For every fuel that lets the loop
return, `compute_vector` exposes `324/15625` in entry 1 and has called `born`
for the first record only. -/
theorem angles_second_record_dropped :
    (∀ n : Nat,
      (compute_vector twoAngleHost (n + 2) (readyBorn 0 0 1 0)).map
        (fun c => (c.vector 1, c.calls)) =
        some ((324 / 15625 : ℚ), [BornCall.angle 1 0 1 2])) ∧
    (∀ st : Acc ℚ,
      (angles_body twoAngleHost (constAngle (0, 1)) 0 1 0 0 0 st).2.values_local 1 =
        st.values_local 1 + 324 / 15625 ∧
      (angles_body twoAngleHost (constAngle (0, 1)) 0 1 0 0 1 st).2.values_local 1 =
        st.values_local 1 + 256 / 15625 ∧
      (angles_body twoAngleHost (constAngle (0, 1)) 0 1 0 0 1 st).2.calls =
        st.calls ++ [BornCall.angle 1 0 1 3]) := by
  refine ⟨twoAngle_vector1, fun st => ⟨?_, ?_, ?_⟩⟩
  · rw [twoAngle_body0]
    simp [add21_zero, angle_term, angle_d2cos, angle_dcos, angle_cost, dot3, albe_spec,
      albemunu_spec, vec3, exactSqrt]
    norm_num
  · rw [twoAngle_body1]
    simp [add21_zero, angle_term, angle_d2cos, angle_dcos, angle_cost, dot3, albe_spec,
      albemunu_spec, vec3, exactSqrt]
    norm_num
  · rw [twoAngle_body1]

theorem twoNeighbor_calls :
    (compute_vector twoNeighborHost 0 (readyBorn 1 0 0 0)).map (fun c => c.calls) =
      some [BornCall.pair 0 1 1 1 1 1 1, BornCall.pair 21 2 1 1 4 1 1] := by
  simp [compute_vector, compute_local, readyBorn, compute_pairs, twoNeighborHost, plainHost,
    plainAtom, plainForce, constPair, whileM_once, reduce_publish, pairs_ii, linePos,
    pair_rsq, List.range_succ, pairs_jj]
  norm_num

/-- C16 (evaluation at the failing input).  Atom 0 has the two neighbors 1 and
2, both accepted.  `born` is called with `i = 0` for the first and with
`i = 21` for the second: the tensor loop has left `21` in `i`. -/
theorem pairs_second_neighbor_index :
    (compute_vector twoNeighborHost 0 (readyBorn 1 0 0 0)).map (fun c => c.calls) =
      some [BornCall.pair 0 1 1 1 1 1 1, BornCall.pair 21 2 1 1 4 1 1] ∧
    (∀ (H : Host ℚ) (P : PairStyle ℚ) (m : Nat) (xi : Nat → ℚ) (itype jraw i : Nat)
        (st : Acc ℚ),
      (pairs_jj H P m xi itype jraw (i, st)).1 = i ∨
        (pairs_jj H P m xi itype jraw (i, st)).1 = 21) := by
  refine ⟨twoNeighbor_calls, ?_⟩
  intro H P m xi itype jraw i st
  simp only [pairs_jj]
  split_ifs
  · exact Or.inl rfl
  · exact Or.inl rfl
  · exact Or.inr rfl
  · exact Or.inl rfl

/-- C17 (evaluation at the failing input).  Atom 1 stores one dihedral record
of type 5 over four in-group atoms.  `born` is called with first argument `1`,
the number of records of the atom, not `5`; and whatever the host, the call
that the loop body logs carries the record count `nd` it was given. -/
theorem dihedrals_born_gets_count :
    (∀ n : Nat,
      (compute_vector (dihedralHost 5) (n + 2) (readyBorn 0 0 0 1)).map (fun c => c.calls) =
        some [BornCall.dihedral 1 0 1 2 3]) ∧
    (dihedralHost 5).atom.dihedral_type 1 0 = 5 ∧
    (dihedralHost 5).atom.num_dihedral 1 = 1 ∧
    (∀ (H : Host ℚ) (D : DihedralStyle ℚ) (m atom2 nd : Nat) (imol iatom : Int) (i : Nat)
        (st : Acc ℚ),
      (dihedrals_body H D m atom2 nd imol iatom i st).2.calls = st.calls ∨
        (dihedrals_body H D m atom2 nd imol iatom i st).2.calls =
          st.calls ++ [BornCall.dihedral nd
            (dihedrals_atom1 H atom2 imol iatom i).toNat atom2
            (dihedrals_atom3 H atom2 imol iatom i).toNat
            (dihedrals_atom4 H atom2 imol iatom i).toNat]) := by
  refine ⟨?_, rfl, rfl, ?_⟩
  · intro n
    have h := dihedral_vector0 5 n
    cases hc : compute_vector (dihedralHost 5) (n + 2) (readyBorn 0 0 0 1) with
    | none => rw [hc] at h; simp at h
    | some c =>
      rw [hc] at h
      simp only [Option.map_some', Option.some.injEq, Prod.mk.injEq] at h
      simp [h.2]
  · intro H D m atom2 nd imol iatom i st
    simp only [dihedrals_body]
    split_ifs
    · exact Or.inl rfl
    · exact Or.inl rfl
    · exact Or.inl rfl
    · exact Or.inl rfl
    · exact Or.inr rfl

/-- C18 (evaluation at the failing input).  Flank vectors `del1 = (0,1,0)` and
`del2 = (0,3/5,4/5)`: both of length 1, dot product and cosine `3/5`.  For
the strain component `yz` the loop of lines 556-561 gives `dcos[3] = 24/125`
where the strain derivative of the cosine is `64/125`; for `yy` it gives
`dcos[1] = 18/125` where the derivative is `48/125`.  The angle with these
flanks then adds `dcos[1]*dcos[3] = 432/15625` to entry 12. -/
theorem angles_dcos_differs :
    angle_dcos albe_spec exactSqrt (vec3 ((0 : ℚ), (1 : ℚ), (0 : ℚ)))
        (vec3 ((0 : ℚ), (3 / 5 : ℚ), (4 / 5 : ℚ))) 3 = 24 / 125 ∧
    angle_dcos_spec exactSqrt (vec3 ((0 : ℚ), (1 : ℚ), (0 : ℚ)))
        (vec3 ((0 : ℚ), (3 / 5 : ℚ), (4 / 5 : ℚ))) (albe_spec 3 0) (albe_spec 3 1) = 64 / 125 ∧
    angle_dcos albe_spec exactSqrt (vec3 ((0 : ℚ), (1 : ℚ), (0 : ℚ)))
        (vec3 ((0 : ℚ), (3 / 5 : ℚ), (4 / 5 : ℚ))) 1 = 18 / 125 ∧
    angle_dcos_spec exactSqrt (vec3 ((0 : ℚ), (1 : ℚ), (0 : ℚ)))
        (vec3 ((0 : ℚ), (3 / 5 : ℚ), (4 / 5 : ℚ))) (albe_spec 1 0) (albe_spec 1 1) = 48 / 125 ∧
    angle_cost exactSqrt (vec3 ((0 : ℚ), (1 : ℚ), (0 : ℚ)))
        (vec3 ((0 : ℚ), (3 / 5 : ℚ), (4 / 5 : ℚ))) = 3 / 5 ∧
    (∀ n : Nat,
      (compute_vector (angleHost false) (n + 2) (readyBorn 0 0 1 0)).map
        (fun c => c.vector 12) = some (432 / 15625 : ℚ)) := by
  refine ⟨?_, ?_, ?_, ?_, ?_, ?_⟩
  · simp [angle_dcos, angle_cost, dot3, albe_spec, vec3, exactSqrt]
    norm_num
  · simp [angle_dcos_spec, dot3, albe_spec, vec3, exactSqrt]
    norm_num
  · simp [angle_dcos, angle_cost, dot3, albe_spec, vec3, exactSqrt]
    norm_num
  · simp [angle_dcos_spec, dot3, albe_spec, vec3, exactSqrt]
    norm_num
  · simp [angle_cost, dot3, vec3, exactSqrt]
    norm_num
  · intro n
    have h := angle_vector12 false n
    cases hc : compute_vector (angleHost false) (n + 2) (readyBorn 0 0 1 0) with
    | none => rw [hc] at h; simp at h
    | some c =>
      rw [hc] at h
      simp only [Option.map_some', Option.some.injEq, Bool.false_eq_true, if_false,
        Prod.mk.injEq] at h
      simp [h.1]

theorem angle_vector3 (n : Nat) :
    (compute_vector (angleHost false) (n + 2) (readyBorn 0 0 1 0)).map (fun c => c.vector 3) =
      some (-864 / 15625 : ℚ) := by
  have hb : (angleHost false).force.angle = some (constAngle (0, 1)) := rfl
  have hn : (angleHost false).atom.nlocal = 3 := rfl
  simp only [compute_vector, compute_local, readyBorn, compute_angles, hb, hn, whileM_once,
    forRange_succ, forRange_zero]
  simp only [Option.some_bind, angle_atom_flank false n 0 (by norm_num), angle_atom_centre,
    angle_atom_flank false n 2 (by norm_num)]
  simp [angle_body_plain, reduce_publish, add21_zero, zero_local_apply, angle_term, angle_d2cos,
    angle_dcos, angle_cost, dot3, albe_spec, albemunu_spec, vec3, exactSqrt]
  norm_num

/-- C19 (evaluation at the failing input).  Rows 0..5 of `albe` are the axis
pairs `xx, yy, zz, yz, xz, xy`, so for entry 3 (`C44`) the loop of lines
562-576 reads `(e, f) = (1, 2)`, not `(3, 3)`.  For the angle with flanks
`(0,1,0)` and `(0,3/5,4/5)` and `born` returning `(dU, d2U) = (0, 1)` it adds
`dcos[1]*dcos[2] = -864/15625` to entry 3, whatever rows 6..20 of the table
hold, where `dcos[3]*dcos[3]` is `576/15625`. -/
theorem angles_entry3_reads_axes :
    (albe_spec 3 0, albe_spec 3 1) = (1, 2) ∧
    (∀ n : Nat,
      (compute_vector (angleHost false) (n + 2) (readyBorn 0 0 1 0)).map
        (fun c => c.vector 3) = some (-864 / 15625 : ℚ)) ∧
    (∀ t : Nat → Nat → Nat,
      angle_term (fun k n => if k < 6 then albe_spec k n else t k n) albemunu_spec exactSqrt
        (vec3 ((0 : ℚ), (1 : ℚ), (0 : ℚ))) (vec3 ((0 : ℚ), (3 / 5 : ℚ), (4 / 5 : ℚ))) 0 1 3 =
        -864 / 15625) ∧
    angle_dcos albe_spec exactSqrt (vec3 ((0 : ℚ), (1 : ℚ), (0 : ℚ)))
        (vec3 ((0 : ℚ), (3 / 5 : ℚ), (4 / 5 : ℚ))) 3 *
      angle_dcos albe_spec exactSqrt (vec3 ((0 : ℚ), (1 : ℚ), (0 : ℚ)))
        (vec3 ((0 : ℚ), (3 / 5 : ℚ), (4 / 5 : ℚ))) 3 = 576 / 15625 := by
  refine ⟨rfl, angle_vector3, ?_, ?_⟩
  · intro t
    simp [angle_term, angle_d2cos, angle_dcos, angle_cost, dot3, albe_spec, vec3, exactSqrt]
    norm_num
  · simp [angle_dcos, angle_cost, dot3, albe_spec, vec3, exactSqrt]
    norm_num

/-- C20 (evaluation at the failing input).  The first derivatives `dmm`, `dnn`
and `dmn` of lines 769-772 are the product-rule derivatives of
`(b1.b1)(b2.b2) - (b1.b2)^2`, `(b2.b2)(b3.b3) - (b2.b3)^2` and
`(b1.b2)(b2.b3) - (b1.b3)(b2.b2)`.  The arrays `d2mm` and `d2nn` of lines
782-785 are the second derivatives of the first two minus
`6 * D_ab(u.v) * D_cd(u.v)` (the factor is `8` where the product rule gives
`2`), and `d2mn` of lines 786-789 is the second derivative of the third plus
`D_ab(b2.b3) * b1[d] * (b2[d] - b2[c])` (line 787 has `b2[d]` twice).  For
`b1 = (1,0,0)`, `b2 = (0,1,0)` and entry 5 (`xy, xy`) `d2mm` is `-8` where the
second derivative is `-2`; for `b1 = (1,2,3)`, `b2 = (1,0,2)`, `b3 = (2,1,1)`
and entry 5 `d2mn` is `2` where the second derivative is `4`. -/
theorem dihedral_second_derivatives_differ :
    (∀ (albe : Nat → Nat → Nat) (b1 b2 b3 : Nat → ℚ) (i : Nat),
      dih_dmm albe b1 b2 i = (if i < 6 then cross_sq_d b1 b2 (albe i 0) (albe i 1) else 0) ∧
      dih_dnn albe b2 b3 i = (if i < 6 then cross_sq_d b2 b3 (albe i 0) (albe i 1) else 0) ∧
      dih_dmn albe b1 b2 b3 i =
        (if i < 6 then cross_mix_d b1 b2 b3 (albe i 0) (albe i 1) else 0)) ∧
    (∀ (t : Nat → Nat → Nat) (b1 b2 b3 : Nat → ℚ) (k : Nat),
      dih_d2mm t b1 b2 k =
        cross_sq_d2 b1 b2 (t k 0) (t k 1) (t k 2) (t k 3) -
          6 * strain_d b1 b2 (t k 0) (t k 1) * strain_d b1 b2 (t k 2) (t k 3) ∧
      dih_d2nn t b2 b3 k =
        cross_sq_d2 b2 b3 (t k 0) (t k 1) (t k 2) (t k 3) -
          6 * strain_d b2 b3 (t k 0) (t k 1) * strain_d b2 b3 (t k 2) (t k 3) ∧
      dih_d2mn t b1 b2 b3 k =
        cross_mix_d2 b1 b2 b3 (t k 0) (t k 1) (t k 2) (t k 3) +
          strain_d b2 b3 (t k 0) (t k 1) * b1 (t k 3) * (b2 (t k 3) - b2 (t k 2))) ∧
    (∀ (u v : Nat → ℚ) (a b c d : Nat),
      cross_sq_d2 u v a b c d =
        4 * (u a * u b * v c * v d + u c * u d * v a * v b) -
          2 * (u a * v b + u b * v a) * (u c * v d + u d * v c)) ∧
    dih_d2mm albemunu_spec (vec3 ((1 : ℚ), (0 : ℚ), (0 : ℚ))) (vec3 ((0 : ℚ), (1 : ℚ), (0 : ℚ)))
      5 = -8 ∧
    cross_sq_d2 (vec3 ((1 : ℚ), (0 : ℚ), (0 : ℚ))) (vec3 ((0 : ℚ), (1 : ℚ), (0 : ℚ)))
      (albemunu_spec 5 0) (albemunu_spec 5 1) (albemunu_spec 5 2) (albemunu_spec 5 3) = -2 ∧
    dih_d2mn albemunu_spec (vec3 ((1 : ℚ), (2 : ℚ), (3 : ℚ))) (vec3 ((1 : ℚ), (0 : ℚ), (2 : ℚ)))
      (vec3 ((2 : ℚ), (1 : ℚ), (1 : ℚ))) 5 = 2 ∧
    cross_mix_d2 (vec3 ((1 : ℚ), (2 : ℚ), (3 : ℚ))) (vec3 ((1 : ℚ), (0 : ℚ), (2 : ℚ)))
      (vec3 ((2 : ℚ), (1 : ℚ), (1 : ℚ)))
      (albemunu_spec 5 0) (albemunu_spec 5 1) (albemunu_spec 5 2) (albemunu_spec 5 3) = 4 := by
  refine ⟨?_, ?_, ?_, ?_, ?_, ?_, ?_⟩
  · intro albe b1 b2 b3 i
    by_cases h : i < 6
    · simp only [dih_dmm, dih_dnn, dih_dmn, cross_sq_d, cross_mix_d, strain_d, h, if_true]
      refine ⟨by ring, by ring, by ring⟩
    · simp [dih_dmm, dih_dnn, dih_dmn, h]
  · intro t b1 b2 b3 k
    simp only [dih_d2mm, dih_d2nn, dih_d2mn, cross_sq_d2, cross_mix_d2, strain_d]
    refine ⟨by ring, by ring, by ring⟩
  · intro u v a b c d
    simp only [cross_sq_d2, strain_d]
    ring
  · simp [dih_d2mm, albemunu_spec, vec3]
  · simp [cross_sq_d2, strain_d, albemunu_spec, vec3]
  · norm_num [dih_d2mn, albemunu_spec, vec3]
  · norm_num [cross_mix_d2, strain_d, albemunu_spec, vec3]

/-! ## Divisions of the angle engine -/

theorem dot3_self_pos (d : Nat → K) (h : d 0 ≠ 0 ∨ d 1 ≠ 0 ∨ d 2 ≠ 0) : 0 < dot3 d d := by
  unfold dot3
  rcases h with h | h | h
  · have := mul_self_pos.mpr h
    nlinarith [mul_self_nonneg (d 1), mul_self_nonneg (d 2)]
  · have := mul_self_pos.mpr h
    nlinarith [mul_self_nonneg (d 0), mul_self_nonneg (d 2)]
  · have := mul_self_pos.mpr h
    nlinarith [mul_self_nonneg (d 0), mul_self_nonneg (d 1)]

theorem angle_cost_ne_zero (sqrt : K → K) (del1 del2 : Nat → K)
    (h1 : sqrt (dot3 del1 del1) ≠ 0) (h2 : sqrt (dot3 del2 del2) ≠ 0)
    (h12 : dot3 del1 del2 ≠ 0) : angle_cost sqrt del1 del2 ≠ 0 := by
  have hc : dot3 del1 del2 / (sqrt (dot3 del1 del1) * sqrt (dot3 del2 del2)) ≠ 0 :=
    div_ne_zero h12 (mul_ne_zero h1 h2)
  simp only [angle_cost]
  split_ifs <;> first | exact hc | norm_num

/-- With a square root that is positive on positive numbers, two non-zero
flanks whose dot product is not zero give seven non-zero denominators. -/
theorem angle_denominators_ne_zero (sqrt : K → K) (del1 del2 : Nat → K)
    (hsqrt : ∀ x, 0 < x → 0 < sqrt x)
    (h1 : del1 0 ≠ 0 ∨ del1 1 ≠ 0 ∨ del1 2 ≠ 0)
    (h2 : del2 0 ≠ 0 ∨ del2 1 ≠ 0 ∨ del2 2 ≠ 0)
    (h12 : dot3 del1 del2 ≠ 0) :
    ∀ d ∈ angle_denominators sqrt del1 del2, d ≠ 0 := by
  have p1 := dot3_self_pos del1 h1
  have p2 := dot3_self_pos del2 h2
  have s1 := hsqrt _ p1
  have s2 := hsqrt _ p2
  intro d hd
  simp only [angle_denominators, List.mem_cons, List.mem_singleton, List.mem_nil_iff,
    or_false] at hd
  rcases hd with rfl | rfl | rfl | rfl | rfl | rfl | rfl
  · exact ne_of_gt p1
  · exact ne_of_gt s1
  · exact ne_of_gt p2
  · exact ne_of_gt s2
  · exact h12
  · exact mul_ne_zero (ne_of_gt s1) (ne_of_gt s2)
  · exact angle_cost_ne_zero sqrt del1 del2 (ne_of_gt s1) (ne_of_gt s2) h12

theorem rightAngle_body (st : Acc ℚ) :
    angles_body rightAngleHost (constAngle (0, 1)) 0 1 0 0 0 st =
      (21, { values_local :=
               add21 0 (angle_term albe_spec albemunu_spec exactSqrt
                 (vec3 ((1 : ℚ), (0 : ℚ), (0 : ℚ))) (vec3 ((0 : ℚ), (1 : ℚ), (0 : ℚ))) 0 1)
                 st.values_local,
             calls := st.calls ++ [BornCall.angle 1 0 1 2] }) := by
  have h2 : Int.toNat 2 = 2 := rfl
  simp only [angles_body, angles_atype, angles_atom1, angles_atom3, angles_stored2,
    rightAngleHost, angleAtom, plainHost, plainAtom, plainForce, min_image_del, dihedralPos,
    constAngle]
  norm_num [h2]

theorem rightAngle_atom_centre (n : Nat) (st : Acc ℚ) :
    angles_atom rightAngleHost (constAngle (0, 1)) 0 (n + 2) 1 st =
      some (angles_body rightAngleHost (constAngle (0, 1)) 0 1 0 0 0 st).2 := by
  have e : angles_atom rightAngleHost (constAngle (0, 1)) 0 (n + 2) 1 st
      = angles_loop rightAngleHost (constAngle (0, 1)) 0 1 1 0 0 (n + 2) 0 st := by
    simp [angles_atom, rightAngleHost, angleAtom, plainHost, plainAtom]
  have h21 : (angles_body rightAngleHost (constAngle (0, 1)) 0 1 0 0 0 st).1 = 21 := by
    rw [rightAngle_body]
  rw [e, angles_loop_step _ _ _ _ _ _ _ _ _ _ (by norm_num), h21,
    angles_loop_done _ _ _ _ _ _ _ _ _ _ (by norm_num)]

theorem rightAngle_atom_flank (n atom2 : Nat) (h : atom2 ≠ 1) (st : Acc ℚ) :
    angles_atom rightAngleHost (constAngle (0, 1)) 0 (n + 2) atom2 st = some st := by
  have e : angles_atom rightAngleHost (constAngle (0, 1)) 0 (n + 2) atom2 st
      = angles_loop rightAngleHost (constAngle (0, 1)) 0 atom2 0 0 0 (n + 2) 0 st := by
    simp [angles_atom, rightAngleHost, angleAtom, plainHost, plainAtom, h]
  rw [e, angles_loop_done _ _ _ _ _ _ _ _ _ _ (by norm_num)]

theorem rightAngle_calls (n : Nat) :
    (compute_vector rightAngleHost (n + 2) (readyBorn 0 0 1 0)).map (fun c => c.calls) =
      some [BornCall.angle 1 0 1 2] := by
  have hb : rightAngleHost.force.angle = some (constAngle (0, 1)) := rfl
  have hn : rightAngleHost.atom.nlocal = 3 := rfl
  simp only [compute_vector, compute_local, readyBorn, compute_angles, hb, hn, whileM_once,
    forRange_succ, forRange_zero]
  simp only [Option.some_bind, rightAngle_atom_flank n 0 (by norm_num), rightAngle_atom_centre,
    rightAngle_atom_flank n 2 (by norm_num)]
  simp [rightAngle_body, reduce_publish]

theorem rightAngle_flanks :
    (List.range 3).map (min_image_del rightAngleHost 1 0) = [1, 0, 0] ∧
    (List.range 3).map (min_image_del rightAngleHost 1 2) = [0, 1, 0] := by
  constructor <;>
  simp [List.range_succ, min_image_del, rightAngleHost, angleAtom, plainHost, plainAtom,
    dihedralPos, vec3]

theorem rightAngle_denominators :
    angle_denominators rightAngleHost.sqrt (min_image_del rightAngleHost 1 0)
        (min_image_del rightAngleHost 1 2) = [1, 1, 1, 1, 0, 1, 0] := by
  simp [angle_denominators, angle_cost, dot3, min_image_del, rightAngleHost, angleAtom,
    plainHost, plainAtom, dihedralPos, vec3, exactSqrt]
  norm_num

/-- C21 (evaluation at the failing input).  Atom 1 is the centre of one angle
whose flanks are the unit vectors `(1,0,0)` and `(0,1,0)`: both are non-zero
and they are perpendicular.  `compute_vector` accepts the record (it calls
`born` for it), and of the seven denominators of the angle engine the fifth,
`r1r2` of `r1r2inv = 1/r1r2`, and the seventh, `cost` of `cinv = 1.0/cost`,
are `0`.  The claim holds for the denominators `rsq1`, `r1`, `rsq2`, `r2` and
`r1*r2` only. -/
theorem angles_perpendicular_flanks_zero_denominator :
    ∀ n : Nat,
      (List.range 3).map (min_image_del rightAngleHost 1 0) = [1, 0, 0] ∧
      (List.range 3).map (min_image_del rightAngleHost 1 2) = [0, 1, 0] ∧
      (compute_vector rightAngleHost (n + 2) (readyBorn 0 0 1 0)).map (fun c => c.calls) =
        some [BornCall.angle 1 0 1 2] ∧
      angle_denominators rightAngleHost.sqrt (min_image_del rightAngleHost 1 0)
        (min_image_del rightAngleHost 1 2) = [1, 1, 1, 1, 0, 1, 0] :=
  fun n => ⟨rightAngle_flanks.1, rightAngle_flanks.2, rightAngle_calls n,
    rightAngle_denominators⟩

/-! ## Template rows -/

theorem chain_angles_atom (s n a : Nat) (st : Acc ℚ) :
    angles_atom (chainHost s) (constAngle (0, 1)) 0 (n + 2) a st =
      angles_loop (chainHost s) (constAngle (0, 1)) 0 a
        (chainMolecule.num_angle (((a + s) % 4 : Nat) : Int)) 0 (((a + s) % 4 : Nat) : Int)
        (n + 2) 0 st := by
  simp [angles_atom, chainHost, chainAtom, plainHost, plainAtom]

theorem chain_dihedrals_atom (s n a : Nat) (st : Acc ℚ) :
    dihedrals_atom (chainHost s) (constDihedral (0, 1)) 0 (n + 2) a st =
      dihedrals_loop (chainHost s) (constDihedral (0, 1)) 0 a
        (chainMolecule.num_dihedral (((a + s) % 4 : Nat) : Int)) 0 (((a + s) % 4 : Nat) : Int)
        (n + 2) 0 st := by
  simp [dihedrals_atom, chainHost, chainAtom, plainHost, plainAtom]

theorem chain_bonds_atom (s n a : Nat) (st : Acc ℚ) :
    bonds_atom (chainHost s) (constBond (2, 5)) 0 (n + 2) a st =
      bonds_loop (chainHost s) (constBond (2, 5)) 0 a
        (chainMolecule.num_bond (((a + s) % 4 : Nat) : Int)) 0 (((a + s) % 4 : Nat) : Int)
        (n + 2) 0 st := by
  simp [bonds_atom, chainHost, chainAtom, plainHost, plainAtom]

theorem chain_angle_body_aligned (st : Acc ℚ) :
    angles_body (chainHost 0) (constAngle (0, 1)) 0 1 0 1 0 st =
      (21, { values_local :=
               add21 0 (angle_term albe_spec albemunu_spec exactSqrt
                 (vec3 ((0 : ℚ), (1 : ℚ), (0 : ℚ))) (vec3 ((0 : ℚ), (3 / 5 : ℚ), (4 / 5 : ℚ))) 0 1)
                 st.values_local,
             calls := st.calls ++ [BornCall.angle 1 0 1 2] }) := by
  have h2 : Int.toNat 2 = 2 := rfl
  simp only [angles_body, angles_atype, angles_atom1, angles_atom3, angles_stored2, chainHost,
    chainAtom, chainMolecule, plainHost, plainAtom, plainForce, min_image_del, anglePos4,
    anglePos, constAngle]
  norm_num [h2]

theorem chain_angle_body_shifted (st : Acc ℚ) :
    angles_body (chainHost 1) (constAngle (0, 1)) 0 0 0 1 0 st = (0, st) := by
  simp only [angles_body, angles_atype, angles_atom1, angles_atom3, angles_stored2, chainHost,
    chainAtom, chainMolecule, plainHost, plainAtom, plainForce, min_image_del, anglePos4,
    anglePos, constAngle]
  norm_num

theorem chain_dihedral_body_aligned (st : Acc ℚ) :
    (dihedrals_body (chainHost 0) (constDihedral (0, 1)) 0 1 1 0 1 0 st).1 = 21 ∧
    (dihedrals_body (chainHost 0) (constDihedral (0, 1)) 0 1 1 0 1 0 st).2.calls =
      st.calls ++ [BornCall.dihedral 1 0 1 2 3] := by
  have h2 : Int.toNat 2 = 2 := rfl
  have h3 : Int.toNat 3 = 3 := rfl
  simp only [dihedrals_body, dihedrals_atom1, dihedrals_atom3, dihedrals_atom4,
    dihedrals_stored2, chainHost, chainAtom, chainMolecule, plainHost, plainAtom, plainForce,
    constDihedral]
  norm_num [h2, h3]

theorem chain_dihedral_body_shifted (st : Acc ℚ) :
    dihedrals_body (chainHost 1) (constDihedral (0, 1)) 0 0 1 0 1 0 st = (0, st) := by
  simp only [dihedrals_body, dihedrals_atom1, dihedrals_atom3, dihedrals_atom4,
    dihedrals_stored2, chainHost, chainAtom, chainMolecule, plainHost, plainAtom, plainForce,
    constDihedral]
  norm_num

theorem chain_bond_body_shifted (st : Acc ℚ) :
    (bonds_body (chainHost 1) (constBond (2, 5)) 0 0 0 1 0 st).1 = 21 ∧
    (bonds_body (chainHost 1) (constBond (2, 5)) 0 0 0 1 0 st).2.calls =
      st.calls ++ [BornCall.bond 1 1 0 1] := by
  simp only [bonds_body, bonds_btype, bonds_atom2, chainHost, chainAtom, chainMolecule,
    plainHost, plainAtom, plainForce, min_image_del, anglePos4, anglePos, constBond]
  norm_num [vec3_zero, vec3_one, vec3_two]

theorem chain_angle_aligned (n : Nat) :
    (compute_vector (chainHost 0) (n + 2) (readyBorn 0 0 1 0)).map
        (fun c => (c.vector 12, c.calls)) =
      some ((432 / 15625 : ℚ), [BornCall.angle 1 0 1 2]) := by
  have hb : (chainHost 0).force.angle = some (constAngle (0, 1)) := rfl
  have hn : (chainHost 0).atom.nlocal = 4 := rfl
  simp only [compute_vector, compute_local, readyBorn, compute_angles, hb, hn, whileM_once,
    forRange_succ, forRange_zero, chain_angles_atom]
  have e0 : chainMolecule.num_angle (((0 + 0) % 4 : Nat) : Int) = 0 := rfl
  have e1 : chainMolecule.num_angle (((0 + 1 + 0) % 4 : Nat) : Int) = 1 := rfl
  have e2 : chainMolecule.num_angle (((0 + 1 + 1 + 0) % 4 : Nat) : Int) = 0 := rfl
  have e3 : chainMolecule.num_angle (((0 + 1 + 1 + 1 + 0) % 4 : Nat) : Int) = 0 := rfl
  have c1 : (((0 + 1 + 0) % 4 : Nat) : Int) = 1 := rfl
  rw [e0, e1, e2, e3, c1]
  simp only [Option.some_bind, angles_loop_done _ _ _ _ 0 _ _ _ _ _ (Nat.zero_le _),
    angles_loop_step _ _ _ _ 1 _ _ _ _ _ (by norm_num : 0 < 1), chain_angle_body_aligned,
    angles_loop_done _ _ _ _ 1 _ _ _ (21 + 1) _ (by norm_num)]
  simp [reduce_publish, add21_zero, zero_local_apply, angle_term, angle_d2cos, angle_dcos,
    angle_cost, dot3, albe_spec, albemunu_spec, vec3, exactSqrt]
  norm_num

theorem chain_angle_shifted (n : Nat) :
    (compute_vector (chainHost 1) (n + 2) (readyBorn 0 0 1 0)).map
        (fun c => (c.vector 12, c.calls)) = some ((0 : ℚ), []) := by
  have hb : (chainHost 1).force.angle = some (constAngle (0, 1)) := rfl
  have hn : (chainHost 1).atom.nlocal = 4 := rfl
  simp only [compute_vector, compute_local, readyBorn, compute_angles, hb, hn, whileM_once,
    forRange_succ, forRange_zero, chain_angles_atom]
  have e0 : chainMolecule.num_angle (((0 + 1) % 4 : Nat) : Int) = 1 := rfl
  have e1 : chainMolecule.num_angle (((0 + 1 + 1) % 4 : Nat) : Int) = 0 := rfl
  have e2 : chainMolecule.num_angle (((0 + 1 + 1 + 1) % 4 : Nat) : Int) = 0 := rfl
  have e3 : chainMolecule.num_angle (((0 + 1 + 1 + 1 + 1) % 4 : Nat) : Int) = 0 := rfl
  have c1 : (((0 + 1) % 4 : Nat) : Int) = 1 := rfl
  rw [e0, e1, e2, e3, c1]
  simp only [Option.some_bind, angles_loop_done _ _ _ _ 0 _ _ _ _ _ (Nat.zero_le _),
    angles_loop_step _ _ _ _ 1 _ _ _ _ _ (by norm_num : 0 < 1), chain_angle_body_shifted,
    angles_loop_done _ _ _ _ 1 _ _ _ (0 + 1) _ (by norm_num)]
  simp [reduce_publish, zero_local_apply]

theorem chain_dihedral_aligned (n : Nat) :
    (compute_vector (chainHost 0) (n + 2) (readyBorn 0 0 0 1)).map (fun c => c.calls) =
      some [BornCall.dihedral 1 0 1 2 3] := by
  have hb : (chainHost 0).force.dihedral = some (constDihedral (0, 1)) := rfl
  have hn : (chainHost 0).atom.nlocal = 4 := rfl
  simp only [compute_vector, compute_local, readyBorn, compute_dihedrals, hb, hn, whileM_once,
    forRange_succ, forRange_zero, chain_dihedrals_atom]
  have e0 : chainMolecule.num_dihedral (((0 + 0) % 4 : Nat) : Int) = 0 := rfl
  have e1 : chainMolecule.num_dihedral (((0 + 1 + 0) % 4 : Nat) : Int) = 1 := rfl
  have e2 : chainMolecule.num_dihedral (((0 + 1 + 1 + 0) % 4 : Nat) : Int) = 0 := rfl
  have e3 : chainMolecule.num_dihedral (((0 + 1 + 1 + 1 + 0) % 4 : Nat) : Int) = 0 := rfl
  have c1 : (((0 + 1 + 0) % 4 : Nat) : Int) = 1 := rfl
  rw [e0, e1, e2, e3, c1]
  simp only [Option.some_bind, dihedrals_loop_done _ _ _ _ 0 _ _ _ _ _ (Nat.zero_le _),
    dihedrals_loop_step _ _ _ _ 1 _ _ _ _ _ (by norm_num : 0 < 1),
    (chain_dihedral_body_aligned _).1,
    dihedrals_loop_done _ _ _ _ 1 _ _ _ (21 + 1) _ (by norm_num)]
  simp [reduce_publish, (chain_dihedral_body_aligned _).2]

theorem chain_dihedral_shifted (n : Nat) :
    (compute_vector (chainHost 1) (n + 2) (readyBorn 0 0 0 1)).map (fun c => c.calls) =
      some [] := by
  have hb : (chainHost 1).force.dihedral = some (constDihedral (0, 1)) := rfl
  have hn : (chainHost 1).atom.nlocal = 4 := rfl
  simp only [compute_vector, compute_local, readyBorn, compute_dihedrals, hb, hn, whileM_once,
    forRange_succ, forRange_zero, chain_dihedrals_atom]
  have e0 : chainMolecule.num_dihedral (((0 + 1) % 4 : Nat) : Int) = 1 := rfl
  have e1 : chainMolecule.num_dihedral (((0 + 1 + 1) % 4 : Nat) : Int) = 0 := rfl
  have e2 : chainMolecule.num_dihedral (((0 + 1 + 1 + 1) % 4 : Nat) : Int) = 0 := rfl
  have e3 : chainMolecule.num_dihedral (((0 + 1 + 1 + 1 + 1) % 4 : Nat) : Int) = 0 := rfl
  have c1 : (((0 + 1) % 4 : Nat) : Int) = 1 := rfl
  rw [e0, e1, e2, e3, c1]
  simp only [Option.some_bind, dihedrals_loop_done _ _ _ _ 0 _ _ _ _ _ (Nat.zero_le _),
    dihedrals_loop_step _ _ _ _ 1 _ _ _ _ _ (by norm_num : 0 < 1), chain_dihedral_body_shifted,
    dihedrals_loop_done _ _ _ _ 1 _ _ _ (0 + 1) _ (by norm_num)]
  simp [reduce_publish]

theorem chain_bond_shifted (n : Nat) :
    (compute_vector (chainHost 1) (n + 2) (readyBorn 0 1 0 0)).map (fun c => c.calls) =
      some [BornCall.bond 1 1 0 1] := by
  have hb : (chainHost 1).force.bond = some (constBond (2, 5)) := rfl
  have hn : (chainHost 1).atom.nlocal = 4 := rfl
  simp only [compute_vector, compute_local, readyBorn, compute_bonds, hb, hn, whileM_once,
    forRange_succ, forRange_zero, chain_bonds_atom]
  have e0 : chainMolecule.num_bond (((0 + 1) % 4 : Nat) : Int) = 1 := rfl
  have e1 : chainMolecule.num_bond (((0 + 1 + 1) % 4 : Nat) : Int) = 0 := rfl
  have e2 : chainMolecule.num_bond (((0 + 1 + 1 + 1) % 4 : Nat) : Int) = 0 := rfl
  have e3 : chainMolecule.num_bond (((0 + 1 + 1 + 1 + 1) % 4 : Nat) : Int) = 0 := rfl
  have c1 : (((0 + 1) % 4 : Nat) : Int) = 1 := rfl
  rw [e0, e1, e2, e3, c1]
  simp only [Option.some_bind, bonds_loop_done _ _ _ _ 0 _ _ _ _ _ (Nat.zero_le _),
    bonds_loop_step _ _ _ _ 1 _ _ _ _ _ (by norm_num : 0 < 1),
    (chain_bond_body_shifted _).1,
    bonds_loop_done _ _ _ _ 1 _ _ _ (21 + 1) _ (by norm_num)]
  simp [reduce_publish, (chain_bond_body_shifted _).2]

/-- With topology from templates the angle and dihedral engines index the
template rows by the local index `atom2`, the bond engine by `iatom`. -/
theorem template_rows (H : Host K) (h : H.atom.molecular ≠ 1) (a : Nat) (imol iatom : Int)
    (i : Nat) :
    angles_stored2 H a imol i = (H.atom.onemols imol).angle_atom2 (a : Int) i ∧
    angles_atype H a imol i = (H.atom.onemols imol).angle_type (a : Int) i ∧
    dihedrals_stored2 H a imol i = (H.atom.onemols imol).dihedral_atom2 (a : Int) i ∧
    bonds_btype H a imol iatom i = (H.atom.onemols imol).bond_type iatom i := by
  simp [angles_stored2, angles_atype, dihedrals_stored2, bonds_btype, h]

/-- C22 (evaluation at the failing input).  Four local atoms form one molecule
of a template whose row 1 stores one bond, one angle and one dihedral.  When
local index and in-molecule index agree (`chainHost 0`), the angle engine
calls `born` for the angle and exposes `432/15625` in entry 12, and the
dihedral engine calls `born` for the dihedral.  When the template atom 1 is
local atom 0 (`chainHost 1`), the record count is read at row
`molatom[0] = 1`, where the stored centre id equals the tag of atom 0, but
both engines compare the tag with row 0, which holds `0`: the records are
skipped, no `born` call is made and entry 12 is `0`.  The bond engine reads
row `molatom[0]` and calls `born` for the bond of the same atom. -/
theorem template_rows_read_at_local_index :
    ∀ n : Nat,
      (chainHost 1).atom.molatom 0 = 1 ∧
      (((chainHost 1).atom.onemols 0).num_angle 1 = 1 ∧
        ((chainHost 1).atom.onemols 0).angle_atom2 1 0 = (chainHost 1).atom.tag 0 ∧
        angles_stored2 (chainHost 1) 0 0 0 = 0) ∧
      (((chainHost 1).atom.onemols 0).num_dihedral 1 = 1 ∧
        ((chainHost 1).atom.onemols 0).dihedral_atom2 1 0 = (chainHost 1).atom.tag 0 ∧
        dihedrals_stored2 (chainHost 1) 0 0 0 = 0) ∧
      (compute_vector (chainHost 0) (n + 2) (readyBorn 0 0 1 0)).map
          (fun c => (c.vector 12, c.calls)) =
        some ((432 / 15625 : ℚ), [BornCall.angle 1 0 1 2]) ∧
      (compute_vector (chainHost 1) (n + 2) (readyBorn 0 0 1 0)).map
          (fun c => (c.vector 12, c.calls)) = some ((0 : ℚ), []) ∧
      (compute_vector (chainHost 0) (n + 2) (readyBorn 0 0 0 1)).map (fun c => c.calls) =
        some [BornCall.dihedral 1 0 1 2 3] ∧
      (compute_vector (chainHost 1) (n + 2) (readyBorn 0 0 0 1)).map (fun c => c.calls) =
        some [] ∧
      (compute_vector (chainHost 1) (n + 2) (readyBorn 0 1 0 0)).map (fun c => c.calls) =
        some [BornCall.bond 1 1 0 1] :=
  fun n => ⟨rfl, ⟨rfl, rfl, rfl⟩, ⟨rfl, rfl, rfl⟩, chain_angle_aligned n, chain_angle_shifted n,
    chain_dihedral_aligned n, chain_dihedral_shifted n, chain_bond_shifted n⟩

/-! ## Bond ownership by tag -/

theorem bonds_body_accept (H : Host K) (B : BondStyle K) (m p q : Nat) (imol iatom : Int)
    (i : Nat) (st : Acc K)
    (hq : bonds_atom2 H p imol iatom i = (q : Int))
    (hg : H.atom.mask q &&& H.groupbit ≠ 0)
    (hown : ¬ (H.force.newton_bond = 0 ∧ H.atom.tag p > H.atom.tag q))
    (ht : 0 < bonds_btype H p imol iatom i) :
    bonds_body H B m p imol iatom i st =
      bonds_tensor H B m p q (bonds_btype H p imol iatom i) st := by
  have h1 : ¬ ((q : Int) < 0 ∨ H.atom.mask q &&& H.groupbit = 0) := by
    rintro (h | h)
    · omega
    · exact hg h
  have h3 : ¬ bonds_btype H p imol iatom i ≤ 0 := by omega
  simp only [bonds_body, bonds_tensor, hq, Int.toNat_ofNat, if_neg h1, if_neg hown, if_neg h3]

theorem bonds_body_tag_skip (H : Host K) (B : BondStyle K) (m p q : Nat) (imol iatom : Int)
    (i : Nat) (st : Acc K)
    (hq : bonds_atom2 H p imol iatom i = (q : Int))
    (hoff : H.force.newton_bond = 0) (htag : H.atom.tag q < H.atom.tag p) :
    bonds_body H B m p imol iatom i st = (i, st) := by
  simp only [bonds_body, hq, Int.toNat_ofNat]
  split_ifs with h1 h2 h3
  · rfl
  · rfl
  · rfl
  · exact absurd ⟨hoff, htag⟩ h2

theorem bonds_loop_single (H : Host K) (B : BondStyle K) (m p : Nat) (imol iatom : Int)
    (fuel : Nat) (st : Acc K) :
    bonds_loop H B m p 1 imol iatom (fuel + 2) 0 st =
      some (bonds_body H B m p imol iatom 0 st).2 := by
  rw [bonds_loop_step _ _ _ _ _ _ _ _ _ _ (by norm_num),
    bonds_loop_done _ _ _ _ _ _ _ _ _ _ (by omega)]

theorem sharedBond_atom (nb : Int) (n a : Nat) (st : Acc ℚ) :
    bonds_atom (sharedBondHost nb) (constBond (2, 5)) 0 (n + 2) a st =
      some (bonds_body (sharedBondHost nb) (constBond (2, 5)) 0 a 0 0 0 st).2 := by
  have e : bonds_atom (sharedBondHost nb) (constBond (2, 5)) 0 (n + 2) a st
      = bonds_loop (sharedBondHost nb) (constBond (2, 5)) 0 a 1 0 0 (n + 2) 0 st := by
    simp [bonds_atom, sharedBondHost, sharedBondAtom, plainHost, plainAtom]
  rw [e, bonds_loop_single]

theorem sharedBond_body0 (nb : Int) (st : Acc ℚ) :
    bonds_body (sharedBondHost nb) (constBond (2, 5)) 0 0 0 0 0 st =
      (21, { values_local :=
               add21 0 (pair_term albemunu_spec 3 (vec3 ((1 : ℚ), (0 : ℚ), (0 : ℚ))) 1)
                 st.values_local,
             calls := st.calls ++ [BornCall.bond 1 1 0 1] }) := by
  simp only [bonds_body, bonds_btype, bonds_atom2, sharedBondHost, sharedBondAtom, plainHost,
    plainAtom, plainForce, min_image_del, linePos, constBond]
  norm_num [exactSqrt, vec3_zero, vec3_one, vec3_two]

theorem sharedBond_body1_off (st : Acc ℚ) :
    bonds_body (sharedBondHost 0) (constBond (2, 5)) 0 1 0 0 0 st = (0, st) := by
  simp only [bonds_body, bonds_btype, bonds_atom2, sharedBondHost, sharedBondAtom, plainHost,
    plainAtom, plainForce, min_image_del, linePos, constBond]
  norm_num

theorem sharedBond_body1_on (st : Acc ℚ) :
    bonds_body (sharedBondHost 1) (constBond (2, 5)) 0 1 0 0 0 st =
      (21, { values_local :=
               add21 0 (pair_term albemunu_spec 3 (vec3 ((-1 : ℚ), (0 : ℚ), (0 : ℚ))) 1)
                 st.values_local,
             calls := st.calls ++ [BornCall.bond 1 1 1 0] }) := by
  simp only [bonds_body, bonds_btype, bonds_atom2, sharedBondHost, sharedBondAtom, plainHost,
    plainAtom, plainForce, min_image_del, linePos, constBond]
  norm_num [exactSqrt, vec3_zero, vec3_one, vec3_two]

/-- The engine on the system of `sharedBondHost`: with `newton_bond = 0` one
`born` call and `3` in entry 0, with `newton_bond = 1` two calls and `6`. -/
theorem sharedBond_vector (n : Nat) :
    (compute_vector (sharedBondHost 0) (n + 2) (readyBorn 0 1 0 0)).map
        (fun c => (c.vector 0, c.calls)) = some ((3 : ℚ), [BornCall.bond 1 1 0 1]) ∧
    (compute_vector (sharedBondHost 1) (n + 2) (readyBorn 0 1 0 0)).map
        (fun c => (c.vector 0, c.calls)) =
      some ((6 : ℚ), [BornCall.bond 1 1 0 1, BornCall.bond 1 1 1 0]) := by
  have hb : ∀ nb, (sharedBondHost nb).force.bond = some (constBond (2, 5)) := fun _ => rfl
  have hn : ∀ nb, (sharedBondHost nb).atom.nlocal = 2 := fun _ => rfl
  constructor
  · simp only [compute_vector, compute_local, readyBorn, compute_bonds, hb, hn, whileM_once,
      forRange_succ, forRange_zero, sharedBond_atom, Option.some_bind, sharedBond_body0,
      sharedBond_body1_off]
    simp [reduce_publish, add21_zero, zero_local_apply, pair_term, albemunu_spec, vec3]
  · simp only [compute_vector, compute_local, readyBorn, compute_bonds, hb, hn, whileM_once,
      forRange_succ, forRange_zero, sharedBond_atom, Option.some_bind, sharedBond_body0,
      sharedBond_body1_on]
    simp [reduce_publish, add21_apply, zero_local_apply, pair_term, albemunu_spec, vec3]
    norm_num

/-- C23.  Let `p` and `q` be two in-group local atoms, the tag of `p` below
the tag of `q`, each storing the bond to the other, of type > 0, as its only
record (the record loop runs with `nb = 1`).  The record on `p`, the atom with
the lower tag, always contributes: its loop returns the state after the
tensor loop, with one `born` call.  The record on `q` is skipped, and its loop
returns the state it was given, exactly when `newton_bond` is `0`; with any
other `newton_bond` it contributes as well. -/
theorem bond_tag_ownership (H : Host K) (B : BondStyle K) (m p q : Nat)
    (imolp iatomp imolq iatomq : Int) (fuel : Nat) (st : Acc K)
    (hpq : bonds_atom2 H p imolp iatomp 0 = (q : Int))
    (hqp : bonds_atom2 H q imolq iatomq 0 = (p : Int))
    (hgp : H.atom.mask p &&& H.groupbit ≠ 0) (hgq : H.atom.mask q &&& H.groupbit ≠ 0)
    (htp : 0 < bonds_btype H p imolp iatomp 0) (htq : 0 < bonds_btype H q imolq iatomq 0)
    (htag : H.atom.tag p < H.atom.tag q) :
    bonds_loop H B m p 1 imolp iatomp (fuel + 2) 0 st =
      some (bonds_tensor H B m p q (bonds_btype H p imolp iatomp 0) st).2 ∧
    bonds_loop H B m q 1 imolq iatomq (fuel + 2) 0 st =
      some (if H.force.newton_bond = 0 then st
        else (bonds_tensor H B m q p (bonds_btype H q imolq iatomq 0) st).2) := by
  constructor
  · rw [bonds_loop_single, bonds_body_accept H B m p q imolp iatomp 0 st hpq hgq
      (by intro h; exact absurd h.2 (not_lt.mpr (le_of_lt htag))) htp]
  · rw [bonds_loop_single]
    by_cases hoff : H.force.newton_bond = 0
    · rw [bonds_body_tag_skip H B m q p imolq iatomq 0 st hqp hoff htag, if_pos hoff]
    · rw [bonds_body_accept H B m q p imolq iatomq 0 st hqp hgp (fun h => hoff h.1) htq,
        if_neg hoff]

/-- C23, on two atoms with tags 1 and 2 that both store the bond between
them: with `newton_bond = 0` the loop of atom 0 adds the record and the loop
of atom 1 returns its state; with `newton_bond = 1` both loops add it.
`compute_vector` makes one `born` call and exposes `3` in entry 0 in the
first system, two calls and `6` in the second. -/
theorem bond_tag_ownership_witness :
    (bonds_atom2 (sharedBondHost 0) 0 0 0 0 = ((1 : Nat) : Int) ∧
      bonds_atom2 (sharedBondHost 0) 1 0 0 0 = ((0 : Nat) : Int) ∧
      (sharedBondHost 0).atom.mask 0 &&& (sharedBondHost 0).groupbit ≠ 0 ∧
      (sharedBondHost 0).atom.mask 1 &&& (sharedBondHost 0).groupbit ≠ 0 ∧
      0 < bonds_btype (sharedBondHost 0) 0 0 0 0 ∧
      0 < bonds_btype (sharedBondHost 0) 1 0 0 0 ∧
      (sharedBondHost 0).atom.tag 0 < (sharedBondHost 0).atom.tag 1) ∧
    (bonds_loop (sharedBondHost 0) (constBond (2, 5)) 0 0 1 0 0 (0 + 2) 0 ⟨fun _ => 0, []⟩ =
        some (bonds_tensor (sharedBondHost 0) (constBond (2, 5)) 0 0 1
          (bonds_btype (sharedBondHost 0) 0 0 0 0) ⟨fun _ => 0, []⟩).2 ∧
      bonds_loop (sharedBondHost 0) (constBond (2, 5)) 0 1 1 0 0 (0 + 2) 0 ⟨fun _ => 0, []⟩ =
        some (if (sharedBondHost 0).force.newton_bond = 0 then ⟨fun _ => 0, []⟩
          else (bonds_tensor (sharedBondHost 0) (constBond (2, 5)) 0 1 0
            (bonds_btype (sharedBondHost 0) 1 0 0 0) ⟨fun _ => 0, []⟩).2)) ∧
    (bonds_loop (sharedBondHost 1) (constBond (2, 5)) 0 0 1 0 0 (0 + 2) 0 ⟨fun _ => 0, []⟩ =
        some (bonds_tensor (sharedBondHost 1) (constBond (2, 5)) 0 0 1
          (bonds_btype (sharedBondHost 1) 0 0 0 0) ⟨fun _ => 0, []⟩).2 ∧
      bonds_loop (sharedBondHost 1) (constBond (2, 5)) 0 1 1 0 0 (0 + 2) 0 ⟨fun _ => 0, []⟩ =
        some (if (sharedBondHost 1).force.newton_bond = 0 then ⟨fun _ => 0, []⟩
          else (bonds_tensor (sharedBondHost 1) (constBond (2, 5)) 0 1 0
            (bonds_btype (sharedBondHost 1) 1 0 0 0) ⟨fun _ => 0, []⟩).2)) ∧
    (compute_vector (sharedBondHost 0) (0 + 2) (readyBorn 0 1 0 0)).map
        (fun c => (c.vector 0, c.calls)) = some ((3 : ℚ), [BornCall.bond 1 1 0 1]) ∧
    (compute_vector (sharedBondHost 1) (0 + 2) (readyBorn 0 1 0 0)).map
        (fun c => (c.vector 0, c.calls)) =
      some ((6 : ℚ), [BornCall.bond 1 1 0 1, BornCall.bond 1 1 1 0]) :=
  ⟨⟨rfl, rfl, by decide, by decide, by decide, by decide, by decide⟩,
    bond_tag_ownership (sharedBondHost 0) (constBond (2, 5)) 0 0 1 0 0 0 0 0 ⟨fun _ => 0, []⟩
      rfl rfl (by decide) (by decide) (by decide) (by decide) (by decide),
    bond_tag_ownership (sharedBondHost 1) (constBond (2, 5)) 0 0 1 0 0 0 0 0 ⟨fun _ => 0, []⟩
      rfl rfl (by decide) (by decide) (by decide) (by decide) (by decide),
    sharedBond_vector 0⟩

/-! ## Zero components of a pair displacement, in doubles -/

theorem ieee_rsq (sep : ℚ) (rinv : Dbl) :
    pairs_rsq_ieee Dbl.fin (ieeeHost sep rinv) (ieeePos sep 0) 1 = Dbl.fin (sep * sep) := by
  simp [pairs_rsq_ieee, ieeeHost, ieeePos, pairList, dsub, dmul, dadd]

theorem ieee_accepted (sep : ℚ) (rinv : Dbl) (du : Dbl × Dbl) (h : sep * sep < 4) :
    pairs_accepted_ieee Dbl.fin (ieeeHost sep rinv) (ieeePair du) (ieeePos sep 0) 1 1 := by
  refine ⟨?_, ?_, Or.inl ?_⟩
  · simp [ieeeHost, pairList]
  · rw [ieee_rsq]
    simp [ieeePair, dge, h]
  · simp [ieeeHost]

theorem ieee_calls (sep : ℚ) (rinv : Dbl) (du : Dbl × Dbl) (h : sep * sep < 4) :
    (pairs_jj_ieee Dbl.fin (ieeeHost sep rinv) (ieeePair du) 0 (ieeePos sep 0) 1 1
        (0, ⟨fun _ => Dbl.fin 0, []⟩)).2.calls =
      [BornCall.pair 0 1 1 1 (Dbl.fin (sep * sep)) (Dbl.fin 1) (Dbl.fin 1)] := by
  obtain ⟨h1, h2, h3⟩ := ieee_accepted sep rinv du h
  have h2n : ¬ dge (pairs_rsq_ieee Dbl.fin (ieeeHost sep rinv) (ieeePos sep 0) 1)
      ((ieeePair du).cutsq 1
        ((ieeeHost sep rinv).atom.type ((ieeeHost sep rinv).list.neighmask 1))) = true := by
    rw [h2]; exact Bool.false_ne_true
  simp only [pairs_jj_ieee, if_neg h1, if_neg h2n, if_pos h3]
  simp only [ieee_rsq]
  rfl

end ComputeBorn
